import Mathlib

/-!
# Lifecycle hooks of the CCM private certificate and CSMS secret resources

A shallow embedding of
`huaweicloud/services/ccm/resource_huaweicloud_ccm_private_certificate.go` and
`huaweicloud/services/dew/resource_huaweicloud_csms_secret.go`.

Remote calls and framework calls are deterministic oracles collected in an
environment record; a hook is a pure function of the resource data and of that
record.  A Go run-time failure (nil dereference, failed type assertion, index out
of range) is the `Except.error` branch of the `Go` monad.
-/

namespace Huaweicloud

/-! ## Go values -/

/-- Go `interface{}` values as they occur in decoded JSON documents and in
resource attributes.  `float64` numbers are kept exact. -/
inductive Value where
  | null
  | bool (b : Bool)
  | int (n : Int)
  | float64 (x : Rat)
  | str (s : String)
  | list (xs : List Value)
  | map (kvs : List (String × Value))

instance : Inhabited Value := ⟨Value.null⟩

/-- Run-time failures of a Go program. -/
inductive Panic where
  | nilDereference
  | indexOutOfRange
  | typeAssertion
  deriving DecidableEq, Repr

/-- A Go computation: it returns a value or it panics. -/
abbrev Go (α : Type) := Except Panic α

/-- The concrete error types of `golangsdk` that wrap an unexpected response. -/
inductive ErrKind where
  | ErrDefault400 | ErrDefault401 | ErrDefault403 | ErrDefault404 | ErrDefault405
  | ErrDefault408 | ErrDefault429 | ErrDefault500 | ErrDefault503
  | ErrUnexpectedResponseCode
  deriving DecidableEq, Repr

/-- The payload `golangsdk.ErrUnexpectedResponseCode`.  `Body` records what
`json.Unmarshal` makes of the body bytes: `none` when they are not a JSON
document, the decoded value otherwise. -/
structure ErrUnexpectedResponseCode where
  Actual : Int
  Body : Option Value

/-- A non-nil Go `error`: one of the typed `golangsdk` response errors, an error
made by `fmt.Errorf` around another one, or any other error, known by its text. -/
inductive GoError where
  | sdk (kind : ErrKind) (e : ErrUnexpectedResponseCode)
  | wrap (format : String) (cause : GoError)
  | other (msg : String)

/-- The literal `golangsdk.ErrDefault404{}`: every field has its zero value, and
`json.Unmarshal` rejects the empty body. -/
def ErrDefault404Zero : GoError := .sdk .ErrDefault404 ⟨0, none⟩

/-! ## Diagnostics -/

/-- Severity of a diagnostic. -/
inductive Severity where
  | Error | Warning
  deriving DecidableEq, Repr

/-- One `diag.Diagnostic`.  `Summary` is the text up to the interpolated errors;
the errors printed with `%s` are kept as values in `Errors`. -/
structure Diagnostic where
  Severity : Severity
  Summary : String
  Errors : List GoError

/-- The `diag.Diagnostics` slice; `nil` is the empty list. -/
abbrev Diagnostics := List Diagnostic

/-- The method `diag.Diagnostics.HasError`. -/
def Diagnostics.HasError (ds : Diagnostics) : Bool :=
  ds.any fun dg => decide (dg.Severity = Severity.Error)

/-- The call `diag.Errorf(format, errs...)`: one diagnostic of severity Error. -/
def diagErrorf (summary : String) (errs : List GoError) : Diagnostics :=
  [⟨Severity.Error, summary, errs⟩]

/-- The call `diag.FromErr(err)` on a non-nil error. -/
def diagFromErr (err : GoError) : Diagnostics :=
  [⟨Severity.Error, "", [err]⟩]

/-! ## Resource data -/

/-- The part of `*schema.ResourceData` the hooks use: the id, the attribute
values (`d.Get` yields the zero value of an unset attribute, so the lookup is
total), and the field writer of the schema framework, which answers a `d.Set`
with the value it stores or with an error.  For an update the record also holds
the attribute values of the prior state, `old`, and the framework's verdict
`changed` on whether an attribute differs between the prior state and the
configuration. -/
structure ResourceData where
  Id : String
  attrs : String → Value
  writer : String → Value → Except GoError Value
  old : String → Value := attrs
  changed : String → Bool := fun _ => false

/-- The method `d.SetId`. -/
def ResourceData.SetId (d : ResourceData) (id : String) : ResourceData :=
  { d with Id := id }

/-- The method `d.Get`. -/
def ResourceData.Get (d : ResourceData) (key : String) : Value :=
  d.attrs key

/-- The method `d.Set`: the updated data and the error, if any.  A rejected
write leaves the data as it was. -/
def ResourceData.Set (d : ResourceData) (key : String) (v : Value) :
    ResourceData × Option GoError :=
  match d.writer key v with
  | .ok w => ({ d with attrs := fun k => if k = key then w else d.attrs k }, none)
  | .error e => (d, some e)

/-- The method `d.GetChange`: the old and the new value of an attribute. -/
def ResourceData.GetChange (d : ResourceData) (key : String) : Value × Value :=
  (d.old key, d.attrs key)

/-- The method `d.HasChange`. -/
def ResourceData.HasChange (d : ResourceData) (key : String) : Bool :=
  d.changed key

/-- The method `d.HasChanges`: whether any of the attributes has a change. -/
def ResourceData.HasChanges (d : ResourceData) (keys : List String) : Bool :=
  keys.any fun key => d.HasChange key

/-- A field writer for string attributes: a Go string written to one of `keys`
is stored unchanged, anything else is refused. -/
def stringWriter (keys : List String) (key : String) (v : Value) : Except GoError Value :=
  match v with
  | .str s => if key ∈ keys then .ok (.str s) else .error (.other "Invalid address to set")
  | _ => .error (.other "unconvertible type")

/-! ## Strings -/

/-- Splitting a character sequence at every occurrence of `sep`. -/
def splitChars (sep : Char) : List Char → List (List Char)
  | [] => [[]]
  | c :: cs =>
    if c = sep then [] :: splitChars sep cs
    else
      match splitChars sep cs with
      | [] => [[c]]
      | p :: ps => (c :: p) :: ps

/-- The call `strings.Split(s, sep)` for a one-character separator: the
substrings between the separators, `Count(s, sep) + 1` of them. -/
def stringsSplit (s : String) (sep : Char) : List String :=
  (splitChars sep s.data).map String.mk

/-! ## CSMS secret: the composite id and Import -/

/-- The function `parseID`. -/
def parseID (id : String) : String × String :=
  match stringsSplit id '/' with
  | [a, b] => (a, b)
  | _ => ("", "")

/-- The error `resourceCsmsSecretImport` builds with `fmt.Errorf`. -/
def invalidImportFormat : GoError :=
  .other "invalid format specified for the ID of CSMS secret. Format must be <id>/<name>"

/-- The function `resourceCsmsSecretImport`.  The first component is the
resource data as the hook leaves it; the second is the returned pair
`([]*schema.ResourceData, error)`. -/
def resourceCsmsSecretImport (d : ResourceData) :
    ResourceData × Except GoError (List ResourceData) :=
  let (id, name) := parseID d.Id
  if id = "" then
    (d, .error invalidImportFormat)
  else
    let d1 := (d.Set "secret_id" (.str id)).1
    let d2 := (d1.Set "name" (.str name)).1
    (d2, .ok [d2])

/-! ## Helpers shared by the hooks -/

/-- The call `jmespath.Search(field, data)` for an expression that is a single
field name: the member of a JSON object, `nil` when the member is absent or the
data is not an object.  Such an expression always parses, so the error result is
always `nil`. -/
def jmespathSearch (field : String) : Value → Value
  | .map kvs =>
    match kvs.lookup field with
    | some v => v
    | none => .null
  | _ => .null

/-- The comparison `v == s` of an `interface{}` with a Go string: true exactly
when the dynamic type is `string` and the texts agree. -/
def Value.eqString : Value → String → Bool
  | .str s, t => decide (s = t)
  | _, _ => false

/-- The type assertion `v.(string)`. -/
def Value.assertString : Value → Go String
  | .str s => pure s
  | _ => throw Panic.typeAssertion

/-- The type assertion `v.(float64)`. -/
def Value.assertFloat64 : Value → Go Rat
  | .float64 x => pure x
  | _ => throw Panic.typeAssertion

/-- The type assertion `v.(map[string]interface{})`. -/
def Value.assertMap : Value → Go (List (String × Value))
  | .map kvs => pure kvs
  | _ => throw Panic.typeAssertion

/-- The type assertion `v.([]interface{})`. -/
def Value.assertList : Value → Go (List Value)
  | .list xs => pure xs
  | _ => throw Panic.typeAssertion

/-- The index expression `m[key]` on a `map[string]interface{}`. -/
def mapIndex (m : List (String × Value)) (key : String) : Value :=
  match m.lookup key with
  | some v => v
  | none => .null

/-- Whether a value is the zero value of its type, as `d.GetOk` tests it. -/
def Value.isZero : Value → Bool
  | .null => true
  | .bool b => !b
  | .int n => decide (n = 0)
  | .float64 x => decide (x = 0)
  | .str s => decide (s = "")
  | .list xs => xs.isEmpty
  | .map kvs => kvs.isEmpty

/-- The method `d.GetOk`: the value, and whether it differs from the zero value. -/
def ResourceData.GetOk (d : ResourceData) (key : String) : Value × Bool :=
  (d.attrs key, !(d.attrs key).isZero)

/-- A run of `d.Set` calls in source order, as the arguments of one
`multierror.Append`: the data after all of them and the non-nil errors. -/
def setAll (d : ResourceData) : List (String × Value) → ResourceData × List GoError
  | [] => (d, [])
  | (k, v) :: rest =>
    ((setAll (d.Set k v).1 rest).1, (d.Set k v).2.toList ++ (setAll (d.Set k v).1 rest).2)

/-- The conversion `int64(x)` of a `float64`: truncation toward zero when the
truncated value is an `int64`.  Outside that range the language leaves the
result to the implementation; the value here is the one of amd64, the minimum
`int64`. -/
def int64OfFloat64 (x : Rat) : Int :=
  if -9223372036854775808 ≤ Int.tdiv x.num x.den ∧
      Int.tdiv x.num x.den ≤ 9223372036854775807 then
    Int.tdiv x.num x.den
  else -9223372036854775808

/-- The error a hook returns after `mErr.ErrorOrNil()`: nothing when no error was
collected, one Error diagnostic listing them otherwise. -/
def diagOfMultierror (summary : String) (mErr : List GoError) : Diagnostics :=
  if mErr.isEmpty then [] else diagErrorf summary mErr

/-! ## CCM private certificate -/

/-- An `*http.Response`; `Body` is the JSON document it carries, if it is one. -/
structure HttpResponse where
  StatusCode : Int
  Body : Option Value

/-- The `*golangsdk.ServiceClient`: its endpoint and the outcome of
`client.Request(method, url, opts)`, the third argument being `opts.JSONBody`. -/
structure ServiceClient where
  Endpoint : String
  Request : String → String → Option Value → Except GoError HttpResponse

/-- What the CCM hooks call outside this file: the provider configuration
(`meta`), and the helpers of the packages `common`, `utils` and `ccm` that are
declared in other files. -/
structure CcmEnv where
  GetRegion : ResourceData → String
  GetEnterpriseProjectID : ResourceData → String
  NewServiceClient : String → String → Except GoError ServiceClient
  CheckDeletedDiag : ResourceData → GoError → String → ResourceData × Diagnostics
  FlattenResponse : HttpResponse → Except GoError Value
  PathSearch : String → Value → Value → Value
  PathSearchData : String → ResourceData → Value → Value
  RemoveNil : List (String × Value) → List (String × Value)
  ValueIngoreEmpty : Value → Value
  FormatTimeStampRFC3339 : Int → Bool → String
  flattenDistinguishedName : Value → Value
  getTags : String → ServiceClient → String → Except GoError (List (String × Value))
  createTags : String → ServiceClient → List (String × Value) → String → Option GoError
  deleteTags : String → ServiceClient → List (String × Value) → String → Option GoError

/-- Modelled from the spec: `common.CheckDeletedDiag`, declared in the package
`common`, whose file is not among the sources.  A not-found error (the type
`golangsdk.ErrDefault404`) marks the local record Absent, the id is cleared, and
is reported as a warning; any other error is fatal and surfaced with the message
as context. -/
def CheckDeletedDiag (d : ResourceData) (err : GoError) (msg : String) :
    ResourceData × Diagnostics :=
  match err with
  | .sdk .ErrDefault404 _ => (d.SetId "", [⟨Severity.Warning, "Resource not found", []⟩])
  | _ => (d, diagErrorf msg [err])

/-- Modelled from the spec: `utils.PathSearch`, declared in the package `utils`,
whose file is not among the sources.  A tolerant field-path lookup: the value at
the path, and the default when the path is absent; a path that is present but
null is not told apart from an absent one.  Every path the hooks look up is a
single field name. -/
def PathSearch (expression : String) (obj : Value) (defaultValue : Value) : Value :=
  match jmespathSearch expression obj with
  | .null => defaultValue
  | v => v

/-- Modelled from the spec: `utils.ValueIngoreEmpty`, declared in the package
`utils`, whose file is not among the sources.  A value that is empty at the
language level (nil, the empty string, a zero number, an empty list) becomes nil,
so that the field is left out of the payload; any other value is kept. -/
def ValueIngoreEmpty : Value → Value
  | .null => .null
  | .str s => if s = "" then .null else .str s
  | .int n => if n = 0 then .null else .int n
  | .float64 x => if x = 0 then .null else .float64 x
  | .list xs => if xs.isEmpty then .null else .list xs
  | .bool b => .bool b
  | .map kvs => .map kvs

mutual
/-- The members of a nested object after `RemoveNil`. -/
def removeNilValue : Value → Value
  | .map kvs => .map (RemoveNil kvs)
  | .null => .null
  | .bool b => .bool b
  | .int n => .int n
  | .float64 x => .float64 x
  | .str s => .str s
  | .list xs => .list xs
termination_by structural v => v
/-- Modelled from the spec: `utils.RemoveNil`, declared in the package `utils`,
whose file is not among the sources.  The members whose value is nil are left
out of the payload, in the object itself and in the objects nested in it; every
other member, an empty string included, is kept: the builder turns an empty
value into nil with `utils.ValueIngoreEmpty` where it wants the field omitted. -/
def RemoveNil : List (String × Value) → List (String × Value)
  | [] => []
  | p :: rest => removeNilEntry p ++ RemoveNil rest
termination_by structural l => l
/-- One member of an object under `RemoveNil`. -/
def removeNilEntry : String × Value → List (String × Value)
  | (_, .null) => []
  | (k, v) => [(k, removeNilValue v)]
termination_by structural p => p
end

/-- The function `hasErrorCode`. -/
def hasErrorCode (err : GoError) (expectCode : String) : Bool :=
  match err with
  | .sdk .ErrDefault400 errCode =>
    match errCode.Body with
    | some response => (jmespathSearch "error_code" response).eqString expectCode
    | none => false
  | _ => false

/-- The function `buildCertDistinguishedName`. -/
def buildCertDistinguishedName (rawParams : Value) : Go (List (String × Value)) :=
  let rawArray : List Value :=
    match rawParams with
    | .list xs => xs
    | _ => []
  match rawArray with
  | [] => throw Panic.indexOutOfRange
  | first :: _ => do
    let raw ← first.assertMap
    pure [("common_name", mapIndex raw "common_name"),
      ("country", mapIndex raw "country"),
      ("state", mapIndex raw "state"),
      ("locality", mapIndex raw "locality"),
      ("organization", mapIndex raw "organization"),
      ("organizational_unit", mapIndex raw "organizational_unit")]

/-- The function `buildValidity`. -/
def buildValidity (env : CcmEnv) (rawParams : Value) : Go (List (String × Value)) :=
  let rawArray : List Value :=
    match rawParams with
    | .list xs => xs
    | _ => []
  match rawArray with
  | [] => throw Panic.indexOutOfRange
  | first :: _ => do
    let raw ← first.assertMap
    pure [("type", mapIndex raw "type"),
      ("value", mapIndex raw "value"),
      ("start_from", env.ValueIngoreEmpty (mapIndex raw "start_at"))]

/-- The function `buildExtendedKeyUsage`. -/
def buildExtendedKeyUsage (d : ResourceData) : List (String × Value) :=
  [("server_auth", d.Get "server_auth"),
    ("client_auth", d.Get "client_auth"),
    ("code_signing", d.Get "code_signing"),
    ("email_protection", d.Get "email_protection"),
    ("time_stamping", d.Get "time_stamping")]

/-- The function `buildCustomizedExtension`. -/
def buildCustomizedExtension (d : ResourceData) : List (String × Value) :=
  [("object_identifier", d.Get "object_identifier"),
    ("value", d.Get "object_identifier_value")]

/-- The function `buidSubjectAlternativeName`. -/
def buidSubjectAlternativeName (env : CcmEnv) (d : ResourceData) : Go (List Value) := do
  let curJson := env.PathSearchData "subject_alternative_names" d (.list [])
  let curArray ← curJson.assertList
  pure (curArray.map fun v =>
    Value.map [("type", env.PathSearch "type" v .null), ("value", env.PathSearch "value" v .null)])

/-- The function `buildCreateCertificateBodyParams`; the entries of the map
literal are evaluated in source order. -/
def buildCreateCertificateBodyParams (env : CcmEnv) (d : ResourceData) :
    Go (List (String × Value)) := do
  let distinguishedName ← buildCertDistinguishedName (d.Get "distinguished_name")
  let validity ← buildValidity env (d.Get "validity")
  let subjectAlternativeNames ← buidSubjectAlternativeName env d
  pure [("issuer_id", d.Get "issuer_id"),
    ("key_algorithm", d.Get "key_algorithm"),
    ("signature_algorithm", d.Get "signature_algorithm"),
    ("distinguished_name", .map distinguishedName),
    ("validity", .map validity),
    ("enterprise_project_id", env.ValueIngoreEmpty (.str (env.GetEnterpriseProjectID d))),
    ("key_usage", d.Get "key_usage"),
    ("extended_key_usage", .map (buildExtendedKeyUsage d)),
    ("customized_extension", .map (buildCustomizedExtension d)),
    ("subject_alternative_names", .list subjectAlternativeNames)]

/-- The request path of one certificate, as Read and Delete build it: the
endpoint followed by `v1/private-certificates/{certificate_id}`, the placeholder
replaced by the id with `strings.ReplaceAll`. -/
def certificatePath (client : ServiceClient) (d : ResourceData) : String :=
  (client.Endpoint ++ "v1/private-certificates/\x7bcertificate_id\x7d").replace
    "\x7bcertificate_id\x7d" d.Id

/-- The attribute writes of `resourceCcmPrivateCertificateRead`, in source order. -/
def ccmReadFields (env : CcmEnv) (region : String) (body : Value)
    (tags : List (String × Value)) (created started expired : Rat) : List (String × Value) :=
  [("region", .str region),
    ("distinguished_name", env.flattenDistinguishedName body),
    ("issuer_id", env.PathSearch "issuer_id" body .null),
    ("key_algorithm", env.PathSearch "key_algorithm" body .null),
    ("signature_algorithm", env.PathSearch "signature_algorithm" body .null),
    ("enterprise_project_id", env.PathSearch "enterprise_project_id" body .null),
    ("issuer_name", env.PathSearch "issuer_name" body .null),
    ("status", env.PathSearch "status" body .null),
    ("gen_mode", env.PathSearch "gen_mode" body .null),
    ("start_at", .str (env.FormatTimeStampRFC3339 (Int.tdiv (int64OfFloat64 started) 1000) false)),
    ("expired_at", .str (env.FormatTimeStampRFC3339 (Int.tdiv (int64OfFloat64 expired) 1000) false)),
    ("created_at", .str (env.FormatTimeStampRFC3339 (Int.tdiv (int64OfFloat64 created) 1000) false)),
    ("tags", .map tags)]

/-- The function `resourceCcmPrivateCertificateRead`: the resource data as the
hook leaves it, and the diagnostics it returns. -/
def resourceCcmPrivateCertificateRead (env : CcmEnv) (d : ResourceData) :
    Go (ResourceData × Diagnostics) :=
  let region := env.GetRegion d
  match env.NewServiceClient "ccm" region with
  | .error err => pure (d, diagErrorf "error creating CCM client: %s" [err])
  | .ok client =>
    match client.Request "GET" (certificatePath client d) none with
    | .error err =>
      let err := if hasErrorCode err "PCA.10010002" then ErrDefault404Zero else err
      pure (env.CheckDeletedDiag d err "error retrieving CCM private certificate")
    | .ok getCertificateResp =>
      match env.FlattenResponse getCertificateResp with
      | .error err => pure (d, diagFromErr err)
      | .ok getCertificateRespBody =>
        match env.getTags d.Id client "v1/private-certificates/\x7bid\x7d/tags" with
        | .error err => pure (d, diagFromErr err)
        | .ok tags => do
          let created ← (env.PathSearch "create_time" getCertificateRespBody (.int 0)).assertFloat64
          let started ← (env.PathSearch "not_before" getCertificateRespBody (.int 0)).assertFloat64
          let expired ← (env.PathSearch "not_after" getCertificateRespBody (.int 0)).assertFloat64
          let res := setAll d (ccmReadFields env region getCertificateRespBody tags created started expired)
          pure (res.1, diagOfMultierror "error setting CCM private certificate fields: %s" res.2)

/-- The function `resourceCcmPrivateCertificateCreate`. -/
def resourceCcmPrivateCertificateCreate (env : CcmEnv) (d : ResourceData) :
    Go (ResourceData × Diagnostics) :=
  match env.NewServiceClient "ccm" (env.GetRegion d) with
  | .error err => pure (d, diagErrorf "error creating CCM client: %s" [err])
  | .ok client => do
    let createCertificatePath := client.Endpoint ++ "v1/private-certificates"
    let bodyParams ← buildCreateCertificateBodyParams env d
    match client.Request "POST" createCertificatePath (some (.map (env.RemoveNil bodyParams))) with
    | .error err => pure (d, diagErrorf "error creating CCM private certificate: %s" [err])
    | .ok createCertificateResp =>
      match env.FlattenResponse createCertificateResp with
      | .error err => pure (d, diagFromErr err)
      | .ok createCertificateRespBody => do
        let id ← (jmespathSearch "certificate_id" createCertificateRespBody).assertString
        let d1 := d.SetId id
        let tags ← (d1.Get "tags").assertMap
        match env.createTags id client tags "v1/private-certificates/\x7bid\x7d/tags/create" with
        | some err => pure (d1, diagFromErr err)
        | none => resourceCcmPrivateCertificateRead env d1

/-- The function `resourceCcmPrivateCertificateDelete`. -/
def resourceCcmPrivateCertificateDelete (env : CcmEnv) (d : ResourceData) :
    ResourceData × Diagnostics :=
  match env.NewServiceClient "ccm" (env.GetRegion d) with
  | .error err => (d, diagErrorf "error creating CCM client: %s" [err])
  | .ok client =>
    match client.Request "DELETE" (certificatePath client d) none with
    | .error err =>
      if hasErrorCode err "PCA.10010002" then (d, [])
      else (d, diagErrorf "error deleting CCM private certificate: %s" [err])
    | .ok _ => (d, [])

/-! ## CSMS secret -/

/-- The constant `serviceType`. -/
def serviceType : String := "csms"

/-- The fields of `secrets.Secret` the hooks read. -/
structure Secret where
  ID : String
  Name : String
  State : String
  KmsKeyID : String
  Description : String
  CreateTime : Int

/-- The fields of `secrets.VersionMetadata` the hooks read. -/
structure VersionMetadata where
  ID : String
  CreateTime : Int

/-- The fields of `secrets.Version` the hooks read. -/
structure Version where
  VersionMetadata : VersionMetadata
  SecretString : String

/-- The struct `secrets.CreateSecretOpts` as the hook fills it. -/
structure CreateSecretOpts where
  Name : String
  KmsKeyID : String
  Description : String
  SecretString : String

/-- The struct `secrets.UpdateSecretOpts` as the hook fills it. -/
structure UpdateSecretOpts where
  KmsKeyID : String
  Description : String

/-- The struct `tags.ResourceTag`. -/
structure ResourceTag where
  Key : String
  Value : String

/-- The KMS service client with the `golangsdk` calls made through it: the
packages `secrets` and `tags`, each call an oracle of its arguments. -/
structure KmsClient where
  secretsCreate : CreateSecretOpts → Except GoError Secret
  secretsGet : String → Except GoError Secret
  secretsUpdate : String → UpdateSecretOpts → Option GoError
  secretsDelete : String → Option GoError
  CreateSecretVersion : String → String → Option GoError
  ListSecretVersions : String → Except GoError (List VersionMetadata)
  ShowSecretVersion : String → String → Except GoError Version
  tagsCreate : String → String → List ResourceTag → Option GoError
  tagsGet : String → String → Except GoError (List ResourceTag)

/-- What the CSMS hooks call outside this file: the provider configuration
(`meta`) and the helpers of the packages `common` and `utils`. -/
structure CsmsEnv where
  GetRegion : ResourceData → String
  KmsV1Client : String → Except GoError KmsClient
  CheckDeletedDiag : ResourceData → GoError → String → ResourceData × Diagnostics
  HashAndHexEncode : String → String
  ExpandResourceTags : List (String × Value) → List ResourceTag
  TagsToMap : List ResourceTag → Value
  UpdateResourceTags : KmsClient → ResourceData → String → String → Option GoError

/-- A number in decimal, padded with zeros on the left to `width` digits. -/
def zeroPad (width : Nat) (n : Nat) : String :=
  String.mk (List.replicate (width - (toString n).length) '0') ++ toString n

/-- The civil date (year, month, day) of a day count from 1970-01-01 in the
proleptic Gregorian calendar, the calendar of the package `time`. -/
def civilFromDays (days : Int) : Int × Int × Int :=
  let z := days + 719468
  let era := Int.fdiv z 146097
  let doe := z - era * 146097
  let yoe := Int.fdiv (doe - Int.fdiv doe 1460 + Int.fdiv doe 36524 - Int.fdiv doe 146096) 365
  let doy := doe - (365 * yoe + Int.fdiv yoe 4 - Int.fdiv yoe 100)
  let mp := Int.fdiv (5 * doy + 2) 153
  let day := doy - Int.fdiv (153 * mp + 2) 5 + 1
  let month := if mp < 10 then mp + 3 else mp - 9
  let year := yoe + era * 400 + (if month ≤ 2 then 1 else 0)
  (year, month, day)

/-- The expression `time.Unix(sec, 0).UTC().Format("2006-01-02 15:04:05 MST")`. -/
def formatUnixUTC (sec : Int) : String :=
  let days := Int.fdiv sec 86400
  let rem := sec - days * 86400
  let ymd := civilFromDays days
  let year := if ymd.1 < 0 then "-" ++ zeroPad 4 ymd.1.natAbs else zeroPad 4 ymd.1.natAbs
  year ++ "-" ++ zeroPad 2 ymd.2.1.toNat ++ "-" ++ zeroPad 2 ymd.2.2.toNat ++ " " ++
    zeroPad 2 (Int.fdiv rem 3600).toNat ++ ":" ++
    zeroPad 2 (Int.fdiv (rem - Int.fdiv rem 3600 * 3600) 60).toNat ++ ":" ++
    zeroPad 2 (rem - Int.fdiv rem 60 * 60).toNat ++ " UTC"

/-- The call `sort.Slice(versions, less)` with `less` comparing `CreateTime`
downwards: an insertion sort, the order `sort.Slice` produces on slices of at
most twelve elements; on longer slices the order among versions of equal
`CreateTime` is not specified by the library. -/
def sortVersions (versions : List VersionMetadata) : List VersionMetadata :=
  versions.insertionSort fun a b => a.CreateTime ≥ b.CreateTime

/-- The function `queryVersion`: the returned pair `(*secrets.Version, error)`. -/
def queryVersion (env : CsmsEnv) (region name versionID : String) : Except GoError Version :=
  match env.KmsV1Client region with
  | .error err => .error (.wrap "failed to create CSMS(KMS) client: %s" err)
  | .ok client =>
    match client.ShowSecretVersion name versionID with
    | .error err => .error (.wrap "failed to query secret version: %s" err)
    | .ok version => .ok version

/-- The function `queryLatestVersion`: it panics on an empty version list,
otherwise it returns the pair `(*secrets.Version, error)`. -/
def queryLatestVersion (env : CsmsEnv) (region name : String) : Go (Except GoError Version) :=
  match env.KmsV1Client region with
  | .error err => pure (.error (.wrap "failed to create CSMS(KMS) client: %s" err))
  | .ok client =>
    match client.ListSecretVersions name with
    | .error err => pure (.error (.wrap "failed to query the list of secret versions: %s" err))
    | .ok versions =>
      match sortVersions versions with
      | [] => throw Panic.indexOutOfRange
      | first :: _ => pure (queryVersion env region name first.ID)

/-- The first seven attribute writes of `resourceCsmsSecretRead`. -/
def csmsReadFields (region : String) (secret : Secret) : List (String × Value) :=
  [("region", .str region),
    ("secret_id", .str secret.ID),
    ("name", .str secret.Name),
    ("kms_key_id", .str secret.KmsKeyID),
    ("description", .str secret.Description),
    ("status", .str secret.State),
    ("create_time", .str (formatUnixUTC (Int.tdiv secret.CreateTime 1000)))]

/-- The attribute writes of `resourceCsmsSecretRead` that follow the version query. -/
def csmsVersionFields (env : CsmsEnv) (version : Version) : List (String × Value) :=
  [("secret_text", .str (env.HashAndHexEncode version.SecretString)),
    ("latest_version", .str version.VersionMetadata.ID)]

/-- The function `resourceCsmsSecretRead`: the resource data as the hook leaves
it, and the diagnostics it returns. -/
def resourceCsmsSecretRead (env : CsmsEnv) (d : ResourceData) :
    Go (ResourceData × Diagnostics) :=
  let region := env.GetRegion d
  match env.KmsV1Client region with
  | .error err => pure (d, diagErrorf "failed to create CSMS(KMS) client: %s" [err])
  | .ok client =>
    match client.secretsGet (parseID d.Id).2 with
    | .error err => pure (env.CheckDeletedDiag d err "failed to query CSMS secret details")
    | .ok secret => do
      let r1 := setAll d (csmsReadFields region secret)
      match ← queryLatestVersion env region (parseID d.Id).2 with
      | .error _ => throw Panic.nilDereference
      | .ok version =>
        let r2 := setAll r1.1 (csmsVersionFields env version)
        match client.tagsGet serviceType (parseID d.Id).1 with
        | .ok resourceTags =>
          let r3 := r2.1.Set "tags" (env.TagsToMap resourceTags)
          pure (r3.1, diagOfMultierror "failed to set attributes for CSMS secret: %s"
            (r1.2 ++ r2.2 ++ r3.2.toList))
        | .error _ =>
          pure (r2.1, diagOfMultierror "failed to set attributes for CSMS secret: %s"
            (r1.2 ++ r2.2))

/-- The function `resourceCsmsSecretCreate`. -/
def resourceCsmsSecretCreate (env : CsmsEnv) (d : ResourceData) :
    Go (ResourceData × Diagnostics) :=
  match env.KmsV1Client (env.GetRegion d) with
  | .error err => pure (d, diagErrorf "failed to create CSMS(KMS) client: %s" [err])
  | .ok client => do
    let name ← (d.Get "name").assertString
    let kmsKeyID ← (d.Get "kms_key_id").assertString
    let description ← (d.Get "description").assertString
    let secretText ← (d.Get "secret_text").assertString
    match client.secretsCreate ⟨name, kmsKeyID, description, secretText⟩ with
    | .error err => pure (d, diagErrorf "failed to create the CSMS secret: %s" [err])
    | .ok rst =>
      let d1 := d.SetId (rst.ID ++ "/" ++ name)
      if (d1.GetOk "tags").2 then do
        let tMaps ← (d1.GetOk "tags").1.assertMap
        match client.tagsCreate serviceType rst.ID (env.ExpandResourceTags tMaps) with
        | some _ => resourceCsmsSecretRead env d1
        | none => resourceCsmsSecretRead env d1
      else
        resourceCsmsSecretRead env d1

/-- The function `resourceCsmsSecretDelete`. -/
def resourceCsmsSecretDelete (env : CsmsEnv) (d : ResourceData) :
    Go (ResourceData × Diagnostics) :=
  match env.KmsV1Client (env.GetRegion d) with
  | .error err => pure (d, diagErrorf "failed to create CSMS(KMS) client: %s" [err])
  | .ok client => do
    let name ← (d.Get "name").assertString
    match client.secretsDelete name with
    | some err => pure (d, diagErrorf "failed to delete CSMS secret: %s" [err])
    | none => pure (d.SetId "", [])

/-! ## Update hooks and the remote calls the hooks issue -/

/-- A remote call of the CCM hooks, in the order of issue: a request to the
certificate endpoint, or one call of the tag helpers `deleteTags` and
`createTags` with the id, the tag map and the path they are given. -/
inductive CcmCall where
  | request (method url : String)
  | deleteTags (id : String) (tags : List (String × Value)) (url : String)
  | createTags (id : String) (tags : List (String × Value)) (url : String)

/-- Whether a call is a request to the certificate endpoint. -/
def CcmCall.isRequest : CcmCall → Bool
  | .request _ _ => true
  | _ => false

/-- Whether a call is a tag-removal call. -/
def CcmCall.isDeleteTags : CcmCall → Bool
  | .deleteTags _ _ _ => true
  | _ => false

/-- Whether a call is a tag-addition call. -/
def CcmCall.isCreateTags : CcmCall → Bool
  | .createTags _ _ _ => true
  | _ => false

/-- A hook with the remote calls it issued: the calls issued until it returned
or failed, and what it returned. -/
abbrev Traced (call : Type) := List call × Go (ResourceData × Diagnostics)

/-- The part of `resourceCcmPrivateCertificateUpdate` under the comment
`set new tags`, after the calls `issued` so far. -/
def ccmSetNewTags (env : CcmEnv) (d : ResourceData) (client : ServiceClient)
    (nMap : List (String × Value)) (issued : List CcmCall) : Traced CcmCall :=
  if 0 < nMap.length then
    match env.createTags d.Id client nMap "v1/private-certificates/\x7bid\x7d/tags/create" with
    | some err =>
      (issued ++ [.createTags d.Id nMap "v1/private-certificates/\x7bid\x7d/tags/create"],
        pure (d, diagFromErr err))
    | none =>
      (issued ++ [.createTags d.Id nMap "v1/private-certificates/\x7bid\x7d/tags/create"],
        pure (d, []))
  else
    (issued, pure (d, []))

/-- The function `resourceCcmPrivateCertificateUpdate`, with the remote calls it
issues. -/
def resourceCcmPrivateCertificateUpdate (env : CcmEnv) (d : ResourceData) : Traced CcmCall :=
  match env.NewServiceClient "ccm" (env.GetRegion d) with
  | .error err => ([], pure (d, diagErrorf "error creating CCM client: %s" [err]))
  | .ok client =>
    if d.HasChange "tags" then
      match (d.GetChange "tags").1 with
      | .map oMap =>
        match (d.GetChange "tags").2 with
        | .map nMap =>
          if 0 < oMap.length then
            match env.deleteTags d.Id client oMap
                "v1/private-certificates/\x7bid\x7d/tags/delete" with
            | some err =>
              ([.deleteTags d.Id oMap "v1/private-certificates/\x7bid\x7d/tags/delete"],
                pure (d, diagFromErr err))
            | none =>
              ccmSetNewTags env d client nMap
                [.deleteTags d.Id oMap "v1/private-certificates/\x7bid\x7d/tags/delete"]
          else
            ccmSetNewTags env d client nMap []
        | _ => ([], throw Panic.typeAssertion)
      | _ => ([], throw Panic.typeAssertion)
    else
      ([], pure (d, []))

/-- A remote mutation call of the CSMS hooks, in the order of issue. -/
inductive CsmsCall where
  | secretsCreate (opts : CreateSecretOpts)
  | secretsUpdate (name : String) (opts : UpdateSecretOpts)
  | CreateSecretVersion (name : String) (secretString : String)
  | UpdateResourceTags (serviceType id : String)
  | tagsCreate (serviceType id : String) (tags : List ResourceTag)

/-- Whether a call is the tag-create call of `resourceCsmsSecretCreate`. -/
def CsmsCall.isTagsCreate : CsmsCall → Bool
  | .tagsCreate _ _ _ => true
  | _ => false

/-- The part of `resourceCsmsSecretUpdate` under the comment `Update tags`,
together with the final Read, after the calls `issued` so far. -/
def csmsUpdateTags (env : CsmsEnv) (d : ResourceData) (client : KmsClient) (id : String)
    (issued : List CsmsCall) : Traced CsmsCall :=
  if d.HasChange "tags" then
    match env.UpdateResourceTags client d serviceType id with
    | some err =>
      (issued ++ [.UpdateResourceTags serviceType id],
        pure (d, diagErrorf "failed to update CSMS secret tags: %s" [err]))
    | none =>
      (issued ++ [.UpdateResourceTags serviceType id], resourceCsmsSecretRead env d)
  else
    (issued, resourceCsmsSecretRead env d)

/-- The part of `resourceCsmsSecretUpdate` from the comment `Update secret text`
on, after the calls `issued` so far. -/
def csmsUpdateSecretText (env : CsmsEnv) (d : ResourceData) (client : KmsClient)
    (id name : String) (issued : List CsmsCall) : Traced CsmsCall :=
  if d.HasChanges ["secret_text"] then
    match d.Get "secret_text" with
    | .str secretText =>
      match client.CreateSecretVersion name secretText with
      | some err =>
        (issued ++ [.CreateSecretVersion name secretText],
          pure (d, diagErrorf "failed to create a new version of CSMS secret: %s" [err]))
      | none =>
        csmsUpdateTags env d client id (issued ++ [.CreateSecretVersion name secretText])
    | _ => (issued, throw Panic.typeAssertion)
  else
    csmsUpdateTags env d client id issued

/-- The function `resourceCsmsSecretUpdate`, with the remote mutation calls it
issues. -/
def resourceCsmsSecretUpdate (env : CsmsEnv) (d : ResourceData) : Traced CsmsCall :=
  match env.KmsV1Client (env.GetRegion d) with
  | .error err => ([], pure (d, diagErrorf "failed to create CSMS(KMS) client: %s" [err]))
  | .ok client =>
    if d.HasChanges ["kms_key_id", "description"] then
      match d.Get "description" with
      | .str desc =>
        match d.Get "kms_key_id" with
        | .str kmsKeyID =>
          match client.secretsUpdate (parseID d.Id).2 ⟨kmsKeyID, desc⟩ with
          | some err =>
            ([.secretsUpdate (parseID d.Id).2 ⟨kmsKeyID, desc⟩],
              pure (d, diagErrorf "failed to update the base-info of CSMS secret: %s" [err]))
          | none =>
            csmsUpdateSecretText env d client (parseID d.Id).1 (parseID d.Id).2
              [.secretsUpdate (parseID d.Id).2 ⟨kmsKeyID, desc⟩]
        | _ => ([], throw Panic.typeAssertion)
      | _ => ([], throw Panic.typeAssertion)
    else
      csmsUpdateSecretText env d client (parseID d.Id).1 (parseID d.Id).2 []

/-- The function `resourceCsmsSecretCreate` once more, with the remote mutation
calls it issues. -/
def resourceCsmsSecretCreateTraced (env : CsmsEnv) (d : ResourceData) : Traced CsmsCall :=
  match env.KmsV1Client (env.GetRegion d) with
  | .error err => ([], pure (d, diagErrorf "failed to create CSMS(KMS) client: %s" [err]))
  | .ok client =>
    match d.Get "name", d.Get "kms_key_id", d.Get "description", d.Get "secret_text" with
    | .str name, .str kmsKeyID, .str description, .str secretText =>
      match client.secretsCreate ⟨name, kmsKeyID, description, secretText⟩ with
      | .error err =>
        ([.secretsCreate ⟨name, kmsKeyID, description, secretText⟩],
          pure (d, diagErrorf "failed to create the CSMS secret: %s" [err]))
      | .ok rst =>
        if ((d.SetId (rst.ID ++ "/" ++ name)).GetOk "tags").2 then
          match ((d.SetId (rst.ID ++ "/" ++ name)).GetOk "tags").1 with
          | .map tMaps =>
            ([.secretsCreate ⟨name, kmsKeyID, description, secretText⟩,
                .tagsCreate serviceType rst.ID (env.ExpandResourceTags tMaps)],
              resourceCsmsSecretRead env (d.SetId (rst.ID ++ "/" ++ name)))
          | _ =>
            ([.secretsCreate ⟨name, kmsKeyID, description, secretText⟩],
              throw Panic.typeAssertion)
        else
          ([.secretsCreate ⟨name, kmsKeyID, description, secretText⟩],
            resourceCsmsSecretRead env (d.SetId (rst.ID ++ "/" ++ name)))
    | _, _, _, _ => ([], throw Panic.typeAssertion)

/-- The outcome of a CSMS mutation call: the error it returns, if any. -/
def csmsCallOutcome (env : CsmsEnv) (client : KmsClient) (d : ResourceData) :
    CsmsCall → Option GoError
  | .secretsCreate opts =>
    match client.secretsCreate opts with
    | .error err => some err
    | .ok _ => none
  | .secretsUpdate name opts => client.secretsUpdate name opts
  | .CreateSecretVersion name secretString => client.CreateSecretVersion name secretString
  | .UpdateResourceTags st id => env.UpdateResourceTags client d st id
  | .tagsCreate st id tags => client.tagsCreate st id tags

/-- The ordered list of calls an Update of a CSMS secret is meant to issue: one
base-info update if `kms_key_id` or `description` changed, one new version if
`secret_text` changed, one tag update if `tags` changed. -/
def csmsIntendedCalls (d : ResourceData) (description kmsKeyID secretText : String) :
    List CsmsCall :=
  (if d.HasChange "kms_key_id" || d.HasChange "description" then
      [CsmsCall.secretsUpdate (parseID d.Id).2 ⟨kmsKeyID, description⟩]
    else []) ++
  (if d.HasChange "secret_text" then
      [CsmsCall.CreateSecretVersion (parseID d.Id).2 secretText]
    else []) ++
  (if d.HasChange "tags" then [CsmsCall.UpdateResourceTags serviceType (parseID d.Id).1] else [])

/-- The summary of the error diagnostic `resourceCsmsSecretUpdate` returns when
a call fails. -/
def csmsUpdateFailureSummary : CsmsCall → String
  | .secretsUpdate _ _ => "failed to update the base-info of CSMS secret: %s"
  | .CreateSecretVersion _ _ => "failed to create a new version of CSMS secret: %s"
  | .UpdateResourceTags _ _ => "failed to update CSMS secret tags: %s"
  | _ => ""

/-- Sequential dispatch in the words of the spec: the calls are issued one after
the other in the order of the list; the first one that fails ends the operation
with an error diagnostic around its error, no later call being issued; when all
succeed the operation concludes with `conclusion`. -/
def dispatchCalls (outcome : CsmsCall → Option GoError) (d : ResourceData)
    (conclusion : Go (ResourceData × Diagnostics)) : List CsmsCall → Traced CsmsCall
  | [] => ([], conclusion)
  | c :: cs =>
    match outcome c with
    | some err => ([c], pure (d, diagErrorf (csmsUpdateFailureSummary c) [err]))
    | none =>
      (c :: (dispatchCalls outcome d conclusion cs).1, (dispatchCalls outcome d conclusion cs).2)

/-- The remote tag store of a certificate as a key-to-value map. -/
abbrev TagStore := String → Option Value

/-- The tag store holding exactly the entries of a tag map. -/
def TagStore.ofMap (tags : List (String × Value)) : TagStore :=
  fun key => tags.lookup key

/-- The effect of one successful call on the remote tag store: a removal call
deletes the keys it names, an addition call upserts the entries it carries, a
request to the certificate endpoint leaves the tags alone. -/
def TagStore.apply (store : TagStore) : CcmCall → TagStore
  | .request _ _ => store
  | .deleteTags _ tags _ => fun key => if (tags.lookup key).isSome then none else store key
  | .createTags _ tags _ => fun key =>
    match tags.lookup key with
    | some v => some v
    | none => store key

/-- The remote tag store after a sequence of successful calls. -/
def TagStore.applyAll (store : TagStore) (calls : List CcmCall) : TagStore :=
  calls.foldl TagStore.apply store

/-- Whether a hook returned, without a run-time failure, diagnostics free of
errors. -/
def returnsNoError (r : Go (ResourceData × Diagnostics)) : Bool :=
  match r with
  | .ok res => !res.2.HasError
  | .error _ => false

/-! ## Concrete data and environments, for evaluation -/

/-- The field writer of the CSMS secret schema: the string attributes declared
in `ResourceCsmsSecret` store a Go string unchanged, `tags` stores a map. -/
def csmsSecretWriter (key : String) (v : Value) : Except GoError Value :=
  match v with
  | .map kvs => if key = "tags" then .ok (.map kvs) else .error (.other "unconvertible type")
  | _ =>
    stringWriter ["region", "name", "secret_text", "kms_key_id", "description", "secret_id",
      "latest_version", "status", "create_time"] key v

/-- A CSMS secret record with the given id, name and tags, every other
attribute at its zero value. -/
def secretData (id name : String) (tags : List (String × Value)) : ResourceData where
  Id := id
  attrs := fun k => if k = "tags" then .map tags else if k = "name" then .str name else .str ""
  writer := csmsSecretWriter

/-- A field writer that stores every value unchanged. -/
def permissiveWriter (_ : String) (v : Value) : Except GoError Value := .ok v

/-- A CCM private certificate record with the given id and tags, and a singleton
distinguished name and validity. -/
def certificateData (id : String) (tags : List (String × Value)) : ResourceData where
  Id := id
  attrs := fun k =>
    if k = "tags" then .map tags
    else if k = "distinguished_name" then .list [.map [("common_name", .str "cert-a")]]
    else if k = "validity" then .list [.map [("type", .str "YEAR"), ("value", .int 1)]]
    else .str ""
  writer := permissiveWriter

/-- A JSON error body carrying the not-found code of the CCM service. -/
def notFoundBody : Value := .map [("error_code", .str "PCA.10010002")]

/-- A CCM service client whose requests are answered by `request`. -/
def ccmClient (request : String → Except GoError HttpResponse) : ServiceClient where
  Endpoint := "https://ccm.example.com/"
  Request := fun method _ _ => request method

/-- A CCM environment around a client and the outcomes of the tag helpers; the
helpers of the package `utils` are the ones modelled from the spec. -/
def ccmEnv (client : ServiceClient) (tagsOutcome : Except GoError (List (String × Value)))
    (createTagsOutcome : Option GoError) : CcmEnv where
  GetRegion := fun _ => "region-1"
  GetEnterpriseProjectID := fun _ => ""
  NewServiceClient := fun _ _ => .ok client
  CheckDeletedDiag := CheckDeletedDiag
  FlattenResponse := fun resp =>
    match resp.Body with
    | some v => .ok v
    | none => .error (.other "unexpected end of JSON input")
  PathSearch := PathSearch
  PathSearchData := fun _ _ dflt => dflt
  RemoveNil := RemoveNil
  ValueIngoreEmpty := ValueIngoreEmpty
  FormatTimeStampRFC3339 := fun sec _ => formatUnixUTC sec
  flattenDistinguishedName := fun _ => .list []
  getTags := fun _ _ _ => tagsOutcome
  createTags := fun _ _ _ _ => createTagsOutcome
  deleteTags := fun _ _ _ _ => none

/-- A KMS client whose calls are answered by the given outcomes. -/
def kmsClient (secret : Except GoError Secret) (deleted : Option GoError)
    (versions : Except GoError (List VersionMetadata)) (version : Except GoError Version)
    (tagsCreated : Option GoError) (tagsRead : Except GoError (List ResourceTag)) : KmsClient where
  secretsCreate := fun _ => secret
  secretsGet := fun _ => secret
  secretsUpdate := fun _ _ => none
  secretsDelete := fun _ => deleted
  CreateSecretVersion := fun _ _ => none
  ListSecretVersions := fun _ => versions
  ShowSecretVersion := fun _ _ => version
  tagsCreate := fun _ _ _ => tagsCreated
  tagsGet := fun _ _ => tagsRead

/-- A CSMS environment around a client. -/
def csmsEnv (client : KmsClient) : CsmsEnv where
  GetRegion := fun _ => "region-1"
  KmsV1Client := fun _ => .ok client
  CheckDeletedDiag := CheckDeletedDiag
  HashAndHexEncode := fun s => s
  ExpandResourceTags := fun m =>
    m.map fun kv =>
      match kv.2 with
      | .str s => ⟨kv.1, s⟩
      | _ => ⟨kv.1, ""⟩
  TagsToMap := fun ts => .map (ts.map fun t => (t.Key, .str t.Value))
  UpdateResourceTags := fun _ _ _ _ => none

/-- A secret as the remote returns it. -/
def exampleSecret : Secret where
  ID := "sid-1"
  Name := "secret-a"
  State := "ENABLED"
  KmsKeyID := "key-1"
  Description := ""
  CreateTime := 1700000000123

/-- A secret version as the remote returns it. -/
def exampleVersion : Version where
  VersionMetadata := ⟨"v1", 1700000000123⟩
  SecretString := "s3cr3t"

/-- An HTTP 404 response error. -/
def err404 (body : Option Value) : GoError := .sdk .ErrDefault404 ⟨404, body⟩

/-- An HTTP 400 response error. -/
def err400 (body : Option Value) : GoError := .sdk .ErrDefault400 ⟨400, body⟩

/-- An HTTP 500 response error. -/
def err500 (body : Option Value) : GoError := .sdk .ErrDefault500 ⟨500, body⟩

/-- The body of a successful create response. -/
def createdBody : Value := .map [("certificate_id", .str "cert-1")]

/-- The body of a successful get response. -/
def certificateBody : Value :=
  .map [("create_time", .float64 1700000000123), ("not_before", .float64 1700000000000),
    ("not_after", .float64 1731536000000), ("status", .str "ISSUED")]

/-- A remote that creates, returns and deletes the certificate "cert-1". -/
def ccmServer (method : String) : Except GoError HttpResponse :=
  if method = "POST" then .ok ⟨200, some createdBody⟩
  else if method = "GET" then .ok ⟨200, some certificateBody⟩
  else .ok ⟨204, none⟩

/-- A certificate record in an update that changes the tags from `oldTags` to
`newTags`. -/
def certificateTagUpdate (oldTags newTags : List (String × Value)) : ResourceData where
  Id := "cert-1"
  attrs := (certificateData "cert-1" newTags).attrs
  writer := permissiveWriter
  old := fun k => if k = "tags" then .map oldTags else (certificateData "cert-1" newTags).attrs k
  changed := fun k => decide (k = "tags")

/-- A CCM environment whose tag helpers return the given outcomes. -/
def ccmTagEnv (client : ServiceClient) (deleteTagsOutcome createTagsOutcome : Option GoError) :
    CcmEnv where
  GetRegion := fun _ => "region-1"
  GetEnterpriseProjectID := fun _ => ""
  NewServiceClient := fun _ _ => .ok client
  CheckDeletedDiag := CheckDeletedDiag
  FlattenResponse := (ccmEnv client (.ok []) createTagsOutcome).FlattenResponse
  PathSearch := PathSearch
  PathSearchData := fun _ _ dflt => dflt
  RemoveNil := RemoveNil
  ValueIngoreEmpty := ValueIngoreEmpty
  FormatTimeStampRFC3339 := fun sec _ => formatUnixUTC sec
  flattenDistinguishedName := fun _ => .list []
  getTags := fun _ _ _ => .ok []
  createTags := fun _ _ _ _ => createTagsOutcome
  deleteTags := fun _ _ _ _ => deleteTagsOutcome

/-- A secret record in an update in which exactly the attributes `changedKeys`
changed. -/
def secretUpdate (changedKeys : List String) : ResourceData where
  Id := "sid-1/secret-a"
  attrs := (secretData "sid-1/secret-a" "secret-a" []).attrs
  writer := csmsSecretWriter
  changed := fun k => decide (k ∈ changedKeys)

/-- A KMS client that reads the example secret and answers the mutation calls of
an update with the given outcomes. -/
def kmsUpdateClient (updated versioned : Option GoError) : KmsClient where
  secretsCreate := fun _ => .ok exampleSecret
  secretsGet := fun _ => .ok exampleSecret
  secretsUpdate := fun _ _ => updated
  secretsDelete := fun _ => none
  CreateSecretVersion := fun _ _ => versioned
  ListSecretVersions := fun _ => .ok [⟨"v1", 1700000000123⟩]
  ShowSecretVersion := fun _ _ => .ok exampleVersion
  tagsCreate := fun _ _ _ => none
  tagsGet := fun _ _ => .ok []

/-- A CSMS environment around a client, with the given outcome of
`utils.UpdateResourceTags`. -/
def csmsUpdateEnv (client : KmsClient) (tagsUpdated : Option GoError) : CsmsEnv where
  GetRegion := fun _ => "region-1"
  KmsV1Client := fun _ => .ok client
  CheckDeletedDiag := CheckDeletedDiag
  HashAndHexEncode := fun s => s
  ExpandResourceTags := (csmsEnv client).ExpandResourceTags
  TagsToMap := (csmsEnv client).TagsToMap
  UpdateResourceTags := fun _ _ _ _ => tagsUpdated

/-- A remote whose create response carries no `certificate_id`. -/
def ccmServerWithoutId (method : String) : Except GoError HttpResponse :=
  if method = "POST" then .ok ⟨200, some (.map [("request_id", .str "r-1")])⟩
  else ccmServer method

/-- A remote whose get response carries no timestamp. -/
def ccmServerWithoutTimes (method : String) : Except GoError HttpResponse :=
  if method = "GET" then .ok ⟨200, some (.map [("status", .str "ISSUED")])⟩
  else ccmServer method

/-- A certificate record as the framework hands it to Create when only the
required attributes are configured: every optional string is the empty string,
in the nested blocks too. -/
def certificateDataUnset : ResourceData where
  Id := ""
  attrs := fun k =>
    if k = "tags" then .map []
    else if k = "distinguished_name" then
      .list [.map [("common_name", .str "cert-a"), ("country", .str ""), ("state", .str ""),
        ("locality", .str ""), ("organization", .str ""), ("organizational_unit", .str "")]]
    else if k = "validity" then
      .list [.map [("type", .str "YEAR"), ("value", .int 1), ("start_at", .str "")]]
    else if k = "key_usage" then .list []
    else if k ∈ ["server_auth", "client_auth", "code_signing", "email_protection",
      "time_stamping"] then .bool false
    else if k ∈ ["issuer_id", "key_algorithm", "signature_algorithm"] then .str "x"
    else .str ""
  writer := permissiveWriter

/-- Three versions of a secret, the second one being the newest. -/
def exampleVersions : List VersionMetadata :=
  [⟨"v1", 1700000000123⟩, ⟨"v2", 1700000300000⟩, ⟨"v3", 1700000200000⟩]

/-- A created secret whose remote id is empty. -/
def secretWithoutId : Secret where
  ID := ""
  Name := "secret-a"
  State := "ENABLED"
  KmsKeyID := "key-1"
  Description := ""
  CreateTime := 1700000000123

/-- The id of the resource data a hook leaves behind, when it returns. -/
def returnedId (r : Go (ResourceData × Diagnostics)) : Option String :=
  match r with
  | .ok res => some res.1.Id
  | .error _ => none

/-- The body of a get response whose `create_time` is 1e19 milliseconds, a
`float64` beyond the range of `int64`. -/
def certificateBodyFarFuture : Value :=
  .map [("create_time", .float64 10000000000000000000), ("not_before", .float64 1700000000000),
    ("not_after", .float64 1731536000000), ("status", .str "ISSUED")]

/-- A remote whose get response carries that body. -/
def ccmServerFarFuture (method : String) : Except GoError HttpResponse :=
  if method = "GET" then .ok ⟨200, some certificateBodyFarFuture⟩ else ccmServer method

/-! ## The Gregorian calendar, stated elementarily -/

/-- Whether a year of the proleptic Gregorian calendar is a leap year. -/
def isLeapYear (y : Int) : Bool :=
  decide (y % 4 = 0) && (decide (y % 100 ≠ 0) || decide (y % 400 = 0))

/-- The number of days of the month `m` of the year `y`. -/
def daysInMonth (y : Int) (m : Nat) : Nat :=
  if m = 2 then (if isLeapYear y then 29 else 28)
  else if m = 4 ∨ m = 6 ∨ m = 9 ∨ m = 11 then 30
  else 31

/-- The number of days of the year `y` that precede the first of the month `m`:
the lengths of the months before it, added up. -/
def daysBeforeMonth (y : Int) (m : Nat) : Nat :=
  ((List.range (m - 1)).map fun k => daysInMonth y (k + 1)).sum

/-- The number of leap years among the years 1 to `y`. -/
def leapYearsThrough (y : Int) : Int := y / 4 - y / 100 + y / 400

/-- The number of days from 1970-01-01 to the day `d` of the month `m` of the
year `y`: 365 for every year in between, one more for every leap year among
them, the days of the months before `m`, and the days of `m` before `d`. -/
def daysFromCivil (y : Int) (m d : Nat) : Int :=
  365 * (y - 1970) + (leapYearsThrough (y - 1) - leapYearsThrough 1969) +
    daysBeforeMonth y m + ((d : Int) - 1)

/-- The layout "YYYY-MM-DD HH:MM:SS UTC" filled with the fields of a civil time. -/
def layoutUTC (Y M D h m s : Nat) : String :=
  zeroPad 4 Y ++ "-" ++ zeroPad 2 M ++ "-" ++ zeroPad 2 D ++ " " ++
    zeroPad 2 h ++ ":" ++ zeroPad 2 m ++ ":" ++ zeroPad 2 s ++ " UTC"

/-- The civil time `Y-M-D h:m:s` of the zone UTC is a valid date and time of day
and lies `sec` seconds after 1970-01-01T00:00:00Z. -/
def IsCivilTimeOf (Y M D h m s : Nat) (sec : Int) : Prop :=
  1 ≤ M ∧ M ≤ 12 ∧ 1 ≤ D ∧ D ≤ daysInMonth Y M ∧ h ≤ 23 ∧ m ≤ 59 ∧ s ≤ 59 ∧
    daysFromCivil Y M D * 86400 + h * 3600 + m * 60 + s = sec

instance (Y M D h m s : Nat) (sec : Int) : Decidable (IsCivilTimeOf Y M D h m s sec) := by
  unfold IsCivilTimeOf
  infer_instance

/-- The year of the 400-year cycle that `civilFromDays` computes from the day
`doe` of the cycle, in natural-number arithmetic. -/
def yearOfEra (doe : Nat) : Nat :=
  (doe - doe / 1460 + doe / 36524 - doe / 146096) / 365

/-- The first day of the year `yoe` of the 400-year cycle, whose years begin on
the first of March. -/
def yearStart (yoe : Nat) : Nat := 365 * yoe + yoe / 4 - yoe / 100

/-- The last day of the year `yoe` of the 400-year cycle. -/
def yearEnd (yoe : Nat) : Nat := if yoe = 399 then 146096 else yearStart (yoe + 1) - 1

/-- Whether `yearOfEra` maps the first and the last day of each of the years
`y`, ..., `y + 2 ^ depth - 1` of the cycle to that year. -/
def checkYears : Nat → Nat → Bool
  | 0, y => Nat.ble 400 y ||
      (Nat.beq (yearOfEra (yearStart y)) y && Nat.beq (yearOfEra (yearEnd y)) y)
  | depth + 1, y => checkYears depth y && checkYears depth (y + 2 ^ depth)

/-! ## Facts about the Go monad -/

theorem ok_bind {α β : Type} (a : α) (f : α → Go β) : (Except.ok a : Go α) >>= f = f a := rfl

theorem error_bind {α β : Type} (p : Panic) (f : α → Go β) :
    (Except.error p : Go α) >>= f = Except.error p := rfl

theorem pure_eq_ok {α : Type} (a : α) : (pure a : Go α) = Except.ok a := rfl

theorem throw_eq_error {α : Type} (p : Panic) : (throw p : Go α) = Except.error p := rfl

/-! ## Facts about attribute writes -/

theorem set_attrs_of_ne (d : ResourceData) (key : String) (v : Value) (k : String)
    (h : k ≠ key) : (d.Set key v).1.attrs k = d.attrs k := by
  unfold ResourceData.Set
  cases d.writer key v with
  | ok w => simp [h]
  | error e => rfl

theorem set_id (d : ResourceData) (key : String) (v : Value) : (d.Set key v).1.Id = d.Id := by
  unfold ResourceData.Set
  cases d.writer key v <;> rfl

theorem setAll_attrs_of_not_mem (fields : List (String × Value)) (d : ResourceData)
    (k : String) (h : ∀ p ∈ fields, k ≠ p.1) : (setAll d fields).1.attrs k = d.attrs k := by
  induction fields generalizing d with
  | nil => rfl
  | cons p rest ih =>
    obtain ⟨key, v⟩ := p
    have hk : k ≠ key := h (key, v) (by simp)
    have hrest : ∀ q ∈ rest, k ≠ q.1 := fun q hq => h q (by simp [hq])
    show (setAll (d.Set key v).1 rest).1.attrs k = d.attrs k
    rw [ih (d.Set key v).1 hrest, set_attrs_of_ne d key v k hk]

theorem setAll_id (fields : List (String × Value)) (d : ResourceData) :
    (setAll d fields).1.Id = d.Id := by
  induction fields generalizing d with
  | nil => rfl
  | cons p rest ih =>
    obtain ⟨key, v⟩ := p
    show (setAll (d.Set key v).1 rest).1.Id = d.Id
    rw [ih (d.Set key v).1, set_id]

/-! ## Facts about splitting -/

theorem splitChars_ne_nil (sep : Char) (cs : List Char) : splitChars sep cs ≠ [] := by
  induction cs with
  | nil => simp [splitChars]
  | cons c cs ih =>
    unfold splitChars
    split
    · simp
    · split <;> simp

theorem splitChars_length (sep : Char) (cs : List Char) :
    (splitChars sep cs).length = cs.count sep + 1 := by
  induction cs with
  | nil => simp [splitChars]
  | cons c cs ih =>
    unfold splitChars
    by_cases h : c = sep
    · subst h
      simp [ih]
    · have hne : (c == sep) = false := by simpa using h
      rw [if_neg h, List.count_cons, hne]
      cases hs : splitChars sep cs with
      | nil => exact absurd hs (splitChars_ne_nil sep cs)
      | cons p ps =>
        rw [hs] at ih
        simpa using ih

theorem splitChars_of_not_mem (sep : Char) (cs : List Char) (h : sep ∉ cs) :
    splitChars sep cs = [cs] := by
  induction cs with
  | nil => simp [splitChars]
  | cons c cs ih =>
    have hc : c ≠ sep := fun e => h (by simp [e])
    have hcs : sep ∉ cs := fun e => h (by simp [e])
    unfold splitChars
    rw [if_neg hc, ih hcs]

theorem splitChars_append_sep (sep : Char) (a b : List Char) (h : sep ∉ a) :
    splitChars sep (a ++ sep :: b) = a :: splitChars sep b := by
  induction a with
  | nil => simp [splitChars]
  | cons c cs ih =>
    have hc : c ≠ sep := fun e => h (by simp [e])
    have hcs : sep ∉ cs := fun e => h (by simp [e])
    have hstep : splitChars sep (c :: (cs ++ sep :: b)) = (c :: cs) :: splitChars sep b := by
      simp only [splitChars, if_neg hc, ih hcs]
    simpa using hstep

theorem stringsSplit_length (s : String) (sep : Char) :
    (stringsSplit s sep).length = s.data.count sep + 1 := by
  simp [stringsSplit, splitChars_length]

theorem parseID_of_count_ne_one (s : String) (h : s.data.count '/' ≠ 1) :
    parseID s = ("", "") := by
  have hl := stringsSplit_length s '/'
  unfold parseID
  generalize stringsSplit s '/' = l at hl
  rcases l with _ | ⟨a, _ | ⟨b, _ | ⟨c, l⟩⟩⟩
  · rfl
  · rfl
  · exfalso
    apply h
    simp only [List.length_cons, List.length_nil] at hl
    omega
  · rfl

theorem parseID_slash (a b : String) (ha : '/' ∉ a.data) (hb : '/' ∉ b.data) :
    parseID (a ++ "/" ++ b) = (a, b) := by
  have hd : (a ++ "/" ++ b).data = a.data ++ '/' :: b.data := by simp
  unfold parseID stringsSplit
  rw [hd, splitChars_append_sep '/' a.data b.data ha, splitChars_of_not_mem '/' b.data hb]
  rfl

/-! ## Import of a CSMS secret -/

/-- C5: a raw id whose number of "/" is not one (none, or two and more, the empty
string included) makes `resourceCsmsSecretImport` return the invalid-format error
and no resource data, and leaves the resource data, `secret_id` and `name`
included, as it was. -/
theorem import_rejects_wrong_segment_count (d : ResourceData)
    (h : d.Id.data.count '/' ≠ 1) :
    (stringsSplit d.Id '/').length ≠ 2 ∧
      resourceCsmsSecretImport d = (d, .error invalidImportFormat) := by
  constructor
  · rw [stringsSplit_length]
    omega
  · unfold resourceCsmsSecretImport
    rw [parseID_of_count_ne_one d.Id h]
    rfl

/-- Witness of C5 at the raw id "a/b/c". -/
theorem import_rejects_wrong_segment_count_witness :
    (secretData "a/b/c" "" []).Id.data.count '/' ≠ 1 ∧
      (stringsSplit (secretData "a/b/c" "" []).Id '/').length ≠ 2 ∧
      resourceCsmsSecretImport (secretData "a/b/c" "" []) =
        (secretData "a/b/c" "" [], .error invalidImportFormat) :=
  ⟨by decide, import_rejects_wrong_segment_count (secretData "a/b/c" "" []) (by decide)⟩

/-- C6, as stated, fails at the raw id "id/": it has exactly one "/" and an empty
segment after it, yet `resourceCsmsSecretImport` returns no error; it returns one
resource whose `secret_id` is "id" and whose `name` is empty. -/
theorem import_accepts_empty_name :
    (secretData "id/" "" []).Id.data.count '/' = 1 ∧
      parseID (secretData "id/" "" []).Id = ("id", "") ∧
      (resourceCsmsSecretImport (secretData "id/" "" [])).2.toBool = true ∧
      (resourceCsmsSecretImport (secretData "id/" "" [])).1.attrs "secret_id" = .str "id" ∧
      (resourceCsmsSecretImport (secretData "id/" "" [])).1.attrs "name" = .str "" := by
  refine ⟨by decide, by decide, by decide, ?_, ?_⟩ <;> rfl

/-- C6 amended: a raw id "/b" with exactly one "/", the segment before it being
empty, makes `resourceCsmsSecretImport` fail with the invalid-format error; it
returns no resource and leaves the resource data as it was. -/
theorem import_rejects_empty_id_segment (d : ResourceData) (b : String)
    (hb : '/' ∉ b.data) (hid : d.Id = "/" ++ b) :
    d.Id.data.count '/' = 1 ∧ parseID d.Id = ("", b) ∧
      resourceCsmsSecretImport d = (d, .error invalidImportFormat) := by
  have hp : parseID d.Id = ("", b) := by
    have h := parseID_slash "" b (by simp) hb
    rw [hid]
    simpa using h
  refine ⟨?_, hp, ?_⟩
  · rw [hid]
    simp [List.count_cons, List.count_eq_zero_of_not_mem hb]
  · unfold resourceCsmsSecretImport
    rw [hp]
    rfl

/-- Witness of the amended C6 at the raw id "/name". -/
theorem import_rejects_empty_id_segment_witness :
    ('/' ∉ "name".data ∧ (secretData "/name" "" []).Id = "/" ++ "name") ∧
      (secretData "/name" "" []).Id.data.count '/' = 1 ∧
      parseID (secretData "/name" "" []).Id = ("", "name") ∧
      resourceCsmsSecretImport (secretData "/name" "" []) =
        (secretData "/name" "" [], .error invalidImportFormat) :=
  ⟨⟨by decide, rfl⟩,
    import_rejects_empty_id_segment (secretData "/name" "" []) "name" (by decide) rfl⟩

/-- C7: for a raw id "a/b" with `a` non-empty and no "/" in `a` or `b`, on a
schema that stores the strings written to `secret_id` and `name`,
`resourceCsmsSecretImport` succeeds and returns exactly the one resource it was
given, with `secret_id = a` and `name = b`, the id and every other attribute
unchanged. -/
theorem import_populates_identifying_attributes (d : ResourceData) (a b : String)
    (ha : a ≠ "") (hsa : '/' ∉ a.data) (hsb : '/' ∉ b.data) (hid : d.Id = a ++ "/" ++ b)
    (hwa : d.writer "secret_id" (.str a) = .ok (.str a))
    (hwb : d.writer "name" (.str b) = .ok (.str b)) :
    ∃ d1 : ResourceData,
      resourceCsmsSecretImport d = (d1, .ok [d1]) ∧
      d1.attrs "secret_id" = .str a ∧ d1.attrs "name" = .str b ∧
      d1.Id = d.Id ∧
      ∀ k : String, k ≠ "secret_id" → k ≠ "name" → d1.attrs k = d.attrs k := by
  have hp : parseID d.Id = (a, b) := by
    rw [hid]
    exact parseID_slash a b hsa hsb
  refine ⟨((d.Set "secret_id" (.str a)).1.Set "name" (.str b)).1, ?_, ?_, ?_, ?_, ?_⟩
  · unfold resourceCsmsSecretImport
    rw [hp]
    simp [ha]
  · simp [ResourceData.Set, hwa, hwb]
  · simp [ResourceData.Set, hwa, hwb]
  · simp [ResourceData.Set, hwa, hwb]
  · intro k h1 h2
    simp [ResourceData.Set, hwa, hwb, h1, h2]

/-- Witness of C7 at the raw id "sid-1/secret-a". -/
theorem import_populates_identifying_attributes_witness :
    ("sid-1" ≠ "" ∧ '/' ∉ "sid-1".data ∧ '/' ∉ "secret-a".data ∧
      (secretData "sid-1/secret-a" "" []).Id = "sid-1" ++ "/" ++ "secret-a" ∧
      (secretData "sid-1/secret-a" "" []).writer "secret_id" (.str "sid-1") = .ok (.str "sid-1") ∧
      (secretData "sid-1/secret-a" "" []).writer "name" (.str "secret-a") =
        .ok (.str "secret-a")) ∧
    ∃ d1 : ResourceData,
      resourceCsmsSecretImport (secretData "sid-1/secret-a" "" []) = (d1, .ok [d1]) ∧
      d1.attrs "secret_id" = .str "sid-1" ∧ d1.attrs "name" = .str "secret-a" ∧
      d1.Id = (secretData "sid-1/secret-a" "" []).Id ∧
      ∀ k : String, k ≠ "secret_id" → k ≠ "name" →
        d1.attrs k = (secretData "sid-1/secret-a" "" []).attrs k :=
  ⟨⟨by decide, by decide, by decide, rfl, rfl, rfl⟩,
    import_populates_identifying_attributes (secretData "sid-1/secret-a" "" []) "sid-1"
      "secret-a" (by decide) (by decide) (by decide) rfl rfl rfl⟩

/-! ## Delete of a CCM private certificate -/

theorem hasErrorCode_of_member (e : ErrUnexpectedResponseCode) (kvs : List (String × Value))
    (code : String) (hbody : e.Body = some (.map kvs))
    (hcode : kvs.lookup "error_code" = some (.str code)) :
    hasErrorCode (.sdk .ErrDefault400 e) code = true := by
  simp [hasErrorCode, hbody, jmespathSearch, hcode, Value.eqString]

theorem hasErrorCode_true_iff (err : GoError) (code : String) :
    hasErrorCode err code = true ↔
      ∃ e kvs, err = .sdk .ErrDefault400 e ∧ e.Body = some (.map kvs) ∧
        kvs.lookup "error_code" = some (.str code) := by
  constructor
  · intro h
    cases err with
    | wrap f c => simp [hasErrorCode] at h
    | other m => simp [hasErrorCode] at h
    | sdk kind e =>
      cases kind <;> try (simp [hasErrorCode] at h)
      cases hb : e.Body with
      | none => simp [hasErrorCode, hb] at h
      | some body =>
        cases body with
        | map kvs =>
          refine ⟨e, kvs, rfl, hb, ?_⟩
          cases hl : kvs.lookup "error_code" with
          | none => simp [hasErrorCode, hb, jmespathSearch, hl, Value.eqString] at h
          | some v =>
            cases v <;> simp [hasErrorCode, hb, jmespathSearch, hl, Value.eqString] at h
            simp [h]
        | _ => simp [hasErrorCode, hb, jmespathSearch, Value.eqString] at h
  · rintro ⟨e, kvs, rfl, hb, hl⟩
    exact hasErrorCode_of_member e kvs code hb hl

/-- C1, as stated, fails for an HTTP 404 error: when the DELETE call returns the
error type `ErrDefault404` with the JSON body carrying `error_code` "PCA.10010002",
`hasErrorCode` does not recognise it and `resourceCcmPrivateCertificateDelete`
returns an error diagnostic. -/
theorem ccm_delete_surfaces_404_with_code :
    hasErrorCode (err404 (some notFoundBody)) "PCA.10010002" = false ∧
      (resourceCcmPrivateCertificateDelete
        (ccmEnv (ccmClient fun _ => .error (err404 (some notFoundBody))) (.ok []) none)
        (certificateData "cert-1" [])).2.HasError = true := by
  constructor <;> rfl

/-- C1 amended: when the DELETE call returns an HTTP 400 error (the type
`ErrDefault400`) whose JSON body is an object with `error_code` equal to
"PCA.10010002", `resourceCcmPrivateCertificateDelete` returns no diagnostics and
leaves the resource data as it was. -/
theorem ccm_delete_absorbs_not_found (env : CcmEnv) (d : ResourceData) (client : ServiceClient)
    (e : ErrUnexpectedResponseCode) (kvs : List (String × Value))
    (hclient : env.NewServiceClient "ccm" (env.GetRegion d) = .ok client)
    (hreq : client.Request "DELETE" (certificatePath client d) none =
      .error (.sdk .ErrDefault400 e))
    (hbody : e.Body = some (.map kvs))
    (hcode : kvs.lookup "error_code" = some (.str "PCA.10010002")) :
    resourceCcmPrivateCertificateDelete env d = (d, []) := by
  unfold resourceCcmPrivateCertificateDelete
  rw [hclient]
  simp only [hreq, hasErrorCode_of_member e kvs "PCA.10010002" hbody hcode, if_true]

/-- Witness of the amended C1: an HTTP 400 error with the not-found body. -/
theorem ccm_delete_absorbs_not_found_witness :
    resourceCcmPrivateCertificateDelete
        (ccmEnv (ccmClient fun _ => .error (err400 (some notFoundBody))) (.ok []) none)
        (certificateData "cert-1" []) = (certificateData "cert-1" [], []) :=
  ccm_delete_absorbs_not_found
    (ccmEnv (ccmClient fun _ => .error (err400 (some notFoundBody))) (.ok []) none)
    (certificateData "cert-1" []) (ccmClient fun _ => .error (err400 (some notFoundBody)))
    ⟨400, some notFoundBody⟩ [("error_code", .str "PCA.10010002")] rfl rfl rfl rfl

/-- C3: every error of the DELETE call that `hasErrorCode` does not recognise as
carrying "PCA.10010002" is returned by `resourceCcmPrivateCertificateDelete` as
an error diagnostic around that error; among them every error of another type
than `ErrDefault400`, and an `ErrDefault400` whose body is not JSON, is not an
object, or has no `error_code` member equal to the string "PCA.10010002". -/
theorem ccm_delete_surfaces_other_errors (env : CcmEnv) (d : ResourceData)
    (client : ServiceClient) (err : GoError)
    (hclient : env.NewServiceClient "ccm" (env.GetRegion d) = .ok client)
    (hreq : client.Request "DELETE" (certificatePath client d) none = .error err)
    (hnot : hasErrorCode err "PCA.10010002" = false ∨
      ¬ ∃ e kvs, err = .sdk .ErrDefault400 e ∧ e.Body = some (.map kvs) ∧
        kvs.lookup "error_code" = some (.str "PCA.10010002")) :
    resourceCcmPrivateCertificateDelete env d =
        (d, diagErrorf "error deleting CCM private certificate: %s" [err]) ∧
      (resourceCcmPrivateCertificateDelete env d).2.HasError = true := by
  have hfalse : hasErrorCode err "PCA.10010002" = false := by
    rcases hnot with h | h
    · exact h
    · cases hc : hasErrorCode err "PCA.10010002" with
      | false => rfl
      | true => exact absurd ((hasErrorCode_true_iff err "PCA.10010002").1 hc) h
  have hres : resourceCcmPrivateCertificateDelete env d =
      (d, diagErrorf "error deleting CCM private certificate: %s" [err]) := by
    unfold resourceCcmPrivateCertificateDelete
    rw [hclient]
    simp [hreq, hfalse]
  refine ⟨hres, ?_⟩
  rw [hres]
  rfl

/-- Witness of C3: an HTTP 400 error whose body carries another error code. -/
theorem ccm_delete_surfaces_other_errors_witness :
    (resourceCcmPrivateCertificateDelete
        (ccmEnv (ccmClient fun _ =>
          .error (err400 (some (.map [("error_code", .str "PCA.00010001")])))) (.ok []) none)
        (certificateData "cert-1" [])).2.HasError = true :=
  (ccm_delete_surfaces_other_errors
    (ccmEnv (ccmClient fun _ =>
      .error (err400 (some (.map [("error_code", .str "PCA.00010001")])))) (.ok []) none)
    (certificateData "cert-1" [])
    (ccmClient fun _ => .error (err400 (some (.map [("error_code", .str "PCA.00010001")]))))
    (err400 (some (.map [("error_code", .str "PCA.00010001")]))) rfl rfl (Or.inl rfl)).2

/-! ## Delete of a CSMS secret -/

/-- C2, as stated, fails: when `secrets.Delete` returns a not-found error (the
type `ErrDefault404`), `resourceCsmsSecretDelete` returns it as an error
diagnostic and keeps the id. -/
theorem csms_delete_surfaces_not_found :
    resourceCsmsSecretDelete
          (csmsEnv (kmsClient (.ok exampleSecret) (some (err404 none)) (.ok []) (.ok exampleVersion)
            none (.ok [])))
          (secretData "sid-1/secret-a" "secret-a" []) =
        .ok (secretData "sid-1/secret-a" "secret-a" [],
          diagErrorf "failed to delete CSMS secret: %s" [err404 none]) ∧
      (diagErrorf "failed to delete CSMS secret: %s" [err404 none]).HasError = true ∧
      returnsNoError (resourceCsmsSecretDelete
          (csmsEnv (kmsClient (.ok exampleSecret) (some (err404 none)) (.ok []) (.ok exampleVersion)
            none (.ok [])))
          (secretData "sid-1/secret-a" "secret-a" [])) = false :=
  ⟨rfl, rfl, rfl⟩

/-- C2 amended: `resourceCsmsSecretDelete` returns every error of the remote
delete call, a not-found error included, as an error diagnostic and keeps the
id; it returns no diagnostics, and clears the id, when the remote delete call
returns no error. -/
theorem csms_delete_result (env : CsmsEnv) (d : ResourceData) (client : KmsClient)
    (name : String)
    (hclient : env.KmsV1Client (env.GetRegion d) = .ok client)
    (hname : d.Get "name" = .str name) :
    (∀ err, client.secretsDelete name = some err →
        resourceCsmsSecretDelete env d =
            .ok (d, diagErrorf "failed to delete CSMS secret: %s" [err]) ∧
          (diagErrorf "failed to delete CSMS secret: %s" [err]).HasError = true) ∧
      (client.secretsDelete name = none →
        resourceCsmsSecretDelete env d = .ok (d.SetId "", [])) := by
  constructor
  · intro err herr
    refine ⟨?_, rfl⟩
    unfold resourceCsmsSecretDelete
    rw [hclient]
    simp only [hname, Value.assertString, pure_bind, herr]
    rfl
  · intro hnone
    unfold resourceCsmsSecretDelete
    rw [hclient]
    simp only [hname, Value.assertString, pure_bind, hnone]
    rfl

/-- Witness of the amended C2: a successful remote delete clears the id. -/
theorem csms_delete_result_witness :
    resourceCsmsSecretDelete
        (csmsEnv (kmsClient (.ok exampleSecret) none (.ok []) (.ok exampleVersion) none (.ok [])))
        (secretData "sid-1/secret-a" "secret-a" []) =
      .ok ((secretData "sid-1/secret-a" "secret-a" []).SetId "", []) :=
  (csms_delete_result
    (csmsEnv (kmsClient (.ok exampleSecret) none (.ok []) (.ok exampleVersion) none (.ok [])))
    (secretData "sid-1/secret-a" "secret-a" [])
    (kmsClient (.ok exampleSecret) none (.ok []) (.ok exampleVersion) none (.ok []))
    "secret-a" rfl rfl).2 rfl

/-! ## Read of a CCM private certificate -/

/-- C4, as stated, fails outside the HTTP 400 class: when the GET call returns
an HTTP 500 error (or an HTTP 403 error) whose body carries `error_code`
"PCA.10010002", `hasErrorCode` does not recognise it, the error reaches
`CheckDeletedDiag` as it is, and `resourceCcmPrivateCertificateRead` returns an
error diagnostic and keeps the id. -/
theorem ccm_read_fatal_on_500_with_code :
    hasErrorCode (err500 (some notFoundBody)) "PCA.10010002" = false ∧
      resourceCcmPrivateCertificateRead
          (ccmEnv (ccmClient fun _ => .error (err500 (some notFoundBody))) (.ok []) none)
          (certificateData "cert-1" []) =
        .ok (certificateData "cert-1" [],
          diagErrorf "error retrieving CCM private certificate" [err500 (some notFoundBody)]) ∧
      returnsNoError (resourceCcmPrivateCertificateRead
          (ccmEnv (ccmClient fun _ => .error (err500 (some notFoundBody))) (.ok []) none)
          (certificateData "cert-1" [])) = false ∧
      returnsNoError (resourceCcmPrivateCertificateRead
          (ccmEnv (ccmClient fun _ => .error (.sdk .ErrDefault403 ⟨403, some notFoundBody⟩))
            (.ok []) none)
          (certificateData "cert-1" [])) = false :=
  ⟨rfl, rfl, rfl, rfl⟩

/-- C4 amended: when the GET call returns an HTTP 400 error or an HTTP 404 error
(the types `ErrDefault400` and `ErrDefault404`) whose JSON body is an object with
`error_code` equal to "PCA.10010002", what `resourceCcmPrivateCertificateRead`
hands to `CheckDeletedDiag` is an `ErrDefault404`, the literal `ErrDefault404{}`
in the first case and the error itself in the second, and it returns what
`CheckDeletedDiag` makes of it: the id is cleared, the local record being
Absent, and no error diagnostic is returned. -/
theorem ccm_read_absent_on_not_found_code (env : CcmEnv) (d : ResourceData)
    (client : ServiceClient) (kind : ErrKind) (e : ErrUnexpectedResponseCode)
    (kvs : List (String × Value))
    (hkind : kind = .ErrDefault400 ∨ kind = .ErrDefault404)
    (hclient : env.NewServiceClient "ccm" (env.GetRegion d) = .ok client)
    (hreq : client.Request "GET" (certificatePath client d) none = .error (.sdk kind e))
    (hbody : e.Body = some (.map kvs))
    (hcode : kvs.lookup "error_code" = some (.str "PCA.10010002")) :
    ∃ e404 : ErrUnexpectedResponseCode,
      (e404 = (if kind = .ErrDefault400 then ⟨0, none⟩ else e)) ∧
      resourceCcmPrivateCertificateRead env d =
        .ok (env.CheckDeletedDiag d (.sdk .ErrDefault404 e404)
          "error retrieving CCM private certificate") ∧
      CheckDeletedDiag d (.sdk .ErrDefault404 e404) "error retrieving CCM private certificate" =
        (d.SetId "", [⟨Severity.Warning, "Resource not found", []⟩]) ∧
      (CheckDeletedDiag d (.sdk .ErrDefault404 e404)
        "error retrieving CCM private certificate").2.HasError = false := by
  rcases hkind with h | h
  · subst h
    refine ⟨⟨0, none⟩, by simp, ?_, rfl, rfl⟩
    unfold resourceCcmPrivateCertificateRead
    simp only [hclient, hreq, hasErrorCode_of_member e kvs "PCA.10010002" hbody hcode, if_true]
    rfl
  · subst h
    refine ⟨e, by simp, ?_, rfl, rfl⟩
    have hno : hasErrorCode (.sdk .ErrDefault404 e) "PCA.10010002" = false := rfl
    unfold resourceCcmPrivateCertificateRead
    simp only [hclient, hreq, hno]
    rfl

/-- Witness of the amended C4: an HTTP 400 error with the not-found body. -/
theorem ccm_read_absent_on_not_found_code_witness :
    (ErrKind.ErrDefault400 = .ErrDefault400 ∨ ErrKind.ErrDefault400 = .ErrDefault404) ∧
      ∃ e404 : ErrUnexpectedResponseCode,
        (e404 = (if ErrKind.ErrDefault400 = .ErrDefault400 then ⟨0, none⟩
          else ⟨400, some notFoundBody⟩)) ∧
        resourceCcmPrivateCertificateRead
            (ccmEnv (ccmClient fun _ => .error (err400 (some notFoundBody))) (.ok []) none)
            (certificateData "cert-1" []) =
          .ok (CheckDeletedDiag (certificateData "cert-1" []) (.sdk .ErrDefault404 e404)
            "error retrieving CCM private certificate") ∧
        CheckDeletedDiag (certificateData "cert-1" []) (.sdk .ErrDefault404 e404)
            "error retrieving CCM private certificate" =
          ((certificateData "cert-1" []).SetId "",
            [⟨Severity.Warning, "Resource not found", []⟩]) ∧
        (CheckDeletedDiag (certificateData "cert-1" []) (.sdk .ErrDefault404 e404)
          "error retrieving CCM private certificate").2.HasError = false :=
  ⟨Or.inl rfl,
    ccm_read_absent_on_not_found_code
      (ccmEnv (ccmClient fun _ => .error (err400 (some notFoundBody))) (.ok []) none)
      (certificateData "cert-1" []) (ccmClient fun _ => .error (err400 (some notFoundBody)))
      .ErrDefault400 ⟨400, some notFoundBody⟩ [("error_code", .str "PCA.10010002")]
      (Or.inl rfl) rfl rfl rfl rfl⟩

/-! ## Create of a CCM private certificate -/

/-- C8, as stated, fails: when the create call succeeds with the id "cert-1" and
`createTags` returns an error, `resourceCcmPrivateCertificateCreate` returns that
error as an error diagnostic, although the Read of the same record returns no
diagnostics. -/
theorem ccm_create_surfaces_tag_failure :
    resourceCcmPrivateCertificateCreate
          (ccmEnv (ccmClient ccmServer) (.ok []) (some (.other "tag quota exceeded")))
          (certificateData "" [("env", .str "dev")]) =
        .ok ((certificateData "" [("env", .str "dev")]).SetId "cert-1",
          diagFromErr (.other "tag quota exceeded")) ∧
      (diagFromErr (.other "tag quota exceeded")).HasError = true ∧
      returnsNoError (resourceCcmPrivateCertificateRead
          (ccmEnv (ccmClient ccmServer) (.ok []) (some (.other "tag quota exceeded")))
          ((certificateData "" [("env", .str "dev")]).SetId "cert-1")) = true :=
  ⟨rfl, rfl, rfl⟩

/-- C8 amended: when the create call succeeds and its response carries the id,
`resourceCcmPrivateCertificateCreate` sets the id; if `createTags` then returns
an error, Create returns that error as an error diagnostic and performs no Read;
if `createTags` returns no error, Create proceeds to the Read and returns the
Read's result. -/
theorem ccm_create_after_tags (env : CcmEnv) (d : ResourceData) (client : ServiceClient)
    (bodyParams tags : List (String × Value)) (resp : HttpResponse) (respBody : Value)
    (id : String)
    (hclient : env.NewServiceClient "ccm" (env.GetRegion d) = .ok client)
    (hbuild : buildCreateCertificateBodyParams env d = .ok bodyParams)
    (hreq : client.Request "POST" (client.Endpoint ++ "v1/private-certificates")
      (some (.map (env.RemoveNil bodyParams))) = .ok resp)
    (hflat : env.FlattenResponse resp = .ok respBody)
    (hid : jmespathSearch "certificate_id" respBody = .str id)
    (htags : d.Get "tags" = .map tags) :
    (∀ err, env.createTags id client tags "v1/private-certificates/\x7bid\x7d/tags/create" =
          some err →
        resourceCcmPrivateCertificateCreate env d = .ok (d.SetId id, diagFromErr err) ∧
          (diagFromErr err).HasError = true) ∧
      (env.createTags id client tags "v1/private-certificates/\x7bid\x7d/tags/create" = none →
        resourceCcmPrivateCertificateCreate env d =
          resourceCcmPrivateCertificateRead env (d.SetId id)) := by
  have htags1 : (d.SetId id).Get "tags" = .map tags := htags
  constructor
  · intro err herr
    refine ⟨?_, rfl⟩
    unfold resourceCcmPrivateCertificateCreate
    simp only [hclient, hbuild, ok_bind, hreq, hflat, hid, htags1, Value.assertString,
      Value.assertMap, pure_eq_ok, herr]
  · intro hnone
    unfold resourceCcmPrivateCertificateCreate
    simp only [hclient, hbuild, ok_bind, hreq, hflat, hid, htags1, Value.assertString,
      Value.assertMap, pure_eq_ok, hnone]

/-- Witness of the amended C8: with `createTags` succeeding, Create returns the
Read's result. -/
theorem ccm_create_after_tags_witness :
    resourceCcmPrivateCertificateCreate (ccmEnv (ccmClient ccmServer) (.ok []) none)
        (certificateData "" [("env", .str "dev")]) =
      resourceCcmPrivateCertificateRead (ccmEnv (ccmClient ccmServer) (.ok []) none)
        ((certificateData "" [("env", .str "dev")]).SetId "cert-1") :=
  (ccm_create_after_tags (ccmEnv (ccmClient ccmServer) (.ok []) none)
    (certificateData "" [("env", .str "dev")]) (ccmClient ccmServer) _ [("env", .str "dev")]
    ⟨200, some createdBody⟩ createdBody "cert-1" rfl rfl rfl rfl rfl rfl).2 rfl

/-! ## Create and Read of a CSMS secret -/

/-- C9: when the secret create call succeeds and the configured tag map is not
empty, `resourceCsmsSecretCreate` sets the id to the remote id, "/" and the name,
and a failing tag-create call is not surfaced: Create returns the result of the
Read of the record with that id, whatever the error was. -/
theorem csms_create_tags_best_effort (env : CsmsEnv) (d : ResourceData) (client : KmsClient)
    (name kmsKeyID description secretText : String) (rst : Secret)
    (tMaps : List (String × Value)) (err : GoError)
    (hclient : env.KmsV1Client (env.GetRegion d) = .ok client)
    (hname : d.Get "name" = .str name)
    (hkms : d.Get "kms_key_id" = .str kmsKeyID)
    (hdesc : d.Get "description" = .str description)
    (htext : d.Get "secret_text" = .str secretText)
    (hcreate : client.secretsCreate ⟨name, kmsKeyID, description, secretText⟩ = .ok rst)
    (htags : d.Get "tags" = .map tMaps) (hne : tMaps ≠ [])
    (hfail : client.tagsCreate serviceType rst.ID (env.ExpandResourceTags tMaps) = some err) :
    resourceCsmsSecretCreate env d =
        resourceCsmsSecretRead env (d.SetId (rst.ID ++ "/" ++ name)) ∧
      (d.SetId (rst.ID ++ "/" ++ name)).Id = rst.ID ++ "/" ++ name := by
  refine ⟨?_, rfl⟩
  have hget : (d.SetId (rst.ID ++ "/" ++ name)).attrs "tags" = .map tMaps := htags
  have hzero : (Value.map tMaps).isZero = false := by
    cases tMaps with
    | nil => exact absurd rfl hne
    | cons p ps => rfl
  unfold resourceCsmsSecretCreate
  simp only [hclient, hname, hkms, hdesc, htext, Value.assertString, pure_eq_ok, ok_bind,
    hcreate, ResourceData.GetOk, hget, hzero, Bool.not_false, if_true, Value.assertMap, hfail]

/-- Witness of C9: the tag-create call fails after a successful create. -/
theorem csms_create_tags_best_effort_witness :
    resourceCsmsSecretCreate
        (csmsEnv (kmsClient (.ok exampleSecret) none (.ok [⟨"v1", 1700000000123⟩])
          (.ok exampleVersion) (some (.other "tag quota exceeded")) (.ok [])))
        (secretData "" "secret-a" [("env", .str "dev")]) =
      resourceCsmsSecretRead
        (csmsEnv (kmsClient (.ok exampleSecret) none (.ok [⟨"v1", 1700000000123⟩])
          (.ok exampleVersion) (some (.other "tag quota exceeded")) (.ok [])))
        ((secretData "" "secret-a" [("env", .str "dev")]).SetId ("sid-1" ++ "/" ++ "secret-a")) :=
  (csms_create_tags_best_effort
    (csmsEnv (kmsClient (.ok exampleSecret) none (.ok [⟨"v1", 1700000000123⟩])
      (.ok exampleVersion) (some (.other "tag quota exceeded")) (.ok [])))
    (secretData "" "secret-a" [("env", .str "dev")])
    (kmsClient (.ok exampleSecret) none (.ok [⟨"v1", 1700000000123⟩])
      (.ok exampleVersion) (some (.other "tag quota exceeded")) (.ok []))
    "secret-a" "" "" "" exampleSecret [("env", .str "dev")] (.other "tag quota exceeded")
    rfl rfl rfl rfl rfl rfl rfl (by simp) rfl).1

/-- C10, as stated, fails for the CCM private certificate: when the GET call
succeeds and `getTags` returns an error, `resourceCcmPrivateCertificateRead`
returns that error as an error diagnostic and sets no attribute.  In the CSMS
secret Read the secret GET alone is not enough either: when the version list
query fails as well, the Read ends in a nil dereference. -/
theorem ccm_read_fails_on_tag_query :
    resourceCcmPrivateCertificateRead
          (ccmEnv (ccmClient ccmServer) (.error (.other "tag query failed")) none)
          (certificateData "cert-1" []) =
        .ok (certificateData "cert-1" [], diagFromErr (.other "tag query failed")) ∧
      (diagFromErr (.other "tag query failed")).HasError = true ∧
      returnsNoError (resourceCcmPrivateCertificateRead
          (ccmEnv (ccmClient ccmServer) (.error (.other "tag query failed")) none)
          (certificateData "cert-1" [])) = false ∧
      resourceCsmsSecretRead
          (csmsEnv (kmsClient (.ok exampleSecret) none (.error (.other "versions unavailable"))
            (.ok exampleVersion) none (.error (.other "tag query failed"))))
          (secretData "sid-1/secret-a" "secret-a" []) = .error Panic.nilDereference :=
  ⟨rfl, rfl, rfl, rfl⟩

/-- C10 amended: in the CSMS secret Read, if the secret GET and the
latest-version query succeed and every attribute write succeeds but the tag
query returns an error, the Read returns no diagnostics and leaves the `tags`
attribute as it was.  In the CCM private certificate Read, an error of the tag
query is returned as an error diagnostic and no attribute is written. -/
theorem read_on_failing_tag_query (cenv : CsmsEnv) (d : ResourceData) (kms : KmsClient)
    (secret : Secret) (version : Version) (err : GoError)
    (env : CcmEnv) (c : ResourceData) (client : ServiceClient) (resp : HttpResponse)
    (body : Value) (cerr : GoError)
    (hkms : cenv.KmsV1Client (cenv.GetRegion d) = .ok kms)
    (hget : kms.secretsGet (parseID d.Id).2 = .ok secret)
    (hver : queryLatestVersion cenv (cenv.GetRegion d) (parseID d.Id).2 = .ok (.ok version))
    (hset1 : (setAll d (csmsReadFields (cenv.GetRegion d) secret)).2 = [])
    (hset2 : (setAll (setAll d (csmsReadFields (cenv.GetRegion d) secret)).1
      (csmsVersionFields cenv version)).2 = [])
    (htags : kms.tagsGet serviceType (parseID d.Id).1 = .error err)
    (hclient : env.NewServiceClient "ccm" (env.GetRegion c) = .ok client)
    (hreq : client.Request "GET" (certificatePath client c) none = .ok resp)
    (hflat : env.FlattenResponse resp = .ok body)
    (hctags : env.getTags c.Id client "v1/private-certificates/\x7bid\x7d/tags" = .error cerr) :
    (∃ d1 : ResourceData, resourceCsmsSecretRead cenv d = .ok (d1, []) ∧
        d1.attrs "tags" = d.attrs "tags") ∧
      resourceCcmPrivateCertificateRead env c = .ok (c, diagFromErr cerr) ∧
      (diagFromErr cerr).HasError = true := by
  refine ⟨⟨(setAll (setAll d (csmsReadFields (cenv.GetRegion d) secret)).1
      (csmsVersionFields cenv version)).1, ?_, ?_⟩, ?_, rfl⟩
  · unfold resourceCsmsSecretRead
    simp only [hkms, hget, hver, ok_bind, htags, hset1, hset2, List.append_nil,
      diagOfMultierror, List.isEmpty_nil, if_true, pure_eq_ok]
  · rw [setAll_attrs_of_not_mem, setAll_attrs_of_not_mem]
    · intro p hp
      simp only [csmsReadFields, List.mem_cons, List.mem_singleton, List.not_mem_nil,
        or_false] at hp
      rcases hp with h | h | h | h | h | h | h <;> (rw [h]; simp)
    · intro p hp
      simp only [csmsVersionFields, List.mem_cons, List.mem_singleton, List.not_mem_nil,
        or_false] at hp
      rcases hp with h | h <;> (rw [h]; simp)
  · unfold resourceCcmPrivateCertificateRead
    simp only [hclient, hreq, hflat, hctags, pure_eq_ok]

/-- Witness of the amended C10: both tag queries fail. -/
theorem read_on_failing_tag_query_witness :
    (∃ d1 : ResourceData,
      resourceCsmsSecretRead
          (csmsEnv (kmsClient (.ok exampleSecret) none (.ok [⟨"v1", 1700000000123⟩])
            (.ok exampleVersion) none (.error (.other "tag query failed"))))
          (secretData "sid-1/secret-a" "secret-a" [("env", .str "dev")]) = .ok (d1, []) ∧
        d1.attrs "tags" =
          (secretData "sid-1/secret-a" "secret-a" [("env", .str "dev")]).attrs "tags") ∧
      resourceCcmPrivateCertificateRead
          (ccmEnv (ccmClient ccmServer) (.error (.other "tag query failed")) none)
          (certificateData "cert-1" []) =
        .ok (certificateData "cert-1" [], diagFromErr (.other "tag query failed")) ∧
      (diagFromErr (.other "tag query failed")).HasError = true :=
  read_on_failing_tag_query
    (csmsEnv (kmsClient (.ok exampleSecret) none (.ok [⟨"v1", 1700000000123⟩])
      (.ok exampleVersion) none (.error (.other "tag query failed"))))
    (secretData "sid-1/secret-a" "secret-a" [("env", .str "dev")])
    (kmsClient (.ok exampleSecret) none (.ok [⟨"v1", 1700000000123⟩])
      (.ok exampleVersion) none (.error (.other "tag query failed")))
    exampleSecret exampleVersion (.other "tag query failed")
    (ccmEnv (ccmClient ccmServer) (.error (.other "tag query failed")) none)
    (certificateData "cert-1" []) (ccmClient ccmServer) ⟨200, some certificateBody⟩
    certificateBody (.other "tag query failed")
    rfl rfl rfl rfl rfl rfl rfl rfl rfl rfl

/-! ## Update of a CCM private certificate -/

theorem ccm_update_unfold (env : CcmEnv) (d : ResourceData) (client : ServiceClient)
    (oMap nMap : List (String × Value))
    (hclient : env.NewServiceClient "ccm" (env.GetRegion d) = .ok client)
    (hchange : d.HasChange "tags" = true)
    (hold : d.old "tags" = .map oMap) (hnew : d.attrs "tags" = .map nMap) :
    resourceCcmPrivateCertificateUpdate env d =
      if 0 < oMap.length then
        match env.deleteTags d.Id client oMap "v1/private-certificates/\x7bid\x7d/tags/delete" with
        | some err =>
          ([.deleteTags d.Id oMap "v1/private-certificates/\x7bid\x7d/tags/delete"],
            pure (d, diagFromErr err))
        | none =>
          ccmSetNewTags env d client nMap
            [.deleteTags d.Id oMap "v1/private-certificates/\x7bid\x7d/tags/delete"]
      else ccmSetNewTags env d client nMap [] := by
  unfold resourceCcmPrivateCertificateUpdate
  simp only [hclient, hchange, if_true, ResourceData.GetChange, hold, hnew]

theorem ccmSetNewTags_calls (env : CcmEnv) (d : ResourceData) (client : ServiceClient)
    (nMap : List (String × Value)) (issued : List CcmCall) :
    (ccmSetNewTags env d client nMap issued).1 =
      issued ++ (if nMap.isEmpty then []
        else [.createTags d.Id nMap "v1/private-certificates/\x7bid\x7d/tags/create"]) := by
  unfold ccmSetNewTags
  cases nMap with
  | nil => simp
  | cons p ps =>
    cases env.createTags d.Id client (p :: ps)
      "v1/private-certificates/\x7bid\x7d/tags/create" <;> simp

theorem ccmSetNewTags_result (env : CcmEnv) (d : ResourceData) (client : ServiceClient)
    (nMap : List (String × Value)) (issued : List CcmCall)
    (hcre : nMap ≠ [] →
      env.createTags d.Id client nMap "v1/private-certificates/\x7bid\x7d/tags/create" = none) :
    (ccmSetNewTags env d client nMap issued).2 = .ok (d, []) := by
  unfold ccmSetNewTags
  cases nMap with
  | nil => simp [pure_eq_ok]
  | cons p ps => simp [hcre (by simp), pure_eq_ok]

/-- The calls of a CCM Update that changes the tags, when the removal call, if
one is issued, succeeds: one removal call with the whole old map unless it is
empty, then one addition call with the whole new map unless it is empty. -/
theorem ccm_update_calls (env : CcmEnv) (d : ResourceData) (client : ServiceClient)
    (oMap nMap : List (String × Value))
    (hclient : env.NewServiceClient "ccm" (env.GetRegion d) = .ok client)
    (hchange : d.HasChange "tags" = true)
    (hold : d.old "tags" = .map oMap) (hnew : d.attrs "tags" = .map nMap)
    (hdel : oMap ≠ [] →
      env.deleteTags d.Id client oMap "v1/private-certificates/\x7bid\x7d/tags/delete" = none) :
    (resourceCcmPrivateCertificateUpdate env d).1 =
      (if oMap.isEmpty then []
        else [.deleteTags d.Id oMap "v1/private-certificates/\x7bid\x7d/tags/delete"]) ++
      (if nMap.isEmpty then []
        else [.createTags d.Id nMap "v1/private-certificates/\x7bid\x7d/tags/create"]) := by
  rw [ccm_update_unfold env d client oMap nMap hclient hchange hold hnew]
  cases oMap with
  | nil => simp [ccmSetNewTags_calls]
  | cons p ps => simp [hdel (by simp), ccmSetNewTags_calls]

/-- The result of a CCM Update that changes the tags, when the calls it issues
succeed: no diagnostics, and the resource data as it was. -/
theorem ccm_update_result (env : CcmEnv) (d : ResourceData) (client : ServiceClient)
    (oMap nMap : List (String × Value))
    (hclient : env.NewServiceClient "ccm" (env.GetRegion d) = .ok client)
    (hchange : d.HasChange "tags" = true)
    (hold : d.old "tags" = .map oMap) (hnew : d.attrs "tags" = .map nMap)
    (hdel : oMap ≠ [] →
      env.deleteTags d.Id client oMap "v1/private-certificates/\x7bid\x7d/tags/delete" = none)
    (hcre : nMap ≠ [] →
      env.createTags d.Id client nMap "v1/private-certificates/\x7bid\x7d/tags/create" = none) :
    (resourceCcmPrivateCertificateUpdate env d).2 = .ok (d, []) := by
  rw [ccm_update_unfold env d client oMap nMap hclient hchange hold hnew]
  cases oMap with
  | nil => simp [ccmSetNewTags_result env d client nMap _ hcre]
  | cons p ps => simp [hdel (by simp), ccmSetNewTags_result env d client nMap _ hcre]

/-- C12: an Update of a CCM private certificate in which the tags changed from a
non-empty old map to a non-empty new map, both tag calls succeeding, issues
exactly two calls: one removal call carrying the whole old map, then one
addition call carrying the whole new map; none of them is a request to the
certificate endpoint, and Update returns no diagnostics. -/
theorem ccm_update_tag_only_sequence (env : CcmEnv) (d : ResourceData)
    (client : ServiceClient) (oMap nMap : List (String × Value))
    (hclient : env.NewServiceClient "ccm" (env.GetRegion d) = .ok client)
    (hchange : d.HasChange "tags" = true)
    (hold : (d.GetChange "tags").1 = .map oMap) (hnew : (d.GetChange "tags").2 = .map nMap)
    (ho : oMap ≠ []) (hn : nMap ≠ [])
    (hdel : env.deleteTags d.Id client oMap
      "v1/private-certificates/\x7bid\x7d/tags/delete" = none)
    (hcre : env.createTags d.Id client nMap
      "v1/private-certificates/\x7bid\x7d/tags/create" = none) :
    (resourceCcmPrivateCertificateUpdate env d).1 =
        [.deleteTags d.Id oMap "v1/private-certificates/\x7bid\x7d/tags/delete",
          .createTags d.Id nMap "v1/private-certificates/\x7bid\x7d/tags/create"] ∧
      (resourceCcmPrivateCertificateUpdate env d).1.length = 2 ∧
      (∀ c ∈ (resourceCcmPrivateCertificateUpdate env d).1, c.isRequest = false) ∧
      (resourceCcmPrivateCertificateUpdate env d).2 = .ok (d, []) := by
  have hcalls := ccm_update_calls env d client oMap nMap hclient hchange hold hnew (fun _ => hdel)
  have hoe : oMap.isEmpty = false := by
    cases oMap with
    | nil => exact absurd rfl ho
    | cons p ps => rfl
  have hne : nMap.isEmpty = false := by
    cases nMap with
    | nil => exact absurd rfl hn
    | cons p ps => rfl
  simp only [hoe, hne, Bool.false_eq_true, if_false, List.singleton_append] at hcalls
  refine ⟨hcalls, ?_, ?_, ?_⟩
  · rw [hcalls]
    rfl
  · rw [hcalls]
    intro c hc
    simp only [List.mem_cons, List.mem_singleton, List.not_mem_nil, or_false] at hc
    rcases hc with h | h <;> (rw [h]; rfl)
  · exact ccm_update_result env d client oMap nMap hclient hchange hold hnew (fun _ => hdel)
      (fun _ => hcre)

/-- Witness of C12: the tags change from env=dev to env=prod. -/
theorem ccm_update_tag_only_sequence_witness :
    (resourceCcmPrivateCertificateUpdate (ccmTagEnv (ccmClient ccmServer) none none)
        (certificateTagUpdate [("env", .str "dev")] [("env", .str "prod")])).1 =
        [.deleteTags "cert-1" [("env", .str "dev")]
            "v1/private-certificates/\x7bid\x7d/tags/delete",
          .createTags "cert-1" [("env", .str "prod")]
            "v1/private-certificates/\x7bid\x7d/tags/create"] ∧
      (resourceCcmPrivateCertificateUpdate (ccmTagEnv (ccmClient ccmServer) none none)
        (certificateTagUpdate [("env", .str "dev")] [("env", .str "prod")])).1.length = 2 ∧
      (∀ c ∈ (resourceCcmPrivateCertificateUpdate (ccmTagEnv (ccmClient ccmServer) none none)
        (certificateTagUpdate [("env", .str "dev")] [("env", .str "prod")])).1,
          c.isRequest = false) ∧
      (resourceCcmPrivateCertificateUpdate (ccmTagEnv (ccmClient ccmServer) none none)
        (certificateTagUpdate [("env", .str "dev")] [("env", .str "prod")])).2 =
        .ok (certificateTagUpdate [("env", .str "dev")] [("env", .str "prod")], []) :=
  ccm_update_tag_only_sequence (ccmTagEnv (ccmClient ccmServer) none none)
    (certificateTagUpdate [("env", .str "dev")] [("env", .str "prod")]) (ccmClient ccmServer)
    [("env", .str "dev")] [("env", .str "prod")] rfl rfl rfl rfl (by simp) (by simp) rfl rfl

/-- C13: with the remote tag store modelled as a key-to-value map that a removal
call clears of the keys it names and an addition call upserts with the entries
it carries, a store equal to the old tag map is, after the calls of an Update
that changes the tags from the old to the new map and whose calls succeed,
equal to the new tag map at every key. -/
theorem ccm_update_tags_converge (env : CcmEnv) (d : ResourceData) (client : ServiceClient)
    (oMap nMap : List (String × Value))
    (hclient : env.NewServiceClient "ccm" (env.GetRegion d) = .ok client)
    (hchange : d.HasChange "tags" = true)
    (hold : (d.GetChange "tags").1 = .map oMap) (hnew : (d.GetChange "tags").2 = .map nMap)
    (hdel : oMap ≠ [] →
      env.deleteTags d.Id client oMap "v1/private-certificates/\x7bid\x7d/tags/delete" = none)
    (hcre : nMap ≠ [] →
      env.createTags d.Id client nMap "v1/private-certificates/\x7bid\x7d/tags/create" = none) :
    (resourceCcmPrivateCertificateUpdate env d).2 = .ok (d, []) ∧
      ∀ key : String,
        TagStore.applyAll (TagStore.ofMap oMap) (resourceCcmPrivateCertificateUpdate env d).1 key =
          TagStore.ofMap nMap key := by
  refine ⟨ccm_update_result env d client oMap nMap hclient hchange hold hnew hdel hcre, ?_⟩
  intro key
  rw [ccm_update_calls env d client oMap nMap hclient hchange hold hnew hdel]
  cases oMap with
  | nil =>
    cases nMap with
    | nil => rfl
    | cons q qs =>
      simp only [List.isEmpty_nil, List.isEmpty_cons, if_true, Bool.false_eq_true, if_false,
        List.nil_append, TagStore.applyAll, List.foldl_cons, List.foldl_nil, TagStore.apply,
        TagStore.ofMap]
      cases (q :: qs).lookup key <;> rfl
  | cons p ps =>
    cases nMap with
    | nil =>
      simp only [List.isEmpty_nil, List.isEmpty_cons, if_true, Bool.false_eq_true, if_false,
        List.append_nil, TagStore.applyAll, List.foldl_cons, List.foldl_nil, TagStore.apply,
        TagStore.ofMap]
      cases (p :: ps).lookup key <;> rfl
    | cons q qs =>
      simp only [List.isEmpty_cons, Bool.false_eq_true, if_false, List.singleton_append,
        TagStore.applyAll, List.foldl_cons, List.foldl_nil, TagStore.apply, TagStore.ofMap]
      cases (q :: qs).lookup key <;> cases (p :: ps).lookup key <;> rfl

/-- Witness of C13: the tags change from env=dev, team=a to env=prod. -/
theorem ccm_update_tags_converge_witness :
    (resourceCcmPrivateCertificateUpdate (ccmTagEnv (ccmClient ccmServer) none none)
        (certificateTagUpdate [("env", .str "dev"), ("team", .str "a")]
          [("env", .str "prod")])).2 =
        .ok (certificateTagUpdate [("env", .str "dev"), ("team", .str "a")]
          [("env", .str "prod")], []) ∧
      ∀ key : String,
        TagStore.applyAll (TagStore.ofMap [("env", .str "dev"), ("team", .str "a")])
            (resourceCcmPrivateCertificateUpdate (ccmTagEnv (ccmClient ccmServer) none none)
              (certificateTagUpdate [("env", .str "dev"), ("team", .str "a")]
                [("env", .str "prod")])).1 key =
          TagStore.ofMap [("env", .str "prod")] key :=
  ccm_update_tags_converge (ccmTagEnv (ccmClient ccmServer) none none)
    (certificateTagUpdate [("env", .str "dev"), ("team", .str "a")] [("env", .str "prod")])
    (ccmClient ccmServer) [("env", .str "dev"), ("team", .str "a")] [("env", .str "prod")]
    rfl rfl rfl rfl (fun _ => rfl) (fun _ => rfl)

/-- C14, as stated, fails: with the old tags env=dev, team=a and the new tags
env=prod, team=a, the removal call names both entries of the old map and the
addition call carries both entries of the new map, so the entry team=a, the same
in both maps, appears in both calls. -/
theorem ccm_update_resends_unchanged_tag :
    (resourceCcmPrivateCertificateUpdate (ccmTagEnv (ccmClient ccmServer) none none)
        (certificateTagUpdate [("env", .str "dev"), ("team", .str "a")]
          [("env", .str "prod"), ("team", .str "a")])).1 =
      [.deleteTags "cert-1" [("env", .str "dev"), ("team", .str "a")]
          "v1/private-certificates/\x7bid\x7d/tags/delete",
        .createTags "cert-1" [("env", .str "prod"), ("team", .str "a")]
          "v1/private-certificates/\x7bid\x7d/tags/create"] :=
  rfl

/-- C14 amended: for every pair of tag maps, the removal call of an Update that
changes the tags is issued when the old map is not empty and names every entry
of the old map, and the addition call is issued, after a successful removal,
when the new map is not empty and carries every entry of the new map; an entry
that is the same in both maps is therefore in both calls. -/
theorem ccm_update_tag_calls_carry_whole_maps (env : CcmEnv) (d : ResourceData)
    (client : ServiceClient) (oMap nMap : List (String × Value))
    (hclient : env.NewServiceClient "ccm" (env.GetRegion d) = .ok client)
    (hchange : d.HasChange "tags" = true)
    (hold : (d.GetChange "tags").1 = .map oMap) (hnew : (d.GetChange "tags").2 = .map nMap)
    (hdel : oMap ≠ [] →
      env.deleteTags d.Id client oMap "v1/private-certificates/\x7bid\x7d/tags/delete" = none) :
    (resourceCcmPrivateCertificateUpdate env d).1 =
        (if oMap.isEmpty then []
          else [.deleteTags d.Id oMap "v1/private-certificates/\x7bid\x7d/tags/delete"]) ++
        (if nMap.isEmpty then []
          else [.createTags d.Id nMap "v1/private-certificates/\x7bid\x7d/tags/create"]) ∧
      ∀ (k : String) (v : Value), oMap.lookup k = some v → nMap.lookup k = some v →
        CcmCall.deleteTags d.Id oMap "v1/private-certificates/\x7bid\x7d/tags/delete" ∈
            (resourceCcmPrivateCertificateUpdate env d).1 ∧
          CcmCall.createTags d.Id nMap "v1/private-certificates/\x7bid\x7d/tags/create" ∈
            (resourceCcmPrivateCertificateUpdate env d).1 := by
  have hcalls := ccm_update_calls env d client oMap nMap hclient hchange hold hnew hdel
  refine ⟨hcalls, ?_⟩
  intro k v ho hn
  rw [hcalls]
  cases oMap with
  | nil => simp at ho
  | cons p ps =>
    cases nMap with
    | nil => simp at hn
    | cons q qs => simp

/-- Witness of the amended C14: the tags change from env=dev, team=a to
env=prod, team=a. -/
theorem ccm_update_tag_calls_carry_whole_maps_witness :
    CcmCall.deleteTags "cert-1" [("env", .str "dev"), ("team", .str "a")]
          "v1/private-certificates/\x7bid\x7d/tags/delete" ∈
        (resourceCcmPrivateCertificateUpdate (ccmTagEnv (ccmClient ccmServer) none none)
          (certificateTagUpdate [("env", .str "dev"), ("team", .str "a")]
            [("env", .str "prod"), ("team", .str "a")])).1 ∧
      CcmCall.createTags "cert-1" [("env", .str "prod"), ("team", .str "a")]
          "v1/private-certificates/\x7bid\x7d/tags/create" ∈
        (resourceCcmPrivateCertificateUpdate (ccmTagEnv (ccmClient ccmServer) none none)
          (certificateTagUpdate [("env", .str "dev"), ("team", .str "a")]
            [("env", .str "prod"), ("team", .str "a")])).1 :=
  (ccm_update_tag_calls_carry_whole_maps (ccmTagEnv (ccmClient ccmServer) none none)
    (certificateTagUpdate [("env", .str "dev"), ("team", .str "a")]
      [("env", .str "prod"), ("team", .str "a")])
    (ccmClient ccmServer) [("env", .str "dev"), ("team", .str "a")]
    [("env", .str "prod"), ("team", .str "a")] rfl rfl rfl rfl (fun _ => rfl)).2
    "team" (.str "a") rfl rfl

theorem ccm_update_calls_mem (env : CcmEnv) (d : ResourceData)
    (oMap nMap : List (String × Value))
    (hold : d.old "tags" = .map oMap) (hnew : d.attrs "tags" = .map nMap) :
    ∀ c ∈ (resourceCcmPrivateCertificateUpdate env d).1,
      (c = .deleteTags d.Id oMap "v1/private-certificates/\x7bid\x7d/tags/delete" ∧ oMap ≠ []) ∨
      (c = .createTags d.Id nMap "v1/private-certificates/\x7bid\x7d/tags/create" ∧
        nMap ≠ []) := by
  unfold resourceCcmPrivateCertificateUpdate
  cases hclient : env.NewServiceClient "ccm" (env.GetRegion d) with
  | error e => simp
  | ok client =>
    cases hchange : d.HasChange "tags" with
    | false => simp
    | true =>
      simp only [ResourceData.GetChange, hold, hnew, if_true]
      cases oMap with
      | nil =>
        cases nMap with
        | nil => simp [ccmSetNewTags]
        | cons q qs =>
          cases hc : env.createTags d.Id client (q :: qs)
            "v1/private-certificates/\x7bid\x7d/tags/create" <;> simp [ccmSetNewTags, hc]
      | cons p ps =>
        cases hd : env.deleteTags d.Id client (p :: ps)
            "v1/private-certificates/\x7bid\x7d/tags/delete" with
        | some err => simp
        | none =>
          cases nMap with
          | nil => simp [ccmSetNewTags]
          | cons q qs =>
            cases hc : env.createTags d.Id client (q :: qs)
              "v1/private-certificates/\x7bid\x7d/tags/create" <;> simp [ccmSetNewTags, hc]

theorem csms_create_traced_result (env : CsmsEnv) (d : ResourceData) :
    (resourceCsmsSecretCreateTraced env d).2 = resourceCsmsSecretCreate env d := by
  unfold resourceCsmsSecretCreateTraced resourceCsmsSecretCreate
  cases env.KmsV1Client (env.GetRegion d) with
  | error e => rfl
  | ok client =>
    simp only
    cases hn : d.Get "name" <;> try rfl
    cases hk : d.Get "kms_key_id" <;> try rfl
    cases hd : d.Get "description" <;> try rfl
    cases ht : d.Get "secret_text" <;> try rfl
    simp only [Value.assertString, pure_eq_ok, ok_bind]
    rename_i name kmsKeyID description secretText
    cases client.secretsCreate ⟨name, kmsKeyID, description, secretText⟩ with
    | error e => rfl
    | ok rst =>
      simp only
      cases hg : ((d.SetId (rst.ID ++ "/" ++ name)).GetOk "tags").2 with
      | false => simp
      | true =>
        simp only [if_true]
        cases hv : ((d.SetId (rst.ID ++ "/" ++ name)).GetOk "tags").1 <;>
          simp only [Value.assertMap, throw_eq_error, error_bind, pure_eq_ok, ok_bind]
        split <;> rfl

/-! ## Update of a CSMS secret -/

theorem dispatchCalls_prefix (outcome : CsmsCall → Option GoError) (d : ResourceData)
    (conclusion : Go (ResourceData × Diagnostics)) (calls : List CsmsCall) :
    (dispatchCalls outcome d conclusion calls).1 <+: calls := by
  induction calls with
  | nil => exact List.prefix_refl []
  | cons c cs ih =>
    unfold dispatchCalls
    cases outcome c with
    | some err => exact ⟨cs, rfl⟩
    | none => exact (List.prefix_cons_inj c).2 ih

theorem dispatchCalls_all_succeed (outcome : CsmsCall → Option GoError) (d : ResourceData)
    (conclusion : Go (ResourceData × Diagnostics)) (calls : List CsmsCall)
    (h : ∀ c ∈ calls, outcome c = none) :
    dispatchCalls outcome d conclusion calls = (calls, conclusion) := by
  induction calls with
  | nil => rfl
  | cons c cs ih =>
    have hc : outcome c = none := h c (by simp)
    have hcs : ∀ x ∈ cs, outcome x = none := fun x hx => h x (by simp [hx])
    unfold dispatchCalls
    rw [hc, ih hcs]

theorem dispatchCalls_first_failure (outcome : CsmsCall → Option GoError) (d : ResourceData)
    (conclusion : Go (ResourceData × Diagnostics)) (pre post : List CsmsCall) (c : CsmsCall)
    (err : GoError) (hpre : ∀ x ∈ pre, outcome x = none) (hc : outcome c = some err) :
    dispatchCalls outcome d conclusion (pre ++ c :: post) =
      (pre ++ [c], .ok (d, diagErrorf (csmsUpdateFailureSummary c) [err])) := by
  induction pre with
  | nil =>
    show dispatchCalls outcome d conclusion (c :: post) = _
    unfold dispatchCalls
    rw [hc]
    rfl
  | cons x xs ih =>
    have hx : outcome x = none := hpre x (by simp)
    have hxs : ∀ y ∈ xs, outcome y = none := fun y hy => hpre y (by simp [hy])
    show dispatchCalls outcome d conclusion (x :: (xs ++ c :: post)) = _
    unfold dispatchCalls
    rw [hx, ih hxs]
    rfl

theorem csms_update_eq_dispatch (env : CsmsEnv) (d : ResourceData) (client : KmsClient)
    (description kmsKeyID secretText : String)
    (hclient : env.KmsV1Client (env.GetRegion d) = .ok client)
    (hdesc : d.Get "description" = .str description)
    (hkms : d.Get "kms_key_id" = .str kmsKeyID)
    (htext : d.Get "secret_text" = .str secretText) :
    resourceCsmsSecretUpdate env d =
      dispatchCalls (csmsCallOutcome env client d) d (resourceCsmsSecretRead env d)
        (csmsIntendedCalls d description kmsKeyID secretText) := by
  have hb : d.HasChanges ["kms_key_id", "description"] =
      (d.HasChange "kms_key_id" || d.HasChange "description") := by
    simp [ResourceData.HasChanges]
  have ht : d.HasChanges ["secret_text"] = d.HasChange "secret_text" := by
    simp [ResourceData.HasChanges]
  unfold resourceCsmsSecretUpdate csmsUpdateSecretText csmsUpdateTags csmsIntendedCalls
  rw [hclient, hb, ht]
  simp only [hdesc, hkms, htext]
  cases (d.HasChange "kms_key_id" || d.HasChange "description") <;>
    cases d.HasChange "secret_text" <;>
    cases d.HasChange "tags" <;>
    cases h1 : client.secretsUpdate (parseID d.Id).2 ⟨kmsKeyID, description⟩ <;>
    cases h2 : client.CreateSecretVersion (parseID d.Id).2 secretText <;>
    cases h3 : env.UpdateResourceTags client d serviceType (parseID d.Id).1 <;>
    simp [dispatchCalls, csmsCallOutcome, csmsUpdateFailureSummary, h1, h2, h3, pure_eq_ok]

/-- C11: the remote mutation calls of `resourceCsmsSecretUpdate` are a prefix of
the ordered list of one base-info update (if `kms_key_id` or `description`
changed), one new version (if `secret_text` changed) and one tag update (if
`tags` changed).  When every call of the list succeeds the whole list is issued
and Update returns the result of the Read.  When a call of the list fails after
the calls before it succeeded, it is the last call issued, and Update returns an
error diagnostic around its error, the resource data being as it was. -/
theorem csms_update_dispatch (env : CsmsEnv) (d : ResourceData) (client : KmsClient)
    (description kmsKeyID secretText : String)
    (hclient : env.KmsV1Client (env.GetRegion d) = .ok client)
    (hdesc : d.Get "description" = .str description)
    (hkms : d.Get "kms_key_id" = .str kmsKeyID)
    (htext : d.Get "secret_text" = .str secretText) :
    (resourceCsmsSecretUpdate env d).1 <+: csmsIntendedCalls d description kmsKeyID secretText ∧
      ((∀ c ∈ csmsIntendedCalls d description kmsKeyID secretText,
          csmsCallOutcome env client d c = none) →
        (resourceCsmsSecretUpdate env d).1 = csmsIntendedCalls d description kmsKeyID secretText ∧
          (resourceCsmsSecretUpdate env d).2 = resourceCsmsSecretRead env d) ∧
      (∀ (pre post : List CsmsCall) (c : CsmsCall) (err : GoError),
        csmsIntendedCalls d description kmsKeyID secretText = pre ++ c :: post →
        (∀ x ∈ pre, csmsCallOutcome env client d x = none) →
        csmsCallOutcome env client d c = some err →
        (resourceCsmsSecretUpdate env d).1 = pre ++ [c] ∧
          (resourceCsmsSecretUpdate env d).2 =
            .ok (d, diagErrorf (csmsUpdateFailureSummary c) [err]) ∧
          (diagErrorf (csmsUpdateFailureSummary c) [err]).HasError = true) := by
  have heq := csms_update_eq_dispatch env d client description kmsKeyID secretText hclient hdesc
    hkms htext
  refine ⟨?_, ?_, ?_⟩
  · rw [heq]
    exact dispatchCalls_prefix _ _ _ _
  · intro hall
    rw [heq, dispatchCalls_all_succeed _ _ _ _ hall]
    exact ⟨rfl, rfl⟩
  · intro pre post c err hsplit hpre hc
    rw [heq, hsplit, dispatchCalls_first_failure _ _ _ pre post c err hpre hc]
    exact ⟨rfl, rfl, rfl⟩

/-- Witness of C11: description, secret text and tags changed, and the call that
creates the new version fails. -/
theorem csms_update_dispatch_witness :
    (resourceCsmsSecretUpdate
        (csmsUpdateEnv (kmsUpdateClient none (some (.other "version quota exceeded"))) none)
        (secretUpdate ["description", "secret_text", "tags"])).1 =
        [.secretsUpdate "secret-a" ⟨"", ""⟩] ++ [.CreateSecretVersion "secret-a" ""] ∧
      (resourceCsmsSecretUpdate
        (csmsUpdateEnv (kmsUpdateClient none (some (.other "version quota exceeded"))) none)
        (secretUpdate ["description", "secret_text", "tags"])).2 =
        .ok (secretUpdate ["description", "secret_text", "tags"],
          diagErrorf (csmsUpdateFailureSummary (.CreateSecretVersion "secret-a" ""))
            [.other "version quota exceeded"]) ∧
      (diagErrorf (csmsUpdateFailureSummary (.CreateSecretVersion "secret-a" ""))
        [.other "version quota exceeded"]).HasError = true :=
  (csms_update_dispatch
    (csmsUpdateEnv (kmsUpdateClient none (some (.other "version quota exceeded"))) none)
    (secretUpdate ["description", "secret_text", "tags"])
    (kmsUpdateClient none (some (.other "version quota exceeded"))) "" "" ""
    rfl rfl rfl rfl).2.2 [.secretsUpdate "secret-a" ⟨"", ""⟩]
    [.UpdateResourceTags "csms" "sid-1"] (.CreateSecretVersion "secret-a" "")
    (.other "version quota exceeded") rfl
    (by
      intro x hx
      rw [List.mem_singleton] at hx
      rw [hx]
      rfl)
    rfl

theorem csms_create_no_tag_call (env : CsmsEnv) (d : ResourceData)
    (htags : d.Get "tags" = .map []) :
    ∀ c ∈ (resourceCsmsSecretCreateTraced env d).1, c.isTagsCreate = false := by
  have hg : ∀ id, ((d.SetId id).GetOk "tags").2 = false := by
    intro id
    have ha : (d.SetId id).attrs "tags" = .map [] := htags
    simp [ResourceData.GetOk, ha, Value.isZero]
  unfold resourceCsmsSecretCreateTraced
  cases env.KmsV1Client (env.GetRegion d) with
  | error e => simp
  | ok client =>
    simp only
    split
    · rename_i name kmsKeyID description secretText _ _ _ _
      cases client.secretsCreate ⟨name, kmsKeyID, description, secretText⟩ with
      | error e => simp [CsmsCall.isTagsCreate]
      | ok rst => simp [hg, CsmsCall.isTagsCreate]
    · simp

/-- C15: in `resourceCcmPrivateCertificateUpdate` no removal call is issued when
the old tag map is empty and no addition call is issued when the new tag map is
empty, so that a change between two empty maps issues no call at all; in
`resourceCsmsSecretCreate` no tag-create call is issued when the configured tag
map is empty. -/
theorem empty_tag_map_issues_no_call (env : CcmEnv) (d : ResourceData)
    (oMap nMap : List (String × Value)) (cenv : CsmsEnv) (sd : ResourceData)
    (hold : (d.GetChange "tags").1 = .map oMap) (hnew : (d.GetChange "tags").2 = .map nMap)
    (htags : sd.Get "tags" = .map []) :
    (oMap = [] → ∀ c ∈ (resourceCcmPrivateCertificateUpdate env d).1, c.isDeleteTags = false) ∧
      (nMap = [] → ∀ c ∈ (resourceCcmPrivateCertificateUpdate env d).1, c.isCreateTags = false) ∧
      (oMap = [] → nMap = [] → (resourceCcmPrivateCertificateUpdate env d).1 = []) ∧
      (∀ c ∈ (resourceCsmsSecretCreateTraced cenv sd).1, c.isTagsCreate = false) ∧
      (resourceCsmsSecretCreateTraced cenv sd).2 = resourceCsmsSecretCreate cenv sd := by
  have hmem := ccm_update_calls_mem env d oMap nMap hold hnew
  refine ⟨?_, ?_, ?_, csms_create_no_tag_call cenv sd htags, csms_create_traced_result cenv sd⟩
  · intro ho c hc
    rcases hmem c hc with ⟨_, h⟩ | ⟨h, _⟩
    · exact absurd ho h
    · rw [h]
      rfl
  · intro hn c hc
    rcases hmem c hc with ⟨h, _⟩ | ⟨_, h⟩
    · rw [h]
      rfl
    · exact absurd hn h
  · intro ho hn
    cases hl : (resourceCcmPrivateCertificateUpdate env d).1 with
    | nil => rfl
    | cons c cs =>
      have hc : c ∈ (resourceCcmPrivateCertificateUpdate env d).1 := by
        rw [hl]
        simp
      rcases hmem c hc with ⟨_, h⟩ | ⟨_, h⟩
      · exact absurd ho h
      · exact absurd hn h

/-- Witness of C15: the tags of a certificate change from the empty map to
env=prod, and a secret is created without tags. -/
theorem empty_tag_map_issues_no_call_witness :
    (resourceCcmPrivateCertificateUpdate (ccmTagEnv (ccmClient ccmServer) none none)
        (certificateTagUpdate [] [("env", .str "prod")])).1 =
        [.createTags "cert-1" [("env", .str "prod")]
          "v1/private-certificates/\x7bid\x7d/tags/create"] ∧
      (∀ c ∈ (resourceCcmPrivateCertificateUpdate (ccmTagEnv (ccmClient ccmServer) none none)
        (certificateTagUpdate [] [("env", .str "prod")])).1, c.isDeleteTags = false) ∧
      (∀ c ∈ (resourceCsmsSecretCreateTraced (csmsUpdateEnv (kmsUpdateClient none none) none)
        (secretData "" "secret-a" [])).1, c.isTagsCreate = false) :=
  ⟨rfl,
    (empty_tag_map_issues_no_call (ccmTagEnv (ccmClient ccmServer) none none)
      (certificateTagUpdate [] [("env", .str "prod")]) [] [("env", .str "prod")]
      (csmsUpdateEnv (kmsUpdateClient none none) none) (secretData "" "secret-a" [])
      rfl rfl rfl).1 rfl,
    (empty_tag_map_issues_no_call (ccmTagEnv (ccmClient ccmServer) none none)
      (certificateTagUpdate [] [("env", .str "prod")]) [] [("env", .str "prod")]
      (csmsUpdateEnv (kmsUpdateClient none none) none) (secretData "" "secret-a" [])
      rfl rfl rfl).2.2.2.1⟩

/-- C16, as stated, fails for the CCM private certificate: an Update that
changes the tags and whose two tag calls succeed returns no diagnostics and the
resource data as it was, although the Read of that record, the remote answering
the GET with an error, returns an error diagnostic; the Update has not performed
the Read. -/
theorem ccm_update_performs_no_read :
    (resourceCcmPrivateCertificateUpdate
        (ccmTagEnv (ccmClient fun _ => .error (err500 none)) none none)
        (certificateTagUpdate [("env", .str "dev")] [("env", .str "prod")])).2 =
        .ok (certificateTagUpdate [("env", .str "dev")] [("env", .str "prod")], []) ∧
      (resourceCcmPrivateCertificateUpdate
        (ccmTagEnv (ccmClient fun _ => .error (err500 none)) none none)
        (certificateTagUpdate [("env", .str "dev")] [("env", .str "prod")])).1.length = 2 ∧
      returnsNoError (resourceCcmPrivateCertificateRead
        (ccmTagEnv (ccmClient fun _ => .error (err500 none)) none none)
        (certificateTagUpdate [("env", .str "dev")] [("env", .str "prod")])) = false :=
  ⟨rfl, rfl, rfl⟩

/-- C16 amended: an Update of a CSMS secret whose remote mutation calls all
succeed ends by performing the Read and returns the Read's result.  An Update of
a CCM private certificate whose tag calls succeed returns no diagnostics and
leaves the resource data as it was; it performs no Read. -/
theorem update_conclusion (cenv : CsmsEnv) (sd : ResourceData) (kms : KmsClient)
    (description kmsKeyID secretText : String)
    (env : CcmEnv) (d : ResourceData) (client : ServiceClient)
    (oMap nMap : List (String × Value))
    (hkmsclient : cenv.KmsV1Client (cenv.GetRegion sd) = .ok kms)
    (hdesc : sd.Get "description" = .str description)
    (hkms : sd.Get "kms_key_id" = .str kmsKeyID)
    (htext : sd.Get "secret_text" = .str secretText)
    (hall : ∀ c ∈ csmsIntendedCalls sd description kmsKeyID secretText,
      csmsCallOutcome cenv kms sd c = none)
    (hclient : env.NewServiceClient "ccm" (env.GetRegion d) = .ok client)
    (hold : (d.GetChange "tags").1 = .map oMap) (hnew : (d.GetChange "tags").2 = .map nMap)
    (hdel : oMap ≠ [] →
      env.deleteTags d.Id client oMap "v1/private-certificates/\x7bid\x7d/tags/delete" = none)
    (hcre : nMap ≠ [] →
      env.createTags d.Id client nMap "v1/private-certificates/\x7bid\x7d/tags/create" = none) :
    (resourceCsmsSecretUpdate cenv sd).2 = resourceCsmsSecretRead cenv sd ∧
      (resourceCcmPrivateCertificateUpdate env d).2 = .ok (d, []) ∧
      ∀ c ∈ (resourceCcmPrivateCertificateUpdate env d).1, c.isRequest = false := by
  refine ⟨?_, ?_, ?_⟩
  · rw [csms_update_eq_dispatch cenv sd kms description kmsKeyID secretText hkmsclient hdesc
      hkms htext, dispatchCalls_all_succeed _ _ _ _ hall]
  · cases hchange : d.HasChange "tags" with
    | true => exact ccm_update_result env d client oMap nMap hclient hchange hold hnew hdel hcre
    | false =>
      unfold resourceCcmPrivateCertificateUpdate
      simp [hclient, hchange, pure_eq_ok]
  · intro c hc
    rcases ccm_update_calls_mem env d oMap nMap hold hnew c hc with ⟨h, _⟩ | ⟨h, _⟩ <;>
      (rw [h]; rfl)

/-- Witness of the amended C16: a secret whose tags changed, and a certificate
whose tags changed from env=dev to env=prod. -/
theorem update_conclusion_witness :
    (resourceCsmsSecretUpdate (csmsUpdateEnv (kmsUpdateClient none none) none)
        (secretUpdate ["tags"])).2 =
        resourceCsmsSecretRead (csmsUpdateEnv (kmsUpdateClient none none) none)
          (secretUpdate ["tags"]) ∧
      (resourceCcmPrivateCertificateUpdate (ccmTagEnv (ccmClient ccmServer) none none)
        (certificateTagUpdate [("env", .str "dev")] [("env", .str "prod")])).2 =
        .ok (certificateTagUpdate [("env", .str "dev")] [("env", .str "prod")], []) ∧
      ∀ c ∈ (resourceCcmPrivateCertificateUpdate (ccmTagEnv (ccmClient ccmServer) none none)
        (certificateTagUpdate [("env", .str "dev")] [("env", .str "prod")])).1,
          c.isRequest = false :=
  update_conclusion (csmsUpdateEnv (kmsUpdateClient none none) none) (secretUpdate ["tags"])
    (kmsUpdateClient none none) "" "" ""
    (ccmTagEnv (ccmClient ccmServer) none none)
    (certificateTagUpdate [("env", .str "dev")] [("env", .str "prod")]) (ccmClient ccmServer)
    [("env", .str "dev")] [("env", .str "prod")] rfl rfl rfl rfl
    (by
      intro c hc
      have hl : csmsIntendedCalls (secretUpdate ["tags"]) "" "" "" =
          [.UpdateResourceTags "csms" "sid-1"] := rfl
      rw [hl, List.mem_singleton] at hc
      rw [hc]
      rfl)
    rfl rfl rfl (fun _ => rfl) (fun _ => rfl)

/-! ## Run-time failures of Create and Read -/

theorem ccm_create_panics_of_missing_id (env : CcmEnv) (d : ResourceData)
    (client : ServiceClient) (bodyParams : List (String × Value)) (resp : HttpResponse)
    (respBody : Value)
    (hclient : env.NewServiceClient "ccm" (env.GetRegion d) = .ok client)
    (hbuild : buildCreateCertificateBodyParams env d = .ok bodyParams)
    (hreq : client.Request "POST" (client.Endpoint ++ "v1/private-certificates")
      (some (.map (env.RemoveNil bodyParams))) = .ok resp)
    (hflat : env.FlattenResponse resp = .ok respBody)
    (hid : jmespathSearch "certificate_id" respBody = .null) :
    resourceCcmPrivateCertificateCreate env d = .error Panic.typeAssertion := by
  unfold resourceCcmPrivateCertificateCreate
  simp only [hclient, hbuild, ok_bind, hreq, hflat, hid, Value.assertString, throw_eq_error,
    error_bind]

/-- C17: at a create response body without `certificate_id`, here the object
with the single member `request_id`, the lookup of `certificate_id` yields nil
without an error, and `resourceCcmPrivateCertificateCreate` fails at run time in
the type assertion `id.(string)`; it returns no diagnostic. -/
theorem ccm_create_panics_without_id :
    jmespathSearch "certificate_id" (.map [("request_id", .str "r-1")]) = .null ∧
      resourceCcmPrivateCertificateCreate
          (ccmEnv (ccmClient ccmServerWithoutId) (.ok []) none) (certificateData "" []) =
        .error Panic.typeAssertion :=
  ⟨rfl, rfl⟩

theorem ccm_read_panics_of_default (env : CcmEnv) (d : ResourceData) (client : ServiceClient)
    (resp : HttpResponse) (body : Value) (tags : List (String × Value))
    (hclient : env.NewServiceClient "ccm" (env.GetRegion d) = .ok client)
    (hreq : client.Request "GET" (certificatePath client d) none = .ok resp)
    (hflat : env.FlattenResponse resp = .ok body)
    (htags : env.getTags d.Id client "v1/private-certificates/\x7bid\x7d/tags" = .ok tags)
    (hdefault : env.PathSearch "create_time" body (.int 0) = .int 0) :
    resourceCcmPrivateCertificateRead env d = .error Panic.typeAssertion := by
  unfold resourceCcmPrivateCertificateRead
  simp only [hclient, hreq, hflat, htags, hdefault, Value.assertFloat64, throw_eq_error,
    error_bind]

/-- C18: at a GET response body without `create_time`, `not_before` and
`not_after`, the lookup of `create_time` yields its default, the `int` 0, and
`resourceCcmPrivateCertificateRead` fails at run time in the type assertion
`.(float64)`. -/
theorem ccm_read_panics_without_times :
    PathSearch "create_time" (.map [("status", .str "ISSUED")]) (.int 0) = .int 0 ∧
      resourceCcmPrivateCertificateRead
          (ccmEnv (ccmClient ccmServerWithoutTimes) (.ok []) none) (certificateData "cert-1" []) =
        .error Panic.typeAssertion :=
  ⟨rfl, rfl⟩

theorem csms_read_panics_of_version_error (env : CsmsEnv) (d : ResourceData)
    (client : KmsClient) (secret : Secret) (err : GoError)
    (hclient : env.KmsV1Client (env.GetRegion d) = .ok client)
    (hget : client.secretsGet (parseID d.Id).2 = .ok secret)
    (hver : queryLatestVersion env (env.GetRegion d) (parseID d.Id).2 = .ok (.error err)) :
    resourceCsmsSecretRead env d = .error Panic.nilDereference := by
  unfold resourceCsmsSecretRead
  simp only [hclient, hget, hver, ok_bind, throw_eq_error]

/-- C19: when the version list query fails, and likewise when the query of the
latest version fails, `queryLatestVersion` returns an error and a nil version,
and `resourceCsmsSecretRead` fails at run time in `version.SecretString`; it
returns no diagnostic. -/
theorem csms_read_panics_on_version_error :
    queryLatestVersion
          (csmsEnv (kmsClient (.ok exampleSecret) none (.error (.other "versions unavailable"))
            (.ok exampleVersion) none (.ok [])))
          "region-1" "secret-a" =
        .ok (.error (.wrap "failed to query the list of secret versions: %s"
          (.other "versions unavailable"))) ∧
      resourceCsmsSecretRead
          (csmsEnv (kmsClient (.ok exampleSecret) none (.error (.other "versions unavailable"))
            (.ok exampleVersion) none (.ok [])))
          (secretData "sid-1/secret-a" "secret-a" []) = .error Panic.nilDereference ∧
      resourceCsmsSecretRead
          (csmsEnv (kmsClient (.ok exampleSecret) none (.ok [⟨"v1", 1700000000123⟩])
            (.error (.other "version unavailable")) none (.ok [])))
          (secretData "sid-1/secret-a" "secret-a" []) = .error Panic.nilDereference :=
  ⟨rfl, rfl, rfl⟩

/-! ## The create payload of a CCM private certificate -/

theorem lookup_RemoveNil_cons_ne (k key : String) (v : Value) (rest : List (String × Value))
    (h : k ≠ key) : (RemoveNil ((key, v) :: rest)).lookup k = (RemoveNil rest).lookup k := by
  have hb : (k == key) = false := by simpa using h
  cases v <;> simp [RemoveNil, removeNilEntry, List.lookup, hb]

theorem lookup_RemoveNil_cons_null (k key : String) (rest : List (String × Value)) :
    (RemoveNil ((key, .null) :: rest)).lookup k = (RemoveNil rest).lookup k := by
  simp [RemoveNil, removeNilEntry]

theorem lookup_RemoveNil_cons_map (k : String) (m rest : List (String × Value)) :
    (RemoveNil ((k, .map m) :: rest)).lookup k = some (.map (RemoveNil m)) := by
  simp [RemoveNil, removeNilEntry, removeNilValue, List.lookup]

/-- C20, as stated, fails: for a desired state in which only the required
attributes are configured, every optional string being empty, the create payload
`utils.RemoveNil(buildCreateCertificateBodyParams(d, cfg))` keeps the keys
`country`, `state`, `locality`, `organization` and `organizational_unit` of the
distinguished name and the keys `object_identifier` and `value` of the
customized extension, each with the empty string; only `start_from` and
`enterprise_project_id` are left out. -/
theorem create_payload_keeps_empty_strings :
    Except.map RemoveNil
        (buildCreateCertificateBodyParams (ccmEnv (ccmClient ccmServer) (.ok []) none)
          certificateDataUnset) =
      .ok [("issuer_id", .str "x"), ("key_algorithm", .str "x"),
        ("signature_algorithm", .str "x"),
        ("distinguished_name", .map [("common_name", .str "cert-a"), ("country", .str ""),
          ("state", .str ""), ("locality", .str ""), ("organization", .str ""),
          ("organizational_unit", .str "")]),
        ("validity", .map [("type", .str "YEAR"), ("value", .int 1)]),
        ("key_usage", .list []),
        ("extended_key_usage", .map [("server_auth", .bool false), ("client_auth", .bool false),
          ("code_signing", .bool false), ("email_protection", .bool false),
          ("time_stamping", .bool false)]),
        ("customized_extension", .map [("object_identifier", .str ""), ("value", .str "")]),
        ("subject_alternative_names", .list [])] :=
  rfl

/-- C20 amended: with `utils.ValueIngoreEmpty` and `utils.RemoveNil` as modelled
from the spec, for every desired state whose `validity` block has `start_at`
unset or empty the create payload has a `validity` object without the key
`start_from`, and when `cfg.GetEnterpriseProjectID(d)` is empty the payload has
no key `enterprise_project_id`. -/
theorem create_payload_omits_ignored_fields (env : CcmEnv) (d : ResourceData)
    (dn raw : List (String × Value)) (dnRest vRest sans : List Value)
    (hve : env.ValueIngoreEmpty = ValueIngoreEmpty) (hrm : env.RemoveNil = RemoveNil)
    (hdn : d.Get "distinguished_name" = .list (.map dn :: dnRest))
    (hval : d.Get "validity" = .list (.map raw :: vRest))
    (hsan : env.PathSearchData "subject_alternative_names" d (.list []) = .list sans)
    (hstart : mapIndex raw "start_at" = .str "" ∨ mapIndex raw "start_at" = .null) :
    ∃ params validity : List (String × Value),
      buildCreateCertificateBodyParams env d = .ok params ∧
      (env.RemoveNil params).lookup "validity" = some (.map validity) ∧
      validity.lookup "start_from" = none ∧
      (env.GetEnterpriseProjectID d = "" →
        (env.RemoveNil params).lookup "enterprise_project_id" = none) := by
  have hnull : env.ValueIngoreEmpty (mapIndex raw "start_at") = .null := by
    rw [hve]
    rcases hstart with h | h <;> (rw [h]; rfl)
  have hbuild : buildCreateCertificateBodyParams env d = .ok
      [("issuer_id", d.Get "issuer_id"),
        ("key_algorithm", d.Get "key_algorithm"),
        ("signature_algorithm", d.Get "signature_algorithm"),
        ("distinguished_name", .map [("common_name", mapIndex dn "common_name"),
          ("country", mapIndex dn "country"),
          ("state", mapIndex dn "state"),
          ("locality", mapIndex dn "locality"),
          ("organization", mapIndex dn "organization"),
          ("organizational_unit", mapIndex dn "organizational_unit")]),
        ("validity", .map [("type", mapIndex raw "type"), ("value", mapIndex raw "value"),
          ("start_from", .null)]),
        ("enterprise_project_id", env.ValueIngoreEmpty (.str (env.GetEnterpriseProjectID d))),
        ("key_usage", d.Get "key_usage"),
        ("extended_key_usage", .map (buildExtendedKeyUsage d)),
        ("customized_extension", .map (buildCustomizedExtension d)),
        ("subject_alternative_names", .list (sans.map fun v =>
          Value.map [("type", env.PathSearch "type" v .null),
            ("value", env.PathSearch "value" v .null)]))] := by
    unfold buildCreateCertificateBodyParams buildCertDistinguishedName buildValidity
      buidSubjectAlternativeName
    simp only [hdn, hval, hsan, hnull, Value.assertMap, Value.assertList, pure_eq_ok, ok_bind]
  refine ⟨_, RemoveNil [("type", mapIndex raw "type"), ("value", mapIndex raw "value"),
    ("start_from", .null)], hbuild, ?_, ?_, ?_⟩
  · rw [hrm]
    rw [lookup_RemoveNil_cons_ne _ _ _ _ (by decide), lookup_RemoveNil_cons_ne _ _ _ _ (by decide),
      lookup_RemoveNil_cons_ne _ _ _ _ (by decide), lookup_RemoveNil_cons_ne _ _ _ _ (by decide),
      lookup_RemoveNil_cons_map]
  · rw [lookup_RemoveNil_cons_ne _ _ _ _ (by decide), lookup_RemoveNil_cons_ne _ _ _ _ (by decide),
      lookup_RemoveNil_cons_null]
    rfl
  · intro heps
    have hepsnull : env.ValueIngoreEmpty (.str (env.GetEnterpriseProjectID d)) = .null := by
      rw [hve, heps]
      rfl
    rw [hrm, hepsnull]
    rw [lookup_RemoveNil_cons_ne _ _ _ _ (by decide), lookup_RemoveNil_cons_ne _ _ _ _ (by decide),
      lookup_RemoveNil_cons_ne _ _ _ _ (by decide), lookup_RemoveNil_cons_ne _ _ _ _ (by decide),
      lookup_RemoveNil_cons_ne _ _ _ _ (by decide), lookup_RemoveNil_cons_null,
      lookup_RemoveNil_cons_ne _ _ _ _ (by decide), lookup_RemoveNil_cons_ne _ _ _ _ (by decide),
      lookup_RemoveNil_cons_ne _ _ _ _ (by decide), lookup_RemoveNil_cons_ne _ _ _ _ (by decide)]
    rfl

/-- Witness of the amended C20: only the required attributes are configured. -/
theorem create_payload_omits_ignored_fields_witness :
    ∃ params validity : List (String × Value),
      buildCreateCertificateBodyParams (ccmEnv (ccmClient ccmServer) (.ok []) none)
        certificateDataUnset = .ok params ∧
      (RemoveNil params).lookup "validity" = some (.map validity) ∧
      validity.lookup "start_from" = none ∧
      ((ccmEnv (ccmClient ccmServer) (.ok []) none).GetEnterpriseProjectID certificateDataUnset =
          "" →
        (RemoveNil params).lookup "enterprise_project_id" = none) :=
  create_payload_omits_ignored_fields (ccmEnv (ccmClient ccmServer) (.ok []) none)
    certificateDataUnset
    [("common_name", .str "cert-a"), ("country", .str ""), ("state", .str ""),
      ("locality", .str ""), ("organization", .str ""), ("organizational_unit", .str "")]
    [("type", .str "YEAR"), ("value", .int 1), ("start_at", .str "")] [] [] []
    rfl rfl rfl rfl rfl (Or.inl rfl)

/-! ## The latest version of a CSMS secret -/

/-- The first element of any arrangement of the versions that is sorted by
`CreateTime` downwards is a version of the list with the greatest `CreateTime`;
this holds for every order `sort.Slice` may leave among equal elements. -/
theorem newest_of_sorted_perm (versions sorted : List VersionMetadata)
    (first : VersionMetadata) (rest : List VersionMetadata)
    (hperm : sorted.Perm versions)
    (hsorted : sorted.Sorted fun a b => a.CreateTime ≥ b.CreateTime)
    (hfirst : sorted = first :: rest) :
    first ∈ versions ∧ ∀ w ∈ versions, w.CreateTime ≤ first.CreateTime := by
  subst hfirst
  refine ⟨hperm.subset (by simp), ?_⟩
  intro w hw
  have hw2 : w ∈ first :: rest := hperm.symm.subset hw
  rcases List.mem_cons.1 hw2 with h | h
  · rw [h]
  · exact List.rel_of_sorted_cons hsorted w h

theorem sortVersions_sorted (versions : List VersionMetadata) :
    (sortVersions versions).Sorted fun a b => a.CreateTime ≥ b.CreateTime := by
  haveI : IsTotal VersionMetadata (fun a b => a.CreateTime ≥ b.CreateTime) :=
    ⟨fun a b => le_total b.CreateTime a.CreateTime⟩
  haveI : IsTrans VersionMetadata (fun a b => a.CreateTime ≥ b.CreateTime) :=
    ⟨fun a b c hab hbc => le_trans hbc hab⟩
  exact List.sorted_insertionSort _ versions

theorem sortVersions_perm (versions : List VersionMetadata) :
    (sortVersions versions).Perm versions :=
  List.perm_insertionSort _ versions

/-- C22: for every non-empty list of versions returned by the version-list call,
`queryLatestVersion` returns what `queryVersion` returns for the id of a version
of that list whose `CreateTime` is greater than or equal to the `CreateTime` of
every version of the list. -/
theorem queryLatestVersion_selects_newest (env : CsmsEnv) (region name : String)
    (client : KmsClient) (versions : List VersionMetadata)
    (hclient : env.KmsV1Client region = .ok client)
    (hlist : client.ListSecretVersions name = .ok versions)
    (hne : versions ≠ []) :
    ∃ v ∈ versions, (∀ w ∈ versions, w.CreateTime ≤ v.CreateTime) ∧
      queryLatestVersion env region name = .ok (queryVersion env region name v.ID) := by
  cases hs : sortVersions versions with
  | nil =>
    have hp := sortVersions_perm versions
    rw [hs] at hp
    exact absurd hp.symm.eq_nil hne
  | cons first rest =>
    obtain ⟨hmem, hmax⟩ := newest_of_sorted_perm versions (sortVersions versions) first rest
      (sortVersions_perm versions) (sortVersions_sorted versions) hs
    refine ⟨first, hmem, hmax, ?_⟩
    unfold queryLatestVersion
    simp only [hclient, hlist, hs, pure_eq_ok]

/-- Witness of C22: of the versions v1, v2, v3 the newest, v2, is queried. -/
theorem queryLatestVersion_selects_newest_witness :
    (∃ v ∈ exampleVersions, (∀ w ∈ exampleVersions, w.CreateTime ≤ v.CreateTime) ∧
        queryLatestVersion
            (csmsEnv (kmsClient (.ok exampleSecret) none (.ok exampleVersions)
              (.ok exampleVersion) none (.ok [])))
            "region-1" "secret-a" =
          .ok (queryVersion
            (csmsEnv (kmsClient (.ok exampleSecret) none (.ok exampleVersions)
              (.ok exampleVersion) none (.ok [])))
            "region-1" "secret-a" v.ID)) ∧
      queryLatestVersion
          (csmsEnv (kmsClient (.ok exampleSecret) none (.ok exampleVersions)
            (.ok exampleVersion) none (.ok [])))
          "region-1" "secret-a" =
        .ok (queryVersion
          (csmsEnv (kmsClient (.ok exampleSecret) none (.ok exampleVersions)
            (.ok exampleVersion) none (.ok [])))
          "region-1" "secret-a" "v2") :=
  ⟨queryLatestVersion_selects_newest
      (csmsEnv (kmsClient (.ok exampleSecret) none (.ok exampleVersions)
        (.ok exampleVersion) none (.ok [])))
      "region-1" "secret-a"
      (kmsClient (.ok exampleSecret) none (.ok exampleVersions) (.ok exampleVersion) none (.ok []))
      exampleVersions rfl rfl (by simp [exampleVersions]),
    rfl⟩

/-! ## The composite id of a CSMS secret -/

theorem csms_create_eq_read (env : CsmsEnv) (d : ResourceData) (client : KmsClient)
    (name kmsKeyID description secretText : String) (rst : Secret)
    (tMaps : List (String × Value))
    (hclient : env.KmsV1Client (env.GetRegion d) = .ok client)
    (hname : d.Get "name" = .str name)
    (hkms : d.Get "kms_key_id" = .str kmsKeyID)
    (hdesc : d.Get "description" = .str description)
    (htext : d.Get "secret_text" = .str secretText)
    (hcreate : client.secretsCreate ⟨name, kmsKeyID, description, secretText⟩ = .ok rst)
    (htags : d.Get "tags" = .map tMaps) :
    resourceCsmsSecretCreate env d =
      resourceCsmsSecretRead env (d.SetId (rst.ID ++ "/" ++ name)) := by
  have hget : (d.SetId (rst.ID ++ "/" ++ name)).attrs "tags" = .map tMaps := htags
  unfold resourceCsmsSecretCreate
  simp only [hclient, hname, hkms, hdesc, htext, Value.assertString, pure_eq_ok, ok_bind,
    hcreate, ResourceData.GetOk, hget, Value.assertMap]
  split
  · cases client.tagsCreate serviceType rst.ID (env.ExpandResourceTags tMaps) <;> rfl
  · rfl

theorem handle_ne_empty (r n : String) : r ++ "/" ++ n ≠ "" := by
  intro h
  have hd : (r ++ "/" ++ n).data = "".data := by rw [h]
  simp at hd

/-- C23, as stated, fails for the empty remote id: when the create call returns
a secret whose id is empty, `resourceCsmsSecretCreate` stores the handle
"/secret-a", `parseID` splits it into the empty id and the name, and
`resourceCsmsSecretImport` of that handle fails with the invalid-format error;
Import does not recover the id and the name. -/
theorem import_rejects_handle_of_empty_id :
    returnedId (resourceCsmsSecretCreate
        (csmsEnv (kmsClient (.ok secretWithoutId) none (.ok exampleVersions)
          (.ok exampleVersion) none (.ok [])))
        (secretData "" "secret-a" [])) = some "/secret-a" ∧
      parseID "/secret-a" = ("", "secret-a") ∧
      resourceCsmsSecretImport (secretData "/secret-a" "" []) =
        (secretData "/secret-a" "" [], .error invalidImportFormat) :=
  ⟨rfl, by decide, rfl⟩

/-- C23 amended: for every remote id and secret name without "/", the handle
that `resourceCsmsSecretCreate` stores, the id, "/" and the name, is non-empty and
`parseID` splits it into that id and that name.  Read and Update, which call
`parseID` on the stored id, therefore query the secret by that name, address the
base-info, version and tag calls with that name and that id; Import recovers
them when the remote id is non-empty, writing them to `secret_id` and `name`. -/
theorem composite_handle_round_trip (env : CsmsEnv) (d : ResourceData) (client : KmsClient)
    (name kmsKeyID description secretText : String) (rst : Secret)
    (tMaps : List (String × Value))
    (hclient : env.KmsV1Client (env.GetRegion d) = .ok client)
    (hname : d.Get "name" = .str name)
    (hkms : d.Get "kms_key_id" = .str kmsKeyID)
    (hdesc : d.Get "description" = .str description)
    (htext : d.Get "secret_text" = .str secretText)
    (hcreate : client.secretsCreate ⟨name, kmsKeyID, description, secretText⟩ = .ok rst)
    (htags : d.Get "tags" = .map tMaps)
    (hr : '/' ∉ rst.ID.data) (hn : '/' ∉ name.data) :
    resourceCsmsSecretCreate env d =
        resourceCsmsSecretRead env (d.SetId (rst.ID ++ "/" ++ name)) ∧
      (d.SetId (rst.ID ++ "/" ++ name)).Id = rst.ID ++ "/" ++ name ∧
      rst.ID ++ "/" ++ name ≠ "" ∧
      parseID (rst.ID ++ "/" ++ name) = (rst.ID, name) ∧
      ∀ r : ResourceData, r.Id = rst.ID ++ "/" ++ name →
        parseID r.Id = (rst.ID, name) ∧
        (∀ (env1 : CsmsEnv) (client1 : KmsClient) (err : GoError),
          env1.KmsV1Client (env1.GetRegion r) = .ok client1 →
          client1.secretsGet name = .error err →
          resourceCsmsSecretRead env1 r =
            .ok (env1.CheckDeletedDiag r err "failed to query CSMS secret details")) ∧
        (∀ description1 kmsKeyID1 secretText1 : String,
          csmsIntendedCalls r description1 kmsKeyID1 secretText1 =
            (if r.HasChange "kms_key_id" || r.HasChange "description" then
                [CsmsCall.secretsUpdate name ⟨kmsKeyID1, description1⟩]
              else []) ++
            (if r.HasChange "secret_text" then [CsmsCall.CreateSecretVersion name secretText1]
              else []) ++
            (if r.HasChange "tags" then [CsmsCall.UpdateResourceTags serviceType rst.ID]
              else [])) ∧
        (rst.ID ≠ "" →
          resourceCsmsSecretImport r =
            (((r.Set "secret_id" (.str rst.ID)).1.Set "name" (.str name)).1,
              .ok [((r.Set "secret_id" (.str rst.ID)).1.Set "name" (.str name)).1])) := by
  have hparse := parseID_slash rst.ID name hr hn
  refine ⟨csms_create_eq_read env d client name kmsKeyID description secretText rst tMaps hclient
    hname hkms hdesc htext hcreate htags, rfl, handle_ne_empty rst.ID name, hparse, ?_⟩
  intro r hid
  have hp : parseID r.Id = (rst.ID, name) := by rw [hid, hparse]
  refine ⟨hp, ?_, ?_, ?_⟩
  · intro env1 client1 err hc hget
    unfold resourceCsmsSecretRead
    simp only [hc, hp, hget, pure_eq_ok]
  · intro description1 kmsKeyID1 secretText1
    unfold csmsIntendedCalls
    rw [hp]
  · intro hne
    unfold resourceCsmsSecretImport
    rw [hp]
    simp [hne]

/-- Witness of the amended C23: the handle "sid-1/secret-a". -/
theorem composite_handle_round_trip_witness :
    ("sid-1" ++ "/" ++ "secret-a" ≠ "") ∧
      parseID ("sid-1" ++ "/" ++ "secret-a") = ("sid-1", "secret-a") ∧
      resourceCsmsSecretCreate
          (csmsEnv (kmsClient (.ok exampleSecret) none (.ok exampleVersions)
            (.ok exampleVersion) none (.ok [])))
          (secretData "" "secret-a" []) =
        resourceCsmsSecretRead
          (csmsEnv (kmsClient (.ok exampleSecret) none (.ok exampleVersions)
            (.ok exampleVersion) none (.ok [])))
          ((secretData "" "secret-a" []).SetId ("sid-1" ++ "/" ++ "secret-a")) :=
  ⟨(composite_handle_round_trip
      (csmsEnv (kmsClient (.ok exampleSecret) none (.ok exampleVersions)
        (.ok exampleVersion) none (.ok [])))
      (secretData "" "secret-a" [])
      (kmsClient (.ok exampleSecret) none (.ok exampleVersions) (.ok exampleVersion) none (.ok []))
      "secret-a" "" "" "" exampleSecret [] rfl rfl rfl rfl rfl rfl rfl (by decide)
      (by decide)).2.2.1,
    (composite_handle_round_trip
      (csmsEnv (kmsClient (.ok exampleSecret) none (.ok exampleVersions)
        (.ok exampleVersion) none (.ok [])))
      (secretData "" "secret-a" [])
      (kmsClient (.ok exampleSecret) none (.ok exampleVersions) (.ok exampleVersion) none (.ok []))
      "secret-a" "" "" "" exampleSecret [] rfl rfl rfl rfl rfl rfl rfl (by decide)
      (by decide)).2.2.2.1,
    (composite_handle_round_trip
      (csmsEnv (kmsClient (.ok exampleSecret) none (.ok exampleVersions)
        (.ok exampleVersion) none (.ok [])))
      (secretData "" "secret-a" [])
      (kmsClient (.ok exampleSecret) none (.ok exampleVersions) (.ok exampleVersion) none (.ok []))
      "secret-a" "" "" "" exampleSecret [] rfl rfl rfl rfl rfl rfl rfl (by decide)
      (by decide)).1⟩

/-! ## Timestamps -/

theorem set_writer (d : ResourceData) (key : String) (v : Value) :
    (d.Set key v).1.writer = d.writer := by
  unfold ResourceData.Set
  cases d.writer key v <;> rfl

theorem set_attrs_of_ok (d : ResourceData) (key : String) (v w : Value)
    (h : d.writer key v = .ok w) : (d.Set key v).1.attrs key = w := by
  unfold ResourceData.Set
  rw [h]
  simp

theorem setAll_attrs_of_written (pre post : List (String × Value)) (d : ResourceData)
    (key : String) (v w : Value) (hw : d.writer key v = .ok w)
    (hpost : ∀ p ∈ post, key ≠ p.1) :
    (setAll d (pre ++ (key, v) :: post)).1.attrs key = w := by
  induction pre generalizing d with
  | nil =>
    show (setAll (d.Set key v).1 post).1.attrs key = w
    rw [setAll_attrs_of_not_mem post _ key hpost, set_attrs_of_ok d key v w hw]
  | cons p rest ih =>
    obtain ⟨k, u⟩ := p
    show (setAll (d.Set k u).1 (rest ++ (key, v) :: post)).1.attrs key = w
    exact ih (d.Set k u).1 (by rw [set_writer]; exact hw)

theorem setAll_attrs_of_split (fields pre post : List (String × Value)) (d : ResourceData)
    (key : String) (v w : Value) (hf : fields = pre ++ (key, v) :: post)
    (hw : d.writer key v = .ok w) (hpost : ∀ p ∈ post, key ≠ p.1) :
    (setAll d fields).1.attrs key = w := by
  subst hf
  exact setAll_attrs_of_written pre post d key v w hw hpost

/-- The expression `int64(x)/1000` on a `float64` from 0 to below 2^63 is the
floor of `x / 1000`. -/
theorem int64OfFloat64_div_1000 (x : Rat) (hx : 0 ≤ x) (hlt : x < 9223372036854775808) :
    Int.tdiv (int64OfFloat64 x) 1000 = ⌊x / 1000⌋ := by
  have hnum : 0 ≤ x.num := Rat.num_nonneg.mpr hx
  have hfloor : Int.tdiv x.num x.den = ⌊x⌋ := by
    rw [Int.tdiv_eq_ediv hnum (Int.ofNat_nonneg _), ← Rat.floor_def]
  have hf : 0 ≤ ⌊x⌋ := Int.floor_nonneg.mpr hx
  have hup : ⌊x⌋ < 9223372036854775808 := Int.floor_lt.mpr (by exact_mod_cast hlt)
  unfold int64OfFloat64
  rw [hfloor, if_pos ⟨by omega, by omega⟩, Int.tdiv_eq_ediv hf (by decide)]
  symm
  rw [Int.floor_eq_iff]
  have h1 := Int.floor_le x
  have h2 := Int.lt_floor_add_one x
  generalize ⌊x⌋ = f at h1 h2 hf
  have h3 : (f / 1000) * 1000 ≤ f := by omega
  have h4 : f + 1 ≤ (f / 1000) * 1000 + 1000 := by omega
  have h5 : ((f / 1000 : Int) : Rat) * 1000 ≤ (f : Rat) := by exact_mod_cast h3
  have h6 : (f : Rat) + 1 ≤ ((f / 1000 : Int) : Rat) * 1000 + 1000 := by exact_mod_cast h4
  constructor
  · rw [le_div_iff₀ (by norm_num)]
    linarith
  · rw [div_lt_iff₀ (by norm_num)]
    linarith

theorem csms_read_create_time (env : CsmsEnv) (d : ResourceData) (client : KmsClient)
    (secret : Secret) (version : Version)
    (hclient : env.KmsV1Client (env.GetRegion d) = .ok client)
    (hget : client.secretsGet (parseID d.Id).2 = .ok secret)
    (hver : queryLatestVersion env (env.GetRegion d) (parseID d.Id).2 = .ok (.ok version))
    (hw : ∀ s, d.writer "create_time" (.str s) = .ok (.str s)) :
    ∃ r, resourceCsmsSecretRead env d = .ok r ∧
      r.1.attrs "create_time" = .str (formatUnixUTC (Int.tdiv secret.CreateTime 1000)) := by
  have hr1 : (setAll d (csmsReadFields (env.GetRegion d) secret)).1.attrs "create_time" =
      .str (formatUnixUTC (Int.tdiv secret.CreateTime 1000)) :=
    setAll_attrs_of_split (csmsReadFields (env.GetRegion d) secret)
      [("region", .str (env.GetRegion d)), ("secret_id", .str secret.ID),
        ("name", .str secret.Name), ("kms_key_id", .str secret.KmsKeyID),
        ("description", .str secret.Description), ("status", .str secret.State)]
      [] d "create_time" _ _ rfl (hw _) (by simp)
  have hr2 : (setAll (setAll d (csmsReadFields (env.GetRegion d) secret)).1
      (csmsVersionFields env version)).1.attrs "create_time" =
      .str (formatUnixUTC (Int.tdiv secret.CreateTime 1000)) := by
    rw [setAll_attrs_of_not_mem, hr1]
    intro p hp
    simp only [csmsVersionFields, List.mem_cons, List.mem_singleton, List.not_mem_nil,
      or_false] at hp
    rcases hp with h | h <;> (rw [h]; simp)
  unfold resourceCsmsSecretRead
  simp only [hclient, hget, hver, ok_bind]
  cases client.tagsGet serviceType (parseID d.Id).1 with
  | ok resourceTags =>
    refine ⟨_, rfl, ?_⟩
    rw [set_attrs_of_ne _ _ _ _ (by decide)]
    exact hr2
  | error e => exact ⟨_, rfl, hr2⟩

theorem ccm_read_times (env : CcmEnv) (d : ResourceData) (client : ServiceClient)
    (resp : HttpResponse) (body : Value) (tags : List (String × Value))
    (created started expired : Rat)
    (hclient : env.NewServiceClient "ccm" (env.GetRegion d) = .ok client)
    (hreq : client.Request "GET" (certificatePath client d) none = .ok resp)
    (hflat : env.FlattenResponse resp = .ok body)
    (htags : env.getTags d.Id client "v1/private-certificates/\x7bid\x7d/tags" = .ok tags)
    (hcreated : env.PathSearch "create_time" body (.int 0) = .float64 created)
    (hstarted : env.PathSearch "not_before" body (.int 0) = .float64 started)
    (hexpired : env.PathSearch "not_after" body (.int 0) = .float64 expired)
    (hw : ∀ key ∈ ["start_at", "expired_at", "created_at"], ∀ s,
      d.writer key (.str s) = .ok (.str s)) :
    ∃ r, resourceCcmPrivateCertificateRead env d = .ok r ∧
      r.1.attrs "created_at" =
        .str (env.FormatTimeStampRFC3339 (Int.tdiv (int64OfFloat64 created) 1000) false) ∧
      r.1.attrs "start_at" =
        .str (env.FormatTimeStampRFC3339 (Int.tdiv (int64OfFloat64 started) 1000) false) ∧
      r.1.attrs "expired_at" =
        .str (env.FormatTimeStampRFC3339 (Int.tdiv (int64OfFloat64 expired) 1000) false) := by
  refine ⟨((setAll d (ccmReadFields env (env.GetRegion d) body tags created started expired)).1,
    diagOfMultierror "error setting CCM private certificate fields: %s"
      (setAll d (ccmReadFields env (env.GetRegion d) body tags created started expired)).2),
    ?_, ?_, ?_, ?_⟩
  · unfold resourceCcmPrivateCertificateRead
    simp only [hclient, hreq, hflat, htags, hcreated, hstarted, hexpired, ok_bind, pure_eq_ok,
      Value.assertFloat64]
  · refine setAll_attrs_of_split (ccmReadFields env (env.GetRegion d) body tags created started expired)
      [("region", .str (env.GetRegion d)),
        ("distinguished_name", env.flattenDistinguishedName body),
        ("issuer_id", env.PathSearch "issuer_id" body .null),
        ("key_algorithm", env.PathSearch "key_algorithm" body .null),
        ("signature_algorithm", env.PathSearch "signature_algorithm" body .null),
        ("enterprise_project_id", env.PathSearch "enterprise_project_id" body .null),
        ("issuer_name", env.PathSearch "issuer_name" body .null),
        ("status", env.PathSearch "status" body .null),
        ("gen_mode", env.PathSearch "gen_mode" body .null),
        ("start_at",
          .str (env.FormatTimeStampRFC3339 (Int.tdiv (int64OfFloat64 started) 1000) false)),
        ("expired_at",
          .str (env.FormatTimeStampRFC3339 (Int.tdiv (int64OfFloat64 expired) 1000) false))]
      [("tags", .map tags)] d "created_at" _ _ rfl (hw "created_at" (by simp) _) (by simp)
  · refine setAll_attrs_of_split (ccmReadFields env (env.GetRegion d) body tags created started expired)
      [("region", .str (env.GetRegion d)),
        ("distinguished_name", env.flattenDistinguishedName body),
        ("issuer_id", env.PathSearch "issuer_id" body .null),
        ("key_algorithm", env.PathSearch "key_algorithm" body .null),
        ("signature_algorithm", env.PathSearch "signature_algorithm" body .null),
        ("enterprise_project_id", env.PathSearch "enterprise_project_id" body .null),
        ("issuer_name", env.PathSearch "issuer_name" body .null),
        ("status", env.PathSearch "status" body .null),
        ("gen_mode", env.PathSearch "gen_mode" body .null)]
      [("expired_at",
          .str (env.FormatTimeStampRFC3339 (Int.tdiv (int64OfFloat64 expired) 1000) false)),
        ("created_at",
          .str (env.FormatTimeStampRFC3339 (Int.tdiv (int64OfFloat64 created) 1000) false)),
        ("tags", .map tags)] d "start_at" _ _ rfl (hw "start_at" (by simp) _) (by simp)
  · refine setAll_attrs_of_split (ccmReadFields env (env.GetRegion d) body tags created started expired)
      [("region", .str (env.GetRegion d)),
        ("distinguished_name", env.flattenDistinguishedName body),
        ("issuer_id", env.PathSearch "issuer_id" body .null),
        ("key_algorithm", env.PathSearch "key_algorithm" body .null),
        ("signature_algorithm", env.PathSearch "signature_algorithm" body .null),
        ("enterprise_project_id", env.PathSearch "enterprise_project_id" body .null),
        ("issuer_name", env.PathSearch "issuer_name" body .null),
        ("status", env.PathSearch "status" body .null),
        ("gen_mode", env.PathSearch "gen_mode" body .null),
        ("start_at",
          .str (env.FormatTimeStampRFC3339 (Int.tdiv (int64OfFloat64 started) 1000) false))]
      [("created_at",
          .str (env.FormatTimeStampRFC3339 (Int.tdiv (int64OfFloat64 created) 1000) false)),
        ("tags", .map tags)] d "expired_at" _ _ rfl (hw "expired_at" (by simp) _) (by simp)

/-! ## The calendar of `formatUnixUTC` -/

theorem checkYears_spec (depth start : Nat) (h : checkYears depth start = true) :
    ∀ i, i < 2 ^ depth → start + i < 400 →
      yearOfEra (yearStart (start + i)) = start + i ∧ yearOfEra (yearEnd (start + i)) = start + i := by
  induction depth generalizing start with
  | zero =>
    intro i hi hlt
    have hi0 : i = 0 := by simpa using hi
    subst hi0
    simp only [checkYears, Bool.or_eq_true, Bool.and_eq_true] at h
    rcases h with h | h
    · have := Nat.le_of_ble_eq_true h
      omega
    · exact ⟨Nat.eq_of_beq_eq_true h.1, Nat.eq_of_beq_eq_true h.2⟩
  | succ depth ih =>
    intro i hi hlt
    simp only [checkYears, Bool.and_eq_true] at h
    by_cases hlow : i < 2 ^ depth
    · exact ih start h.1 i hlow hlt
    · have hi2 : i - 2 ^ depth < 2 ^ depth := by
        rw [pow_succ] at hi
        omega
      have := ih (start + 2 ^ depth) h.2 (i - 2 ^ depth) hi2 (by omega)
      have he : start + 2 ^ depth + (i - 2 ^ depth) = start + i := by omega
      rw [he] at this
      exact this

theorem checkYears_all : checkYears 9 0 = true := by decide

theorem yearOfEra_bounds (y : Nat) (hy : y < 400) :
    yearOfEra (yearStart y) = y ∧ yearOfEra (yearEnd y) = y := by
  have := checkYears_spec 9 0 checkYears_all y (by norm_num; omega) (by omega)
  simpa using this

theorem numerator_step (doe : Nat) (h : doe + 1 ≤ 146096) :
    doe - doe / 1460 + doe / 36524 - doe / 146096 ≤
      (doe + 1) - (doe + 1) / 1460 + (doe + 1) / 36524 - (doe + 1) / 146096 := by
  omega

theorem yearOfEra_mono (a b : Nat) (hab : a ≤ b) (hb : b ≤ 146096) :
    yearOfEra a ≤ yearOfEra b := by
  induction b, hab using Nat.le_induction with
  | base => exact le_refl _
  | succ n hn ih =>
    have h1 := ih (by omega)
    have h2 := numerator_step n hb
    unfold yearOfEra at *
    exact le_trans h1 (Nat.div_le_div_right h2)

theorem exists_year (n : Nat) (hn : n ≤ 399) (doe : Nat) (h : doe ≤ yearEnd n) :
    ∃ y, y ≤ n ∧ yearStart y ≤ doe ∧ doe ≤ yearEnd y := by
  induction n with
  | zero => exact ⟨0, le_refl 0, by simp [yearStart], h⟩
  | succ k ih =>
    by_cases hs : yearStart (k + 1) ≤ doe
    · exact ⟨k + 1, le_refl _, hs, h⟩
    · have hk : doe ≤ yearEnd k := by
        unfold yearEnd
        rw [if_neg (by omega)]
        omega
      obtain ⟨y, hy, h1, h2⟩ := ih (by omega) hk
      exact ⟨y, by omega, h1, h2⟩

theorem yearEnd_le (y : Nat) (hy : y ≤ 399) : yearEnd y ≤ 146096 := by
  unfold yearEnd yearStart
  split <;> omega

/-- Every day of the 400-year cycle lies within the year `yearOfEra` assigns to
it: the quotient is monotone and right on the first and last day of each year. -/
theorem yearOfEra_spec (doe : Nat) (h : doe ≤ 146096) :
    yearOfEra doe ≤ 399 ∧ yearStart (yearOfEra doe) ≤ doe ∧ doe ≤ yearEnd (yearOfEra doe) := by
  have h399 : yearEnd 399 = 146096 := by simp [yearEnd]
  obtain ⟨y, hy, h1, h2⟩ := exists_year 399 (le_refl _) doe (by rw [h399]; exact h)
  have hb := yearOfEra_bounds y (by omega)
  have hle := yearEnd_le y hy
  have hlow := yearOfEra_mono (yearStart y) doe h1 h
  have hhigh := yearOfEra_mono doe (yearEnd y) h2 hle
  have heq : yearOfEra doe = y := by omega
  rw [heq]
  exact ⟨hy, h1, h2⟩

theorem isLeapYear_iff (y : Int) :
    isLeapYear y = true ↔ y % 4 = 0 ∧ (y % 100 ≠ 0 ∨ y % 400 = 0) := by
  simp [isLeapYear]

set_option maxHeartbeats 4000000 in
theorem civil_of_parts (era yoe doy : Int) (hera : 0 ≤ era)
    (hyoe : 0 ≤ yoe ∧ yoe ≤ 399) (hdoy : 0 ≤ doy ∧ doy ≤ 365)
    (hleap : doy = 365 → (yoe + 1) % 4 = 0 ∧ ((yoe + 1) % 100 ≠ 0 ∨ (yoe + 1) % 400 = 0)) :
    ∃ Y M D : Nat,
      (yoe + era * 400 + (if (if (5 * doy + 2) / 153 < 10 then (5 * doy + 2) / 153 + 3
          else (5 * doy + 2) / 153 - 9) ≤ 2 then 1 else 0) = (Y : Int)) ∧
      ((if (5 * doy + 2) / 153 < 10 then (5 * doy + 2) / 153 + 3
          else (5 * doy + 2) / 153 - 9) = (M : Int)) ∧
      (doy - (153 * ((5 * doy + 2) / 153) + 2) / 5 + 1 = (D : Int)) ∧
      1 ≤ M ∧ M ≤ 12 ∧ 1 ≤ D ∧ D ≤ daysInMonth Y M ∧
      daysFromCivil Y M D =
        era * 146097 + (365 * yoe + yoe / 4 - yoe / 100) + doy - 719468 := by
  have hmp : (5 * doy + 2) / 153 = 0 ∨ (5 * doy + 2) / 153 = 1 ∨ (5 * doy + 2) / 153 = 2 ∨
      (5 * doy + 2) / 153 = 3 ∨ (5 * doy + 2) / 153 = 4 ∨ (5 * doy + 2) / 153 = 5 ∨
      (5 * doy + 2) / 153 = 6 ∨ (5 * doy + 2) / 153 = 7 ∨ (5 * doy + 2) / 153 = 8 ∨
      (5 * doy + 2) / 153 = 9 ∨ (5 * doy + 2) / 153 = 10 ∨ (5 * doy + 2) / 153 = 11 := by
    omega
  rcases hmp with h | h | h | h | h | h | h | h | h | h | h | h
  · rw [h]
    have hY : ((yoe + era * 400).toNat : Int) = yoe + era * 400 := Int.toNat_of_nonneg (by omega)
    have hD : ((doy - 0 + 1).toNat : Int) = doy - 0 + 1 := Int.toNat_of_nonneg (by omega)
    have hl := isLeapYear_iff (yoe + era * 400)
    refine ⟨(yoe + era * 400).toNat, 3, (doy - 0 + 1).toNat, ?_, ?_, ?_, ?_, ?_, ?_, ?_, ?_⟩
    · rw [hY]; norm_num
    · norm_num
    · rw [hD]; norm_num
    · omega
    · omega
    · omega
    · simp only [daysInMonth, hY]
      norm_num
      omega
    · simp only [daysFromCivil, daysBeforeMonth, daysInMonth, leapYearsThrough, hY, hD]
      norm_num [List.range_succ]
      split_ifs with hc <;> simp only [hl] at hc <;> omega
  · rw [h]
    have hY : ((yoe + era * 400).toNat : Int) = yoe + era * 400 := Int.toNat_of_nonneg (by omega)
    have hD : ((doy - 31 + 1).toNat : Int) = doy - 31 + 1 := Int.toNat_of_nonneg (by omega)
    have hl := isLeapYear_iff (yoe + era * 400)
    refine ⟨(yoe + era * 400).toNat, 4, (doy - 31 + 1).toNat, ?_, ?_, ?_, ?_, ?_, ?_, ?_, ?_⟩
    · rw [hY]; norm_num
    · norm_num
    · rw [hD]; norm_num
    · omega
    · omega
    · omega
    · simp only [daysInMonth, hY]
      norm_num
      omega
    · simp only [daysFromCivil, daysBeforeMonth, daysInMonth, leapYearsThrough, hY, hD]
      norm_num [List.range_succ]
      split_ifs with hc <;> simp only [hl] at hc <;> omega
  · rw [h]
    have hY : ((yoe + era * 400).toNat : Int) = yoe + era * 400 := Int.toNat_of_nonneg (by omega)
    have hD : ((doy - 61 + 1).toNat : Int) = doy - 61 + 1 := Int.toNat_of_nonneg (by omega)
    have hl := isLeapYear_iff (yoe + era * 400)
    refine ⟨(yoe + era * 400).toNat, 5, (doy - 61 + 1).toNat, ?_, ?_, ?_, ?_, ?_, ?_, ?_, ?_⟩
    · rw [hY]; norm_num
    · norm_num
    · rw [hD]; norm_num
    · omega
    · omega
    · omega
    · simp only [daysInMonth, hY]
      norm_num
      omega
    · simp only [daysFromCivil, daysBeforeMonth, daysInMonth, leapYearsThrough, hY, hD]
      norm_num [List.range_succ]
      split_ifs with hc <;> simp only [hl] at hc <;> omega
  · rw [h]
    have hY : ((yoe + era * 400).toNat : Int) = yoe + era * 400 := Int.toNat_of_nonneg (by omega)
    have hD : ((doy - 92 + 1).toNat : Int) = doy - 92 + 1 := Int.toNat_of_nonneg (by omega)
    have hl := isLeapYear_iff (yoe + era * 400)
    refine ⟨(yoe + era * 400).toNat, 6, (doy - 92 + 1).toNat, ?_, ?_, ?_, ?_, ?_, ?_, ?_, ?_⟩
    · rw [hY]; norm_num
    · norm_num
    · rw [hD]; norm_num
    · omega
    · omega
    · omega
    · simp only [daysInMonth, hY]
      norm_num
      omega
    · simp only [daysFromCivil, daysBeforeMonth, daysInMonth, leapYearsThrough, hY, hD]
      norm_num [List.range_succ]
      split_ifs with hc <;> simp only [hl] at hc <;> omega
  · rw [h]
    have hY : ((yoe + era * 400).toNat : Int) = yoe + era * 400 := Int.toNat_of_nonneg (by omega)
    have hD : ((doy - 122 + 1).toNat : Int) = doy - 122 + 1 := Int.toNat_of_nonneg (by omega)
    have hl := isLeapYear_iff (yoe + era * 400)
    refine ⟨(yoe + era * 400).toNat, 7, (doy - 122 + 1).toNat, ?_, ?_, ?_, ?_, ?_, ?_, ?_, ?_⟩
    · rw [hY]; norm_num
    · norm_num
    · rw [hD]; norm_num
    · omega
    · omega
    · omega
    · simp only [daysInMonth, hY]
      norm_num
      omega
    · simp only [daysFromCivil, daysBeforeMonth, daysInMonth, leapYearsThrough, hY, hD]
      norm_num [List.range_succ]
      split_ifs with hc <;> simp only [hl] at hc <;> omega
  · rw [h]
    have hY : ((yoe + era * 400).toNat : Int) = yoe + era * 400 := Int.toNat_of_nonneg (by omega)
    have hD : ((doy - 153 + 1).toNat : Int) = doy - 153 + 1 := Int.toNat_of_nonneg (by omega)
    have hl := isLeapYear_iff (yoe + era * 400)
    refine ⟨(yoe + era * 400).toNat, 8, (doy - 153 + 1).toNat, ?_, ?_, ?_, ?_, ?_, ?_, ?_, ?_⟩
    · rw [hY]; norm_num
    · norm_num
    · rw [hD]; norm_num
    · omega
    · omega
    · omega
    · simp only [daysInMonth, hY]
      norm_num
      omega
    · simp only [daysFromCivil, daysBeforeMonth, daysInMonth, leapYearsThrough, hY, hD]
      norm_num [List.range_succ]
      split_ifs with hc <;> simp only [hl] at hc <;> omega
  · rw [h]
    have hY : ((yoe + era * 400).toNat : Int) = yoe + era * 400 := Int.toNat_of_nonneg (by omega)
    have hD : ((doy - 184 + 1).toNat : Int) = doy - 184 + 1 := Int.toNat_of_nonneg (by omega)
    have hl := isLeapYear_iff (yoe + era * 400)
    refine ⟨(yoe + era * 400).toNat, 9, (doy - 184 + 1).toNat, ?_, ?_, ?_, ?_, ?_, ?_, ?_, ?_⟩
    · rw [hY]; norm_num
    · norm_num
    · rw [hD]; norm_num
    · omega
    · omega
    · omega
    · simp only [daysInMonth, hY]
      norm_num
      omega
    · simp only [daysFromCivil, daysBeforeMonth, daysInMonth, leapYearsThrough, hY, hD]
      norm_num [List.range_succ]
      split_ifs with hc <;> simp only [hl] at hc <;> omega
  · rw [h]
    have hY : ((yoe + era * 400).toNat : Int) = yoe + era * 400 := Int.toNat_of_nonneg (by omega)
    have hD : ((doy - 214 + 1).toNat : Int) = doy - 214 + 1 := Int.toNat_of_nonneg (by omega)
    have hl := isLeapYear_iff (yoe + era * 400)
    refine ⟨(yoe + era * 400).toNat, 10, (doy - 214 + 1).toNat, ?_, ?_, ?_, ?_, ?_, ?_, ?_, ?_⟩
    · rw [hY]; norm_num
    · norm_num
    · rw [hD]; norm_num
    · omega
    · omega
    · omega
    · simp only [daysInMonth, hY]
      norm_num
      omega
    · simp only [daysFromCivil, daysBeforeMonth, daysInMonth, leapYearsThrough, hY, hD]
      norm_num [List.range_succ]
      split_ifs with hc <;> simp only [hl] at hc <;> omega
  · rw [h]
    have hY : ((yoe + era * 400).toNat : Int) = yoe + era * 400 := Int.toNat_of_nonneg (by omega)
    have hD : ((doy - 245 + 1).toNat : Int) = doy - 245 + 1 := Int.toNat_of_nonneg (by omega)
    have hl := isLeapYear_iff (yoe + era * 400)
    refine ⟨(yoe + era * 400).toNat, 11, (doy - 245 + 1).toNat, ?_, ?_, ?_, ?_, ?_, ?_, ?_, ?_⟩
    · rw [hY]; norm_num
    · norm_num
    · rw [hD]; norm_num
    · omega
    · omega
    · omega
    · simp only [daysInMonth, hY]
      norm_num
      omega
    · simp only [daysFromCivil, daysBeforeMonth, daysInMonth, leapYearsThrough, hY, hD]
      norm_num [List.range_succ]
      split_ifs with hc <;> simp only [hl] at hc <;> omega
  · rw [h]
    have hY : ((yoe + era * 400).toNat : Int) = yoe + era * 400 := Int.toNat_of_nonneg (by omega)
    have hD : ((doy - 275 + 1).toNat : Int) = doy - 275 + 1 := Int.toNat_of_nonneg (by omega)
    have hl := isLeapYear_iff (yoe + era * 400)
    refine ⟨(yoe + era * 400).toNat, 12, (doy - 275 + 1).toNat, ?_, ?_, ?_, ?_, ?_, ?_, ?_, ?_⟩
    · rw [hY]; norm_num
    · norm_num
    · rw [hD]; norm_num
    · omega
    · omega
    · omega
    · simp only [daysInMonth, hY]
      norm_num
      omega
    · simp only [daysFromCivil, daysBeforeMonth, daysInMonth, leapYearsThrough, hY, hD]
      norm_num [List.range_succ]
      split_ifs with hc <;> simp only [hl] at hc <;> omega
  · rw [h]
    have hY : ((yoe + era * 400 + 1).toNat : Int) = yoe + era * 400 + 1 := Int.toNat_of_nonneg (by omega)
    have hD : ((doy - 306 + 1).toNat : Int) = doy - 306 + 1 := Int.toNat_of_nonneg (by omega)
    have hl := isLeapYear_iff (yoe + era * 400 + 1)
    refine ⟨(yoe + era * 400 + 1).toNat, 1, (doy - 306 + 1).toNat, ?_, ?_, ?_, ?_, ?_, ?_, ?_, ?_⟩
    · rw [hY]; norm_num
    · norm_num
    · rw [hD]; norm_num
    · omega
    · omega
    · omega
    · simp only [daysInMonth, hY]
      norm_num
      omega
    · simp only [daysFromCivil, daysBeforeMonth, daysInMonth, leapYearsThrough, hY, hD]
      norm_num [List.range_succ]
      omega
  · rw [h]
    have hY : ((yoe + era * 400 + 1).toNat : Int) = yoe + era * 400 + 1 := Int.toNat_of_nonneg (by omega)
    have hD : ((doy - 337 + 1).toNat : Int) = doy - 337 + 1 := Int.toNat_of_nonneg (by omega)
    have hl := isLeapYear_iff (yoe + era * 400 + 1)
    refine ⟨(yoe + era * 400 + 1).toNat, 2, (doy - 337 + 1).toNat, ?_, ?_, ?_, ?_, ?_, ?_, ?_, ?_⟩
    · rw [hY]; norm_num
    · norm_num
    · rw [hD]; norm_num
    · omega
    · omega
    · omega
    · simp only [daysInMonth, hY]
      norm_num
      split_ifs with hc <;> simp only [hl] at hc <;> omega
    · simp only [daysFromCivil, daysBeforeMonth, daysInMonth, leapYearsThrough, hY, hD]
      norm_num [List.range_succ]
      omega

theorem yearOfEra_int (doe : Int) (h0 : 0 ≤ doe) (h1 : doe ≤ 146096) :
    0 ≤ (doe - doe / 1460 + doe / 36524 - doe / 146096) / 365 ∧
    (doe - doe / 1460 + doe / 36524 - doe / 146096) / 365 ≤ 399 ∧
    0 ≤ doe - (365 * ((doe - doe / 1460 + doe / 36524 - doe / 146096) / 365) +
      (doe - doe / 1460 + doe / 36524 - doe / 146096) / 365 / 4 -
      (doe - doe / 1460 + doe / 36524 - doe / 146096) / 365 / 100) ∧
    doe - (365 * ((doe - doe / 1460 + doe / 36524 - doe / 146096) / 365) +
      (doe - doe / 1460 + doe / 36524 - doe / 146096) / 365 / 4 -
      (doe - doe / 1460 + doe / 36524 - doe / 146096) / 365 / 100) ≤ 365 ∧
    (doe - (365 * ((doe - doe / 1460 + doe / 36524 - doe / 146096) / 365) +
      (doe - doe / 1460 + doe / 36524 - doe / 146096) / 365 / 4 -
      (doe - doe / 1460 + doe / 36524 - doe / 146096) / 365 / 100) = 365 →
      ((doe - doe / 1460 + doe / 36524 - doe / 146096) / 365 + 1) % 4 = 0 ∧
      (((doe - doe / 1460 + doe / 36524 - doe / 146096) / 365 + 1) % 100 ≠ 0 ∨
        ((doe - doe / 1460 + doe / 36524 - doe / 146096) / 365 + 1) % 400 = 0)) := by
  obtain ⟨n, rfl⟩ := Int.eq_ofNat_of_zero_le h0
  have hs := yearOfEra_spec n (by omega)
  have hy : ((n : Int) - (n : Int) / 1460 + (n : Int) / 36524 - (n : Int) / 146096) / 365 =
      ((yearOfEra n : Nat) : Int) := by
    unfold yearOfEra
    omega
  rw [hy]
  clear hy
  generalize yearOfEra n = y at hs ⊢
  obtain ⟨hs1, hs2, hs3⟩ := hs
  unfold yearEnd at hs3
  unfold yearStart at hs2 hs3
  have h4 : (y + 1) / 4 = y / 4 ∨ ((y + 1) / 4 = y / 4 + 1 ∧ (y + 1) % 4 = 0) := by omega
  have h100 : (y + 1) / 100 = y / 100 ∨ ((y + 1) / 100 = y / 100 + 1 ∧ (y + 1) % 100 = 0) := by
    omega
  have hq : y / 100 ≤ y / 4 := by omega
  split at hs3
  · refine ⟨by omega, by omega, by omega, by omega, ?_⟩
    intro _
    omega
  · refine ⟨by omega, by omega, by omega, by omega, ?_⟩
    intro h365
    rcases h4 with h4 | h4 <;> rcases h100 with h100 | h100 <;> omega

/-- The date `civilFromDays` computes for a day count from 1970-01-01 onwards is
a valid date of the Gregorian calendar, and counting its days gives the day
count back. -/
theorem civilFromDays_spec (days : Int) (hd : 0 ≤ days) :
    ∃ Y M D : Nat, civilFromDays days = ((Y : Int), (M : Int), (D : Int)) ∧
      1 ≤ M ∧ M ≤ 12 ∧ 1 ≤ D ∧ D ≤ daysInMonth Y M ∧ daysFromCivil Y M D = days := by
  have e1 : ∀ a : Int, Int.fdiv a 146097 = a / 146097 := fun a => Int.fdiv_eq_ediv a (by decide)
  have e2 : ∀ a : Int, Int.fdiv a 1460 = a / 1460 := fun a => Int.fdiv_eq_ediv a (by decide)
  have e3 : ∀ a : Int, Int.fdiv a 36524 = a / 36524 := fun a => Int.fdiv_eq_ediv a (by decide)
  have e4 : ∀ a : Int, Int.fdiv a 146096 = a / 146096 := fun a => Int.fdiv_eq_ediv a (by decide)
  have e5 : ∀ a : Int, Int.fdiv a 365 = a / 365 := fun a => Int.fdiv_eq_ediv a (by decide)
  have e6 : ∀ a : Int, Int.fdiv a 4 = a / 4 := fun a => Int.fdiv_eq_ediv a (by decide)
  have e7 : ∀ a : Int, Int.fdiv a 100 = a / 100 := fun a => Int.fdiv_eq_ediv a (by decide)
  have e8 : ∀ a : Int, Int.fdiv a 153 = a / 153 := fun a => Int.fdiv_eq_ediv a (by decide)
  have e9 : ∀ a : Int, Int.fdiv a 5 = a / 5 := fun a => Int.fdiv_eq_ediv a (by decide)
  simp only [civilFromDays, e1, e2, e3, e4, e5, e6, e7, e8, e9]
  obtain ⟨era, hera⟩ : ∃ era, era = (days + 719468) / 146097 := ⟨_, rfl⟩
  obtain ⟨doe, hdoe⟩ : ∃ doe, doe = days + 719468 - era * 146097 := ⟨_, rfl⟩
  simp only [← hera, ← hdoe]
  obtain ⟨hy0, hy1, hd0, hd1, hleap⟩ := yearOfEra_int doe (by omega) (by omega)
  obtain ⟨yoe, hyoe⟩ : ∃ yoe, yoe = (doe - doe / 1460 + doe / 36524 - doe / 146096) / 365 :=
    ⟨_, rfl⟩
  simp only [← hyoe] at hy0 hy1 hd0 hd1 hleap ⊢
  obtain ⟨doy, hdoy⟩ : ∃ doy, doy = doe - (365 * yoe + yoe / 4 - yoe / 100) := ⟨_, rfl⟩
  simp only [← hdoy] at hd0 hd1 hleap ⊢
  obtain ⟨Y, M, D, hY, hM, hD, h1, h2, h3, h4, h5⟩ :=
    civil_of_parts era yoe doy (by omega) ⟨hy0, hy1⟩ ⟨hd0, hd1⟩ hleap
  refine ⟨Y, M, D, ?_, h1, h2, h3, h4, ?_⟩
  · rw [hM, hD, ← hY, hM]
  · rw [h5]
    omega

/-- The string `formatUnixUTC` renders for an instant at or after the epoch is
the layout filled with a valid civil time that denotes the instant. -/
theorem formatUnixUTC_spec (sec : Int) (hs : 0 ≤ sec) :
    ∃ Y M D h m s : Nat, IsCivilTimeOf Y M D h m s sec ∧
      formatUnixUTC sec = layoutUTC Y M D h m s := by
  have e1 : ∀ a : Int, Int.fdiv a 86400 = a / 86400 := fun a => Int.fdiv_eq_ediv a (by decide)
  have e2 : ∀ a : Int, Int.fdiv a 3600 = a / 3600 := fun a => Int.fdiv_eq_ediv a (by decide)
  have e3 : ∀ a : Int, Int.fdiv a 60 = a / 60 := fun a => Int.fdiv_eq_ediv a (by decide)
  obtain ⟨Y, M, D, hc, h1, h2, h3, h4, h5⟩ := civilFromDays_spec (sec / 86400) (by omega)
  obtain ⟨rem, hrem⟩ : ∃ rem, rem = sec - sec / 86400 * 86400 := ⟨_, rfl⟩
  refine ⟨Y, M, D, (rem / 3600).toNat, ((rem - rem / 3600 * 3600) / 60).toNat,
    (rem - rem / 60 * 60).toNat, ⟨h1, h2, h3, h4, ?_, ?_, ?_, ?_⟩, ?_⟩
  · omega
  · omega
  · omega
  · rw [h5]
    omega
  · simp only [formatUnixUTC, e1, e2, e3, hc, ← hrem, layoutUTC]
    rw [if_neg (by omega)]
    rfl

/-- C21, as stated, fails for the CCM private certificate at a timestamp beyond
the range of `int64`: for the non-negative `create_time` of 1e19 milliseconds,
whose whole seconds are 10^16, the conversion `int64(created)` is out of range,
`resourceCcmPrivateCertificateRead` hands -9223372036854775 seconds to the
formatting helper, and `created_at` is not the rendering of 10^16 seconds.  No
`int64` divided by 1000 gives 10^16, whatever the out-of-range conversion
yields. -/
theorem ccm_read_timestamp_out_of_range :
    (0 : Rat) ≤ 10000000000000000000 ∧
      ⌊(10000000000000000000 : Rat) / 1000⌋ = 10000000000000000 ∧
      Int.tdiv (int64OfFloat64 10000000000000000000) 1000 = -9223372036854775 ∧
      (∃ r, resourceCcmPrivateCertificateRead
            (ccmEnv (ccmClient ccmServerFarFuture) (.ok []) none)
            (certificateData "cert-1" []) = .ok r ∧
        r.1.attrs "created_at" = .str (formatUnixUTC (-9223372036854775))) ∧
      formatUnixUTC (-9223372036854775) ≠ formatUnixUTC 10000000000000000 ∧
      ∀ n : Int, -9223372036854775808 ≤ n → n ≤ 9223372036854775807 →
        Int.tdiv n 1000 ≠ 10000000000000000 := by
  refine ⟨by norm_num, ?_, rfl, ⟨_, rfl, rfl⟩, by decide, ?_⟩
  · rw [show (10000000000000000000 : Rat) / 1000 = ((10000000000000000 : Int) : Rat) by norm_num]
    exact Int.floor_intCast _
  · intro n h1 h2 h
    by_cases hn : 0 ≤ n
    · rw [Int.tdiv_eq_ediv hn (by decide)] at h
      omega
    · have h3 : Int.tdiv n 1000 = -(Int.tdiv (-n) 1000) := by rw [Int.neg_tdiv, neg_neg]
      have h4 : 0 ≤ Int.tdiv (-n) 1000 := Int.tdiv_nonneg (by omega) (by decide)
      omega

/-- C21 amended: timestamps are epoch milliseconds reduced to whole seconds.
When `resourceCsmsSecretRead` gets a secret whose `CreateTime` is a number of
milliseconds `ms ≥ 0`, finds the latest version, and the field writer stores
strings, the Read returns and `create_time` holds the layout
"YYYY-MM-DD HH:MM:SS UTC" filled with a valid civil time of the zone UTC, the
one that lies `ms / 1000` seconds, rounded down, after 1970-01-01T00:00:00Z; for
`ms = 0` this is "1970-01-01 00:00:00 UTC"; and a Read of a secret whose
`CreateTime` lies in the same second sets the same string.  When
`resourceCcmPrivateCertificateRead` gets a body whose `create_time`,
`not_before` and `not_after` are the numbers `created`, `started` and `expired`,
each from 0 to below 2^63, it returns and `created_at`, `start_at` and
`expired_at` hold the strings that `utils.FormatTimeStampRFC3339`, called with
`false` as its second argument, returns for the whole seconds
`⌊created / 1000⌋`, `⌊started / 1000⌋` and `⌊expired / 1000⌋`; the zone and the
layout of these strings are that helper's.  A Read of a body whose three numbers
lie in the same seconds sets the same three strings. -/
theorem timestamps_have_whole_second_precision
    (env : CsmsEnv) (d : ResourceData) (kms : KmsClient) (secret : Secret) (version : Version)
    (cenv : CcmEnv) (c : ResourceData) (client : ServiceClient) (resp : HttpResponse)
    (body : Value) (tags : List (String × Value)) (created started expired : Rat)
    (hkms : env.KmsV1Client (env.GetRegion d) = .ok kms)
    (hget : kms.secretsGet (parseID d.Id).2 = .ok secret)
    (hver : queryLatestVersion env (env.GetRegion d) (parseID d.Id).2 = .ok (.ok version))
    (hwriter : ∀ s, d.writer "create_time" (.str s) = .ok (.str s))
    (hms : 0 ≤ secret.CreateTime)
    (hclient : cenv.NewServiceClient "ccm" (cenv.GetRegion c) = .ok client)
    (hreq : client.Request "GET" (certificatePath client c) none = .ok resp)
    (hflat : cenv.FlattenResponse resp = .ok body)
    (htags : cenv.getTags c.Id client "v1/private-certificates/\x7bid\x7d/tags" = .ok tags)
    (hcreated : cenv.PathSearch "create_time" body (.int 0) = .float64 created)
    (hstarted : cenv.PathSearch "not_before" body (.int 0) = .float64 started)
    (hexpired : cenv.PathSearch "not_after" body (.int 0) = .float64 expired)
    (hcwriter : ∀ key ∈ ["start_at", "expired_at", "created_at"], ∀ s,
      c.writer key (.str s) = .ok (.str s))
    (hc0 : 0 ≤ created) (hs0 : 0 ≤ started) (he0 : 0 ≤ expired)
    (hc1 : created < 9223372036854775808) (hs1 : started < 9223372036854775808)
    (he1 : expired < 9223372036854775808) :
    (∃ r, resourceCsmsSecretRead env d = .ok r ∧
      (∃ Y M D h m s : Nat, IsCivilTimeOf Y M D h m s (secret.CreateTime / 1000) ∧
        r.1.attrs "create_time" = .str (layoutUTC Y M D h m s)) ∧
      (secret.CreateTime = 0 → r.1.attrs "create_time" = .str "1970-01-01 00:00:00 UTC") ∧
      ∀ (env2 : CsmsEnv) (d2 : ResourceData) (kms2 : KmsClient) (secret2 : Secret)
        (version2 : Version),
        env2.KmsV1Client (env2.GetRegion d2) = .ok kms2 →
        kms2.secretsGet (parseID d2.Id).2 = .ok secret2 →
        queryLatestVersion env2 (env2.GetRegion d2) (parseID d2.Id).2 = .ok (.ok version2) →
        (∀ s, d2.writer "create_time" (.str s) = .ok (.str s)) →
        0 ≤ secret2.CreateTime →
        secret2.CreateTime / 1000 = secret.CreateTime / 1000 →
        ∃ r2, resourceCsmsSecretRead env2 d2 = .ok r2 ∧
          r2.1.attrs "create_time" = r.1.attrs "create_time") ∧
    (∃ r, resourceCcmPrivateCertificateRead cenv c = .ok r ∧
      r.1.attrs "created_at" = .str (cenv.FormatTimeStampRFC3339 ⌊created / 1000⌋ false) ∧
      r.1.attrs "start_at" = .str (cenv.FormatTimeStampRFC3339 ⌊started / 1000⌋ false) ∧
      r.1.attrs "expired_at" = .str (cenv.FormatTimeStampRFC3339 ⌊expired / 1000⌋ false) ∧
      ∀ (c2 : ResourceData) (client2 : ServiceClient) (resp2 : HttpResponse) (body2 : Value)
        (tags2 : List (String × Value)) (created2 started2 expired2 : Rat),
        cenv.NewServiceClient "ccm" (cenv.GetRegion c2) = .ok client2 →
        client2.Request "GET" (certificatePath client2 c2) none = .ok resp2 →
        cenv.FlattenResponse resp2 = .ok body2 →
        cenv.getTags c2.Id client2 "v1/private-certificates/\x7bid\x7d/tags" = .ok tags2 →
        cenv.PathSearch "create_time" body2 (.int 0) = .float64 created2 →
        cenv.PathSearch "not_before" body2 (.int 0) = .float64 started2 →
        cenv.PathSearch "not_after" body2 (.int 0) = .float64 expired2 →
        (∀ key ∈ ["start_at", "expired_at", "created_at"], ∀ s,
          c2.writer key (.str s) = .ok (.str s)) →
        0 ≤ created2 → 0 ≤ started2 → 0 ≤ expired2 →
        created2 < 9223372036854775808 → started2 < 9223372036854775808 →
        expired2 < 9223372036854775808 →
        ⌊created2 / 1000⌋ = ⌊created / 1000⌋ →
        ⌊started2 / 1000⌋ = ⌊started / 1000⌋ →
        ⌊expired2 / 1000⌋ = ⌊expired / 1000⌋ →
        ∃ r2, resourceCcmPrivateCertificateRead cenv c2 = .ok r2 ∧
          r2.1.attrs "created_at" = r.1.attrs "created_at" ∧
          r2.1.attrs "start_at" = r.1.attrs "start_at" ∧
          r2.1.attrs "expired_at" = r.1.attrs "expired_at") := by
  obtain ⟨r, hr, hattr⟩ := csms_read_create_time env d kms secret version hkms hget hver hwriter
  have hdiv : Int.tdiv secret.CreateTime 1000 = secret.CreateTime / 1000 :=
    Int.tdiv_eq_ediv hms (by decide)
  obtain ⟨rc, hrc, ha1, ha2, ha3⟩ := ccm_read_times cenv c client resp body tags created started
    expired hclient hreq hflat htags hcreated hstarted hexpired hcwriter
  rw [int64OfFloat64_div_1000 _ hc0 hc1] at ha1
  rw [int64OfFloat64_div_1000 _ hs0 hs1] at ha2
  rw [int64OfFloat64_div_1000 _ he0 he1] at ha3
  refine ⟨⟨r, hr, ?_, ?_, ?_⟩, ⟨rc, hrc, ha1, ha2, ha3, ?_⟩⟩
  · obtain ⟨Y, M, D, h, m, s, hcivil, hfmt⟩ :=
      formatUnixUTC_spec (secret.CreateTime / 1000) (by omega)
    exact ⟨Y, M, D, h, m, s, hcivil, by rw [hattr, hdiv, hfmt]⟩
  · intro h0
    rw [hattr, h0]
    rfl
  · intro env2 d2 kms2 secret2 version2 h1 h2 h3 h4 h5 h6
    obtain ⟨r2, hr2, hattr2⟩ := csms_read_create_time env2 d2 kms2 secret2 version2 h1 h2 h3 h4
    exact ⟨r2, hr2, by rw [hattr2, hattr, Int.tdiv_eq_ediv h5 (by decide), hdiv, h6]⟩
  · intro c2 client2 resp2 body2 tags2 created2 started2 expired2 h1 h2 h3 h4 h5 h6 h7 h8 h9 h10
      h11 hb1 hb2 hb3 h12 h13 h14
    obtain ⟨r2, hr2, hd1, hd2, hd3⟩ := ccm_read_times cenv c2 client2 resp2 body2 tags2 created2
      started2 expired2 h1 h2 h3 h4 h5 h6 h7 h8
    rw [int64OfFloat64_div_1000 _ h9 hb1, h12] at hd1
    rw [int64OfFloat64_div_1000 _ h10 hb2, h13] at hd2
    rw [int64OfFloat64_div_1000 _ h11 hb3, h14] at hd3
    exact ⟨r2, hr2, by rw [hd1, ha1], by rw [hd2, ha2], by rw [hd3, ha3]⟩

/-- Witness of the amended C21: the example secret, created 1700000000123 milliseconds after
the epoch, and the example certificate. -/
theorem timestamps_have_whole_second_precision_witness :
    (∃ r, resourceCsmsSecretRead
          (csmsEnv (kmsClient (.ok exampleSecret) none (.ok exampleVersions)
            (.ok exampleVersion) none (.ok [])))
          (secretData "sid-1/secret-a" "secret-a" []) = .ok r ∧
      (∃ Y M D h m s : Nat, IsCivilTimeOf Y M D h m s (exampleSecret.CreateTime / 1000) ∧
        r.1.attrs "create_time" = .str (layoutUTC Y M D h m s)) ∧
      (exampleSecret.CreateTime = 0 →
        r.1.attrs "create_time" = .str "1970-01-01 00:00:00 UTC") ∧
      ∀ (env2 : CsmsEnv) (d2 : ResourceData) (kms2 : KmsClient) (secret2 : Secret)
        (version2 : Version),
        env2.KmsV1Client (env2.GetRegion d2) = .ok kms2 →
        kms2.secretsGet (parseID d2.Id).2 = .ok secret2 →
        queryLatestVersion env2 (env2.GetRegion d2) (parseID d2.Id).2 = .ok (.ok version2) →
        (∀ s, d2.writer "create_time" (.str s) = .ok (.str s)) →
        0 ≤ secret2.CreateTime →
        secret2.CreateTime / 1000 = exampleSecret.CreateTime / 1000 →
        ∃ r2, resourceCsmsSecretRead env2 d2 = .ok r2 ∧
          r2.1.attrs "create_time" = r.1.attrs "create_time") ∧
    (∃ r, resourceCcmPrivateCertificateRead (ccmEnv (ccmClient ccmServer) (.ok []) none)
          (certificateData "cert-1" []) = .ok r ∧
      r.1.attrs "created_at" = .str (formatUnixUTC ⌊(1700000000123 : Rat) / 1000⌋) ∧
      r.1.attrs "start_at" = .str (formatUnixUTC ⌊(1700000000000 : Rat) / 1000⌋) ∧
      r.1.attrs "expired_at" = .str (formatUnixUTC ⌊(1731536000000 : Rat) / 1000⌋) ∧
      ∀ (c2 : ResourceData) (client2 : ServiceClient) (resp2 : HttpResponse) (body2 : Value)
        (tags2 : List (String × Value)) (created2 started2 expired2 : Rat),
        (ccmEnv (ccmClient ccmServer) (.ok []) none).NewServiceClient "ccm"
          ((ccmEnv (ccmClient ccmServer) (.ok []) none).GetRegion c2) = .ok client2 →
        client2.Request "GET" (certificatePath client2 c2) none = .ok resp2 →
        (ccmEnv (ccmClient ccmServer) (.ok []) none).FlattenResponse resp2 = .ok body2 →
        (ccmEnv (ccmClient ccmServer) (.ok []) none).getTags c2.Id client2
          "v1/private-certificates/\x7bid\x7d/tags" = .ok tags2 →
        (ccmEnv (ccmClient ccmServer) (.ok []) none).PathSearch "create_time" body2 (.int 0) =
          .float64 created2 →
        (ccmEnv (ccmClient ccmServer) (.ok []) none).PathSearch "not_before" body2 (.int 0) =
          .float64 started2 →
        (ccmEnv (ccmClient ccmServer) (.ok []) none).PathSearch "not_after" body2 (.int 0) =
          .float64 expired2 →
        (∀ key ∈ ["start_at", "expired_at", "created_at"], ∀ s,
          c2.writer key (.str s) = .ok (.str s)) →
        0 ≤ created2 → 0 ≤ started2 → 0 ≤ expired2 →
        created2 < 9223372036854775808 → started2 < 9223372036854775808 →
        expired2 < 9223372036854775808 →
        ⌊created2 / 1000⌋ = ⌊(1700000000123 : Rat) / 1000⌋ →
        ⌊started2 / 1000⌋ = ⌊(1700000000000 : Rat) / 1000⌋ →
        ⌊expired2 / 1000⌋ = ⌊(1731536000000 : Rat) / 1000⌋ →
        ∃ r2, resourceCcmPrivateCertificateRead (ccmEnv (ccmClient ccmServer) (.ok []) none)
            c2 = .ok r2 ∧
          r2.1.attrs "created_at" = r.1.attrs "created_at" ∧
          r2.1.attrs "start_at" = r.1.attrs "start_at" ∧
          r2.1.attrs "expired_at" = r.1.attrs "expired_at") :=
  timestamps_have_whole_second_precision
    (csmsEnv (kmsClient (.ok exampleSecret) none (.ok exampleVersions)
      (.ok exampleVersion) none (.ok [])))
    (secretData "sid-1/secret-a" "secret-a" [])
    (kmsClient (.ok exampleSecret) none (.ok exampleVersions) (.ok exampleVersion) none (.ok []))
    exampleSecret exampleVersion
    (ccmEnv (ccmClient ccmServer) (.ok []) none) (certificateData "cert-1" [])
    (ccmClient ccmServer) ⟨200, some certificateBody⟩ certificateBody []
    1700000000123 1700000000000 1731536000000
    rfl rfl rfl (fun _ => rfl) (by decide) rfl rfl rfl rfl rfl rfl rfl (fun _ _ _ => rfl)
    (by simp) (by simp) (by simp) (by decide) (by decide) (by decide)

end Huaweicloud
